import Mathlib

/-!
# vitaGL `source/utils/gpu_utils.c`: GPU memory and texture utilities

A shallow embedding of the texture sizing, Morton addressing, block swizzling and
texture lifecycle routines of `gpu_utils.c`, with theorems about them.

Conventions of the embedding.

* `uint32_t` / `unsigned int` values are naturals, every arithmetic result reduced
  `% 2 ^ 32`; `uint64_t` values are naturals below `2 ^ 64`.
* Signed `int` values are integers.  Signed overflow is undefined in C, so the
  integer results describe the code on the inputs where no intermediate value
  leaves the `int` range.
* The double arithmetic of the PVRT-II size formulas (`width / 8.0`, `* 8.0`)
  only ever produces multiples of `1/8` of small magnitude, which doubles
  represent exactly; it is embedded as exact rational arithmetic.
* Memory is a function from byte offsets to byte values; a pointer into a block
  is an offset into that function.  Writes past the end of a block are not told
  apart from writes inside it.
* Routines that report errors return an `Outcome`: the error stored in the
  last-error slot, if any, and the texture object as the routine leaves it.
-/

namespace VitaGL

/-! ## Macros of `shared.h` / `gpu_utils.h` -/

/-- Modelled from the spec: the macro `MAX` of `shared.h` (not part of the sources
at hand), the larger of its two arguments. -/
def MAX (a b : ℤ) : ℤ := if a > b then a else b

/-- Modelled from the spec: the macro `CEIL` of `shared.h` (not part of the sources
at hand), the ceiling of the numeric value of its argument.  Applied to an
expression that is already an integer (`width / 4` on `int`s) it returns it. -/
def CEIL (a : ℚ) : ℤ := ⌈a⌉

/-- A value reduced to `uint32_t`. -/
def u32 (x : Nat) : Nat := x % 2 ^ 32

/-- An `int` converted to `uint64_t`. -/
def u64 (x : ℤ) : Nat := (x % 2 ^ 64).toNat

/-- The macro `ALIGN(x, a) = (((x) + ((a)-1)) & ~((a)-1))` on `uint32_t` operands. -/
def ALIGN (x a : Nat) : Nat :=
  u32 (x + u32 (a + 2 ^ 32 - 1)) &&& (2 ^ 32 - 1 - u32 (a + 2 ^ 32 - 1))

/-! ## `nearest_po2` -/

/-- Source: `nearest_po2` (bit-smear round-up on `uint32_t`). -/
def nearest_po2 (val : Nat) : Nat :=
  let val := u32 (val + 2 ^ 32 - 1)
  let val := val ||| (val >>> 1)
  let val := val ||| (val >>> 2)
  let val := val ||| (val >>> 4)
  let val := val ||| (val >>> 8)
  let val := val ||| (val >>> 16)
  u32 (val + 1)

/-- The bit-smear part of `nearest_po2`, between the decrement and the increment. -/
def smear (x : Nat) : Nat :=
  let val := x
  let val := val ||| (val >>> 1)
  let val := val ||| (val >>> 2)
  let val := val ||| (val >>> 4)
  let val := val ||| (val >>> 8)
  let val := val ||| (val >>> 16)
  val

/-! ## Texture formats -/

/-- Modelled from the spec: the base-format field of `SceGxmTextureFormat` (an SDK
enumeration, not part of the sources at hand); `format & 0x9f000000U` selects it.
Only the base formats named in `gpu_utils.c` are listed, the rest is `OTHER`. -/
inductive SceGxmTextureBaseFormat
  | U8 | S8 | P8
  | U4U4U4U4 | U8U3U3U2 | U1U5U5U5 | U5U6U5 | S5S5U6 | U8U8 | S8S8
  | U8U8U8 | S8S8S8
  | U8U8U8U8 | S8S8S8S8 | F32 | U32 | S32
  | PVRT2BPP | PVRT4BPP | PVRTII2BPP | PVRTII4BPP | UBC1 | UBC3
  | OTHER (code : Nat)
  deriving DecidableEq

/-- Modelled from the spec: the swizzle field of `SceGxmTextureFormat`. -/
inductive SceGxmTextureSwizzle
  | SWIZZLE4_ABGR | SWIZZLE4_1BGR
  | OTHER (code : Nat)
  deriving DecidableEq

/-- Modelled from the spec: a `SceGxmTextureFormat` is a base format or-ed with a
swizzle mode. -/
structure SceGxmTextureFormat where
  base : SceGxmTextureBaseFormat
  swizzle : SceGxmTextureSwizzle
  deriving DecidableEq

open SceGxmTextureBaseFormat SceGxmTextureSwizzle

def SCE_GXM_TEXTURE_FORMAT_PVRT2BPP_1BGR : SceGxmTextureFormat := ⟨PVRT2BPP, SWIZZLE4_1BGR⟩
def SCE_GXM_TEXTURE_FORMAT_PVRT2BPP_ABGR : SceGxmTextureFormat := ⟨PVRT2BPP, SWIZZLE4_ABGR⟩
def SCE_GXM_TEXTURE_FORMAT_PVRT4BPP_1BGR : SceGxmTextureFormat := ⟨PVRT4BPP, SWIZZLE4_1BGR⟩
def SCE_GXM_TEXTURE_FORMAT_PVRT4BPP_ABGR : SceGxmTextureFormat := ⟨PVRT4BPP, SWIZZLE4_ABGR⟩
def SCE_GXM_TEXTURE_FORMAT_PVRTII2BPP_ABGR : SceGxmTextureFormat := ⟨PVRTII2BPP, SWIZZLE4_ABGR⟩
def SCE_GXM_TEXTURE_FORMAT_PVRTII4BPP_ABGR : SceGxmTextureFormat := ⟨PVRTII4BPP, SWIZZLE4_ABGR⟩
def SCE_GXM_TEXTURE_FORMAT_UBC1_1BGR : SceGxmTextureFormat := ⟨UBC1, SWIZZLE4_1BGR⟩
def SCE_GXM_TEXTURE_FORMAT_UBC1_ABGR : SceGxmTextureFormat := ⟨UBC1, SWIZZLE4_ABGR⟩
def SCE_GXM_TEXTURE_FORMAT_UBC3_ABGR : SceGxmTextureFormat := ⟨UBC3, SWIZZLE4_ABGR⟩

/-- The nine compressed formats the sizing `switch` of `gpu_get_mipchain_size`
has a case for. -/
def supported_compressed_formats : List SceGxmTextureFormat :=
  [SCE_GXM_TEXTURE_FORMAT_PVRT2BPP_1BGR, SCE_GXM_TEXTURE_FORMAT_PVRT2BPP_ABGR,
   SCE_GXM_TEXTURE_FORMAT_PVRT4BPP_1BGR, SCE_GXM_TEXTURE_FORMAT_PVRT4BPP_ABGR,
   SCE_GXM_TEXTURE_FORMAT_PVRTII2BPP_ABGR, SCE_GXM_TEXTURE_FORMAT_PVRTII4BPP_ABGR,
   SCE_GXM_TEXTURE_FORMAT_UBC1_1BGR, SCE_GXM_TEXTURE_FORMAT_UBC1_ABGR,
   SCE_GXM_TEXTURE_FORMAT_UBC3_ABGR]

/-! ## Mip chain sizing -/

/-- Source: the `switch (format)` in the loop body of `gpu_get_mipchain_size`
(also the `expected_tex_size` switch of `gpu_alloc_compressed_texture`): the
amount added to `size` for one level of the given dimensions.  The products are
`int` products in the source and integers here: the value is the source's as long
as no intermediate result, the largest being `MAX(width, 8) * MAX(height, 8) * 4 + 7`,
leaves the `int` range. -/
def mip_level_size (format : SceGxmTextureFormat) (width height : ℤ) : ℤ :=
  if format = SCE_GXM_TEXTURE_FORMAT_PVRT2BPP_1BGR ∨
      format = SCE_GXM_TEXTURE_FORMAT_PVRT2BPP_ABGR then
    Int.tdiv (MAX width 8 * MAX height 8 * 2 + 7) 8
  else if format = SCE_GXM_TEXTURE_FORMAT_PVRT4BPP_1BGR ∨
      format = SCE_GXM_TEXTURE_FORMAT_PVRT4BPP_ABGR then
    Int.tdiv (MAX width 8 * MAX height 8 * 4 + 7) 8
  else if format = SCE_GXM_TEXTURE_FORMAT_PVRTII2BPP_ABGR then
    CEIL ((width : ℚ) / 8) * CEIL ((height : ℚ) / 4) * 8
  else if format = SCE_GXM_TEXTURE_FORMAT_PVRTII4BPP_ABGR then
    CEIL ((width : ℚ) / 4) * CEIL ((height : ℚ) / 4) * 8
  else if format = SCE_GXM_TEXTURE_FORMAT_UBC1_1BGR ∨
      format = SCE_GXM_TEXTURE_FORMAT_UBC1_ABGR then
    CEIL ((Int.tdiv width 4 : ℤ) : ℚ) * CEIL ((Int.tdiv height 4 : ℤ) : ℚ) * 8
  else if format = SCE_GXM_TEXTURE_FORMAT_UBC3_ABGR then
    CEIL ((Int.tdiv width 4 : ℤ) : ℚ) * CEIL ((Int.tdiv height 4 : ℤ) : ℚ) * 16
  else 0

/-- Source: the `for (currentLevel = level; currentLevel >= 0; currentLevel--)`
loop of `gpu_get_mipchain_size`, with the number of iterations left.  `size`, `width`
and `height` are `int` in the source and integers here: the result is the source's
as long as the sum and the doubled sizes stay in the `int` range. -/
def mipchain_loop (format : SceGxmTextureFormat) : Nat → ℤ → ℤ → ℤ → ℤ
  | 0, size, _, _ => size
  | n + 1, size, width, height =>
    mipchain_loop format n (size + mip_level_size format width height) (width * 2) (height * 2)

/-- Source: `gpu_get_mipchain_size`.  The loop runs `level + 1` times for
`level >= 0` and not at all for a negative `level`. -/
def gpu_get_mipchain_size (level width height : ℤ) (format : SceGxmTextureFormat) : ℤ :=
  mipchain_loop format (level + 1).toNat 0 width height

/-- Source: `gpu_get_mip_offset`. -/
def gpu_get_mip_offset (level width height : ℤ) (format : SceGxmTextureFormat) : ℤ :=
  gpu_get_mipchain_size (level - 1) (width * 2) (height * 2) format

/-- Source: the halving loop of `gpu_get_mip_size`, with the number of iterations left. -/
def mip_size_loop : Nat → ℤ → ℤ → ℤ × ℤ
  | 0, mip_width, mip_height => (mip_width, mip_height)
  | n + 1, mip_width, mip_height => mip_size_loop n (Int.tdiv mip_width 2) (Int.tdiv mip_height 2)

/-- Source: `gpu_get_mip_size`; the pair is `(*mip_width, *mip_height)`. -/
def gpu_get_mip_size (level width height : ℤ) : ℤ × ℤ :=
  mip_size_loop level.toNat width height

/-! ## Morton addressing -/

/-- Source: `morton_1` (`uint64_t` de-interleave by mask and shift). -/
def morton_1 (x : Nat) : Nat :=
  let x := x &&& 0x5555555555555555
  let x := (x ||| (x >>> 1)) &&& 0x3333333333333333
  let x := (x ||| (x >>> 2)) &&& 0x0F0F0F0F0F0F0F0F
  let x := (x ||| (x >>> 4)) &&& 0x00FF00FF00FF00FF
  let x := (x ||| (x >>> 8)) &&& 0x0000FFFF0000FFFF
  let x := (x ||| (x >>> 16)) &&& 0xFFFFFFFFFFFFFFFF
  x

/-- Source: `d2xy_morton`; the pair is `(*x, *y)`. -/
def d2xy_morton (d : Nat) : Nat × Nat := (morton_1 d, morton_1 (d >>> 1))

/-- The re-interleaving the spec's round-trip property speaks of, following its
words: bit `i` of `x` is placed at bit `2 i` and bit `i` of `y` at bit `2 i + 1`,
for the `n` low bits of each coordinate. -/
def interleave : Nat → Nat → Nat → Nat
  | 0, _, _ => 0
  | n + 1, x, y => x % 2 + 2 * (y % 2) + 4 * interleave n (x / 2) (y / 2)

/-! ## Level sizes in the spec's words -/

/-- The six PVR-style formats. -/
def pvr_formats : List SceGxmTextureFormat :=
  [SCE_GXM_TEXTURE_FORMAT_PVRT2BPP_1BGR, SCE_GXM_TEXTURE_FORMAT_PVRT2BPP_ABGR,
   SCE_GXM_TEXTURE_FORMAT_PVRT4BPP_1BGR, SCE_GXM_TEXTURE_FORMAT_PVRT4BPP_ABGR,
   SCE_GXM_TEXTURE_FORMAT_PVRTII2BPP_ABGR, SCE_GXM_TEXTURE_FORMAT_PVRTII4BPP_ABGR]

/-- The per-level byte size of the PVR-style formats in the spec's words, with the
true ceiling of the rational quotient: `ceil(max(w,8)*max(h,8)*2/8)` for PVRT 2bpp,
`ceil(max(w,8)*max(h,8)*4/8)` for PVRT 4bpp, `ceil(w/8)*ceil(h/4)*8` for PVRT-II
2bpp and `ceil(w/4)*ceil(h/4)*8` for PVRT-II 4bpp. -/
def spec_pvr_level_size (format : SceGxmTextureFormat) (w h : ℤ) : ℤ :=
  if format.base = PVRT2BPP then ⌈((max w 8 * max h 8 * 2 : ℤ) : ℚ) / 8⌉
  else if format.base = PVRT4BPP then ⌈((max w 8 * max h 8 * 4 : ℤ) : ℚ) / 8⌉
  else if format.base = PVRTII2BPP then ⌈(w : ℚ) / 8⌉ * ⌈(h : ℚ) / 4⌉ * 8
  else if format.base = PVRTII4BPP then ⌈(w : ℚ) / 4⌉ * ⌈(h : ℚ) / 4⌉ * 8
  else 0

/-- The block size `B` of the spec's BC formulas: 8 for BC1-class, 16 for BC3-class. -/
def spec_bc_block_bytes (format : SceGxmTextureFormat) : ℤ :=
  if format.base = UBC3 then 16 else 8

/-- The mip chain size of the BC formats in the spec's words: the sum over
`i` in `[0, level]` of `ceil(w_i/4) * ceil(h_i/4) * B` with `w_i = width * 2^i`,
`h_i = height * 2^i` and the true ceiling of the rational quotient. -/
def spec_bc_chain_size (level : Nat) (width height : ℤ) (format : SceGxmTextureFormat) : ℤ :=
  ∑ i in Finset.range (level + 1),
    ⌈((width * 2 ^ i : ℤ) : ℚ) / 4⌉ * ⌈((height * 2 ^ i : ℤ) : ℚ) / 4⌉ * spec_bc_block_bytes format

/-- The three BC formats: BC1-class (`UBC1_1BGR`, `UBC1_ABGR`) and BC3-class
(`UBC3_ABGR`). -/
def bc_formats : List SceGxmTextureFormat :=
  [SCE_GXM_TEXTURE_FORMAT_UBC1_1BGR, SCE_GXM_TEXTURE_FORMAT_UBC1_ABGR,
   SCE_GXM_TEXTURE_FORMAT_UBC3_ABGR]

/-- The byte size of one level in the spec's words, for the nine compressed
formats: `ceil(w/4) * ceil(h/4) * B` with the true ceiling for the BC formats, the
PVR-style formulas of `spec_pvr_level_size` for the others. -/
def spec_level_bytes (format : SceGxmTextureFormat) (w h : ℤ) : ℤ :=
  if format ∈ bc_formats then ⌈(w : ℚ) / 4⌉ * ⌈(h : ℚ) / 4⌉ * spec_bc_block_bytes format
  else spec_pvr_level_size format w h

/-! ## Memory, allocator and external services -/

/-- Memory seen through a pointer: the byte value at each offset from it. -/
abbrev Mem := Nat → Nat

/-- Source: `memcpy` / `memcpy_neon`: `n` bytes from `src + soff` to `dst + doff`. -/
def memcpy (dst : Mem) (doff : Nat) (src : Mem) (soff n : Nat) : Mem :=
  fun a => if doff ≤ a ∧ a < doff + n then src (soff + (a - doff)) else dst a

/-- Source: `memset`: `n` bytes of value `c` at `dst + doff`. -/
def memset (dst : Mem) (doff c n : Nat) : Mem :=
  fun a => if doff ≤ a ∧ a < doff + n then c else dst a

/-- A memory block handed out by an allocator: the size asked for and its bytes. -/
structure Buffer where
  size : Nat
  bytes : Mem

/-- Modelled from the spec: the memory domains of `vglMemType` (`mem_utils.h`, not
part of the sources at hand) that `gpu_utils.c` names. -/
inductive vglMemType
  | VGL_MEM_VRAM | VGL_MEM_RAM | VGL_MEM_SLOW | VGL_MEM_EXTERNAL
  deriving DecidableEq

open vglMemType

def GL_INVALID_VALUE : Nat := 0x0501
def GL_INVALID_OPERATION : Nat := 0x0502
def GL_OUT_OF_MEMORY : Nat := 0x0505
def GL_RGB : Nat := 0x1907
def GL_RGBA : Nat := 0x1908

/-- The services `gpu_utils.c` calls but does not define, and the global settings
it reads.  Each is a parameter of the embedding.

* `vgl_mem_alloc size type`: the initial bytes of the block, or `none` for `NULL`.
* `malloc site size`: the newlib `malloc`; `site` numbers the call site inside the
  routine being run, so that two calls of one size may answer differently.
* `sceGxmTextureInitLinear` / `sceGxmTextureInitSwizzledArbitrary`: the return code
  for the given format, width, height and mip count (negative on rejection).
* `stb_compress_dxt_block block isdxt5 mode`: the 8 or 16 bytes produced from a
  64-byte block.
* `readRGBA`, `readRGB`, `writeRGBA`: the pixel callbacks of `texture_callbacks.c`.
* `sceGxmTransferDownscale src width height srcStride dst dstStride`: the
  destination memory after the transfer. -/
structure Platform where
  use_vram : Bool
  use_extra_mem : Bool
  fast_texture_compression : Bool
  vgl_mem_alloc : Nat → vglMemType → Option Mem
  malloc : Nat → Nat → Option Mem
  sceGxmTextureInitLinear : SceGxmTextureFormat → Nat → Nat → Nat → ℤ
  sceGxmTextureInitSwizzledArbitrary : SceGxmTextureFormat → Nat → Nat → Nat → ℤ
  stb_compress_dxt_block : Mem → Bool → Bool → Mem
  readRGBA : Mem → Nat → Nat
  readRGB : Mem → Nat → Nat
  writeRGBA : Mem → Nat → Nat → Mem
  sceGxmTransferDownscale : Mem → Nat → Nat → Nat → Mem → Nat → Mem

/-- Source: `gpu_alloc_mapped`; the pair is the returned pointer and the final
value of `*type`. -/
def gpu_alloc_mapped (P : Platform) (size : Nat) (type : vglMemType) :
    Option Mem × vglMemType :=
  match P.vgl_mem_alloc size type with
  | some res => (some res, type)
  | none =>
    let type := if type = VGL_MEM_VRAM then VGL_MEM_RAM else VGL_MEM_VRAM
    match P.vgl_mem_alloc size type with
    | some res => (some res, type)
    | none =>
      let type := VGL_MEM_SLOW
      match P.vgl_mem_alloc size type with
      | some res => (some res, type)
      | none =>
        if P.use_extra_mem then (P.malloc 0 size, VGL_MEM_EXTERNAL)
        else (none, type)

/-! ## Block compression and swizzling -/

/-- Source: `extract_block`: four rows of 16 bytes, `width * 4` bytes apart. -/
def extract_block (src : Mem) (soff : Nat) (width : ℤ) (block : Mem) : Mem :=
  ((List.range 4).foldl
    (fun (st : Mem × Nat) j => (memcpy st.1 (j * 4 * 4) src st.2 16, st.2 + u64 (width * 4)))
    (block, soff)).1

/-- Source: one iteration of the `for (d = 0; d < num_blocks; d++)` loop of
`dxt_compress`; the state is the destination memory and the offset of `dst`. -/
def dxt_compress_step (P : Platform) (src : Mem) (soff : Nat)
    (w h aligned_width aligned_height : ℤ) (isdxt5 : Bool) (st : Mem × Nat) (d : Nat) :
    Mem × Nat :=
  let offs_x := (d2xy_morton d).1
  let offs_y := (d2xy_morton d).2
  if offs_x * 4 ≥ u64 h then
    if offs_x * 4 < u64 aligned_height then (st.1, st.2 + (if isdxt5 then 16 else 8)) else st
  else if offs_y * 4 ≥ u64 w then
    if offs_y * 4 < u64 aligned_width then (st.1, st.2 + (if isdxt5 then 16 else 8)) else st
  else
    let block := extract_block src (soff + offs_y * 16 + offs_x * u64 w * 16) w (fun _ => 0)
    let out := P.stb_compress_dxt_block block isdxt5 P.fast_texture_compression
    (memcpy st.1 st.2 out 0 (if isdxt5 then 16 else 8), st.2 + (if isdxt5 then 16 else 8))

/-- Source: `dxt_compress`; the result is the destination memory and the final
offset of `dst`. -/
def dxt_compress (P : Platform) (dst : Mem) (doff : Nat) (src : Mem) (soff : Nat)
    (w h aligned_width aligned_height : ℤ) (isdxt5 : Bool) : Mem × Nat :=
  let s := MAX aligned_width aligned_height
  let num_blocks := ((Int.tdiv (s * s) 16) % 2 ^ 32).toNat
  (List.range num_blocks).foldl
    (dxt_compress_step P src soff w h aligned_width aligned_height isdxt5) (dst, doff)

/-- Source: one iteration of the loop of `swizzle_compressed_texture_region`; the
state is the destination memory and the offset of `dst`. -/
def swizzle_step (src : Mem) (soff : Nat)
    (tex_width tex_height region_x region_y region_width region_height : ℤ)
    (isdxt5 ispvrt2bpp : Bool) (st : Mem × Nat) (d : Nat) : Mem × Nat :=
  let blocksize : Nat := if isdxt5 then 16 else 8
  let bw : Nat := if ispvrt2bpp then 8 else 4
  let offs_x := (d2xy_morton d).1
  let offs_y := (d2xy_morton d).2
  if offs_x * 4 ≥ u64 (region_height + region_y) ∨ offs_x * 4 < u64 region_y then
    if offs_x * 4 < u64 tex_height then (st.1, st.2 + blocksize) else st
  else if offs_y * bw ≥ u64 (region_width + region_x) ∨ offs_y * bw < u64 region_x then
    if offs_y * bw < u64 tex_width then (st.1, st.2 + blocksize) else st
  else
    let dst_x := (offs_x + 2 ^ 64 - u64 (Int.tdiv region_y 4)) % 2 ^ 64
    let dst_y := (offs_y + 2 ^ 64 - u64 (Int.tdiv region_x bw)) % 2 ^ 64
    (memcpy st.1 st.2 src
        (soff + dst_y * blocksize + dst_x * u64 (Int.tdiv region_width bw) * blocksize) blocksize,
      st.2 + blocksize)

/-- Source: `swizzle_compressed_texture_region`; the result is the destination
memory and the final offset of `dst`. -/
def swizzle_compressed_texture_region (dst : Mem) (doff : Nat) (src : Mem) (soff : Nat)
    (tex_width tex_height region_x region_y region_width region_height : ℤ)
    (isdxt5 ispvrt2bpp : Bool) : Mem × Nat :=
  let s := MAX tex_width tex_height
  let num_blocks := ((Int.tdiv (s * s) (if ispvrt2bpp then 32 else 16)) % 2 ^ 32).toNat
  (List.range num_blocks).foldl
    (swizzle_step src soff tex_width tex_height region_x region_y region_width region_height
      isdxt5 ispvrt2bpp) (dst, doff)

/-! ## Texture objects -/

/-- Source: `tex_format_to_bytespp`. -/
def tex_format_to_bytespp (format : SceGxmTextureFormat) : Nat :=
  match format.base with
  | U8 | S8 | P8 => 1
  | U4U4U4U4 | U8U3U3U2 | U1U5U5U5 | U5U6U5 | S5S5U6 | U8U8 | S8S8 => 2
  | U8U8U8 | S8S8S8 => 3
  | _ => 4

/-- Source: `tex_format_to_alignment`. -/
def tex_format_to_alignment (format : SceGxmTextureFormat) : Nat :=
  match format.base with
  | UBC3 => 16
  | _ => 8

/-- Modelled from the spec: the hardware texture descriptor `SceGxmTexture` (an SDK
type, not part of the sources at hand): data pointer, format, width, height and mip
count, as stored by the last successful initialisation and returned by the
`sceGxmTextureGet...` accessors. -/
structure SceGxmTexture where
  data : Option Buffer
  format : SceGxmTextureFormat
  width : Nat
  height : Nat
  mipCount : Nat

/-- Source: `struct texture` of `gpu_utils.h`, with the fields `gpu_utils.c`
reads or writes.  `data` is `none` for a null pointer; a block that was released
but is still pointed to stays `some`. -/
structure texture where
  gxm_tex : SceGxmTexture
  data : Option Buffer
  mtype : vglMemType
  palette_UID : ℤ
  valid : Bool
  type : Nat

/-- The result of a routine that may report an error: the value it stores in the
last-error slot (`none` when it stores nothing) and the texture object after it.
Modelled from the spec: `SET_GL_ERROR(x)` (macro of `shared.h`, not part of the
sources at hand) stores `x` in the last-error slot and returns from the routine. -/
structure Outcome where
  error : Option Nat
  tex : texture

/-- Source: `gpu_free_texture`.  The block goes back to its domain with
`vgl_mem_free`; the object keeps its `data` pointer and loses `valid`. -/
def gpu_free_texture (tex : texture) : texture :=
  { tex with valid := false }

/-- Source: the `fast_store` row loop of `gpu_alloc_texture`: row `i` goes to
`texture_data + (ALIGN(w, 8) * bpp) * i`, `src` advances by `line_size`.  The
state is the texture memory and the offset of `src`. -/
def store_rows_fast (w h bpp : Nat) (data : Mem) (texture_data : Mem) : Mem × Nat :=
  let line_size := u32 (w * bpp)
  (List.range h).foldl
    (fun (st : Mem × Nat) i =>
      let dst := u32 (u32 (ALIGN w 8 * bpp) * i)
      (memcpy st.1 dst data st.2 line_size, st.2 + line_size))
    (texture_data, 0)

/-- Source: the callback row loop of `gpu_alloc_texture`: each pixel is read with
`read_cb` and written with `write_cb`.  The state is the texture memory and the
offset of `src`. -/
def store_rows_cb (w h bpp src_bpp : Nat) (read_cb : Mem → Nat → Nat)
    (write_cb : Mem → Nat → Nat → Mem) (data : Mem) (texture_data : Mem) : Mem × Nat :=
  (List.range h).foldl
    (fun (st : Mem × Nat) i =>
      let dst := u32 (u32 (ALIGN w 8 * bpp) * i)
      ((List.range w).foldl
        (fun (s : (Mem × Nat) × Nat) _ =>
          let clr := read_cb data s.1.2
          ((write_cb s.1.1 s.2 clr, s.1.2 + src_bpp), s.2 + bpp))
        (st, dst)).1)
    (texture_data, 0)

/-- Source: `gpu_alloc_texture`.  `data = none` is a null source pointer.  The
texture size `ALIGN(w, 8) * h * bpp` is computed on `uint32_t` and passes through
`int tex_size` to the `size_t` arguments of the allocator and of `memset`
unchanged. -/
def gpu_alloc_texture (P : Platform) (w h : Nat) (format : SceGxmTextureFormat)
    (data : Option Mem) (tex : texture) (src_bpp : Nat) (read_cb : Mem → Nat → Nat)
    (write_cb : Mem → Nat → Nat → Mem) (fast_store : Bool) : Outcome :=
  let tex := if tex.valid then gpu_free_texture tex else tex
  let bpp := tex_format_to_bytespp format
  let tex_size := u32 (ALIGN w 8 * h * bpp)
  let alloc := gpu_alloc_mapped P tex_size (if P.use_vram then VGL_MEM_VRAM else VGL_MEM_RAM)
  let tex := { tex with mtype := alloc.2 }
  match alloc.1 with
  | none => ⟨some GL_OUT_OF_MEMORY, tex⟩
  | some fresh =>
    let texture_data : Mem :=
      match data with
      | some src =>
        if fast_store then (store_rows_fast w h bpp src fresh).1
        else (store_rows_cb w h bpp src_bpp read_cb write_cb src fresh).1
      | none => memset fresh 0 0 tex_size
    if P.sceGxmTextureInitLinear format w h 0 < 0 then ⟨some GL_INVALID_VALUE, tex⟩
    else
      let buf : Buffer := ⟨tex_size, texture_data⟩
      ⟨none,
        { tex with
          gxm_tex := ⟨some buf, format, w, h, 0⟩
          palette_UID := if format.base = P8 then 1 else 0
          valid := true
          data := some buf }⟩

/-- The `read_cb` argument of `gpu_alloc_compressed_texture`: the source compares
the pointer with `readRGBA`, so the embedding tells that callback apart. -/
inductive ReadCallback
  | readRGBA
  | other (f : Mem → Nat → Nat)

/-- Source: the conversion loop of `gpu_alloc_compressed_texture` into the
temporary RGBA buffer (`for (i = 0; i < w * h; i++)`).  The state is the temporary
memory and the offset of `src`. -/
def convert_to_rgba (P : Platform) (n src_bpp : Nat) (read_cb : Mem → Nat → Nat)
    (data : Mem) (temp : Mem) : Mem × Nat :=
  (List.range n).foldl
    (fun (st : Mem × Nat) i => (P.writeRGBA st.1 (i * 4) (read_cb data st.2), st.2 + src_bpp))
    (temp, 0)

/-- Source: the block of `gpu_alloc_compressed_texture` that fills the requested
level at `mip_data = texture_data + mip_off` ("Initializing texture data buffer").
An unchecked null result of `malloc` for the temporary buffer is not told apart:
the conversion then starts from an all-zero memory. -/
def fill_mip_data (P : Platform) (w h : Nat) (format : SceGxmTextureFormat)
    (data : Option Mem) (src_bpp : Nat) (read_cb : Option ReadCallback)
    (aligned_width aligned_height : Nat) (tex_size mip_size : ℤ)
    (texture_data : Mem) (mip_off : Nat) : Mem :=
  match data with
  | some src =>
    match read_cb with
    | some ReadCallback.readRGBA =>
      (dxt_compress P texture_data mip_off src 0 w h aligned_width aligned_height
        (tex_format_to_alignment format == 16)).1
    | some (ReadCallback.other f) =>
      let temp := (convert_to_rgba P (u32 (w * h)) src_bpp f src
        ((P.malloc 1 (u32 (u32 (w * h) * 4))).getD (fun _ => 0))).1
      (dxt_compress P texture_data mip_off temp 0 w h aligned_width aligned_height
        (tex_format_to_alignment format == 16)).1
    | none =>
      if format = SCE_GXM_TEXTURE_FORMAT_PVRT2BPP_1BGR ∨
          format = SCE_GXM_TEXTURE_FORMAT_PVRT2BPP_ABGR ∨
          format = SCE_GXM_TEXTURE_FORMAT_PVRT4BPP_1BGR ∨
          format = SCE_GXM_TEXTURE_FORMAT_PVRT4BPP_ABGR then
        memcpy texture_data mip_off src 0 (tex_size % 2 ^ 32).toNat
      else if format = SCE_GXM_TEXTURE_FORMAT_UBC3_ABGR then
        (swizzle_compressed_texture_region texture_data mip_off src 0
          aligned_width aligned_height 0 0 w h true false).1
      else if format = SCE_GXM_TEXTURE_FORMAT_PVRTII2BPP_ABGR then
        (swizzle_compressed_texture_region texture_data mip_off src 0
          aligned_width aligned_height 0 0 w h false true).1
      else
        (swizzle_compressed_texture_region texture_data mip_off src 0
          aligned_width aligned_height 0 0 w h false false).1
  | none => memset texture_data mip_off 0 (mip_size % 2 ^ 32).toNat

/-- Source: the end of `gpu_alloc_compressed_texture` ("Initializing texture and
validating it"): the descriptor is initialised on `texture_data` and, unless that
is refused, the object is marked valid and pointed to `texture_data`. -/
def validate_compressed (P : Platform) (format : SceGxmTextureFormat) (tex : texture)
    (texture_data : Buffer) (tex_width tex_height mipCount : Nat) : Outcome :=
  if P.sceGxmTextureInitSwizzledArbitrary format tex_width tex_height mipCount < 0 then
    ⟨some GL_INVALID_VALUE, tex⟩
  else
    ⟨none,
      { tex with
        gxm_tex := ⟨some texture_data, format, tex_width, tex_height, mipCount⟩
        palette_UID := 0
        valid := true
        data := some texture_data }⟩

/-- Source: `gpu_alloc_compressed_texture` (built with error handling, that is
without `SKIP_ERROR_HANDLING`).  `int` sizes reach the `size_t` parameters of the
allocator, `memset` and `memcpy_neon` reduced modulo `2 ^ 32`. -/
def gpu_alloc_compressed_texture (P : Platform) (mip_level w h : Nat)
    (format : SceGxmTextureFormat) (image_size : Nat) (data : Option Mem) (tex : texture)
    (src_bpp : Nat) (read_cb : Option ReadCallback) : Outcome :=
  let tex := if mip_level = 0 ∧ tex.valid = true then gpu_free_texture tex else tex
  let aligned_width := nearest_po2 w
  let aligned_height := nearest_po2 h
  let tex := { tex with mtype := if P.use_vram then VGL_MEM_VRAM else VGL_MEM_RAM }
  let tex_size := gpu_get_mipchain_size mip_level aligned_width aligned_height format
  let mip_size :=
    gpu_get_mip_offset (mip_level + 1) (aligned_width / 2 : Nat) (aligned_height / 2 : Nat) format
      - gpu_get_mip_offset mip_level aligned_width aligned_height format
  let expected_tex_size := mip_level_size format w h
  if image_size ≠ 0 ∧ (image_size : ℤ) ≠ expected_tex_size then ⟨some GL_INVALID_VALUE, tex⟩
  else
    let mip_off := (gpu_get_mip_offset mip_level aligned_width aligned_height format).toNat
    let fill (texture_data : Mem) : Mem :=
      fill_mip_data P w h format data src_bpp read_cb aligned_width aligned_height
        tex_size mip_size texture_data mip_off
    if tex.valid = false then
      let alloc := gpu_alloc_mapped P (tex_size % 2 ^ 32).toNat tex.mtype
      let tex := { tex with mtype := alloc.2 }
      match alloc.1 with
      | none => ⟨some GL_OUT_OF_MEMORY, tex⟩
      | some fresh =>
        validate_compressed P format tex
          ⟨(tex_size % 2 ^ 32).toNat, fill (memset fresh 0 0 (tex_size % 2 ^ 32).toNat)⟩
          w h mip_level
    else
      let mipCount := tex.gxm_tex.mipCount
      let tex_width := tex.gxm_tex.width
      let tex_height := tex.gxm_tex.height
      if mipCount ≥ mip_level then
        match tex.data with
        | some old => validate_compressed P format tex ⟨old.size, fill old.bytes⟩
            tex_width tex_height mipCount
        | none => validate_compressed P format tex ⟨0, fill (fun _ => 0)⟩
            tex_width tex_height mipCount
      else
        let alloc := gpu_alloc_mapped P (tex_size % 2 ^ 32).toNat tex.mtype
        let tex := { tex with mtype := alloc.2 }
        match alloc.1 with
        | none => ⟨some GL_OUT_OF_MEMORY, tex⟩
        | some fresh =>
          let zeroed := memset fresh 0 0 (tex_size % 2 ^ 32).toNat
          let old_mip := gpu_get_mip_size mipCount (nearest_po2 tex_width) (nearest_po2 tex_height)
          let old_data_size := gpu_get_mipchain_size mipCount old_mip.1 old_mip.2 format
          let old : Mem := match tex.data with
            | some b => b.bytes
            | none => fun _ => 0
          let copied := memcpy zeroed 0 old 0 (old_data_size % 2 ^ 32).toNat
          validate_compressed P format (gpu_free_texture tex)
            ⟨(tex_size % 2 ^ 32).toNat, fill copied⟩ tex_width tex_height mip_level

/-- Source: the expression `CEIL(w / 4) * CEIL(h / 4) * (isdxt5 ? 16 : 8)` of
`gpu_alloc_compressed_mipmaps`, on `uint32_t` operands. -/
def compressed_level_bytes (w h : Nat) (isdxt5 : Bool) : Nat :=
  u32 ((CEIL ((w / 4 : Nat) : ℚ)).toNat * (CEIL ((h / 4 : Nat) : ℚ)).toNat *
    (if isdxt5 then 16 else 8))

/-- The variables of the sizing loop of `gpu_alloc_compressed_mipmaps`; `jumps`
holds the entries `jumps[0 .. level - 1]` written so far. -/
structure MipSizing where
  jumps : List Nat
  size : Nat
  w : Nat
  h : Nat
  orig_w : Nat
  orig_h : Nat
  level : Nat

/-- Source: the sizing loop `while ((w > 1) && (h > 1)) { ... }` of
`gpu_alloc_compressed_mipmaps`, with its `break` on a halved size that is not a
multiple of 16.  The first argument bounds the number of iterations; `w` halves at
each one, so the initial `w` is enough. -/
def compressed_mipmaps_sizing (isdxt5 : Bool) : Nat → MipSizing → MipSizing
  | 0, st => st
  | fuel + 1, st =>
    if st.w > 1 ∧ st.h > 1 then
      let jump := compressed_level_bytes st.w st.h isdxt5
      let st' : MipSizing :=
        { jumps := st.jumps ++ [jump]
          size := u32 (st.size + jump)
          w := st.w / 2
          h := st.h / 2
          orig_w := st.orig_w / 2
          orig_h := st.orig_h / 2
          level := st.level + 1 }
      if st'.orig_w % 16 ≠ 0 ∨ st'.orig_h % 16 ≠ 0 then st'
      else compressed_mipmaps_sizing isdxt5 fuel st'
    else st

/-- Source: the conversion loop of `gpu_alloc_compressed_mipmaps` into `temp[0]`
(`for i < h`, `for j < w`, row stride `w * bpp`).  The state is the temporary
memory and the offset of `src`. -/
def convert_rows_rgba (P : Platform) (w h bpp src_bpp : Nat) (read_cb : Mem → Nat → Nat)
    (data : Mem) (temp : Mem) : Mem × Nat :=
  (List.range h).foldl
    (fun (st : Mem × Nat) i =>
      let dst := u32 (u32 (w * bpp) * i)
      ((List.range w).foldl
        (fun (s : (Mem × Nat) × Nat) _ =>
          ((P.writeRGBA s.1.1 s.2 (read_cb data s.1.2), s.1.2 + src_bpp), s.2 + bpp))
        (st, dst)).1)
    (temp, 0)

/-- The variables of the downscale loop of `gpu_alloc_compressed_mipmaps`: the
texture memory, the offset of `curPtr` in it, the current sizes and the two
temporary buffers. -/
structure MipChainState where
  texture_data : Mem
  curPtr : Nat
  curWidth : Nat
  curHeight : Nat
  w : Nat
  h : Nat
  temp0 : Mem
  temp1 : Mem

/-- Source: one iteration of the loop `for (j = 0; j < level; j++)` of
`gpu_alloc_compressed_mipmaps`: downscale `temp[0]` into `temp[1]`, compress
`temp[1]` at `curPtr + jumps[j]`, swap the temporaries. -/
def compressed_mipmaps_step (P : Platform) (isdxt5 : Bool) (jumps : List Nat) (bpp : Nat)
    (st : MipChainState) (j : Nat) : MipChainState :=
  let curSrcStride := st.curWidth
  let curDstStride := st.curWidth >>> 1
  let dstPtr := st.curPtr + jumps.getD j 0
  let down := P.sceGxmTransferDownscale st.temp0 st.curWidth st.curHeight
    (u32 (curSrcStride * bpp)) st.temp1 (u32 (curDstStride * bpp))
  let curWidth := st.curWidth / 2
  let curHeight := st.curHeight / 2
  let w := st.w / 2
  let h := st.h / 2
  { texture_data := (dxt_compress P st.texture_data dstPtr down 0 curWidth curHeight w h isdxt5).1
    curPtr := dstPtr
    curWidth := curWidth
    curHeight := curHeight
    w := w
    h := h
    temp0 := down
    temp1 := st.temp0 }

/-- Source: `gpu_alloc_compressed_mipmaps`.  The return code of the final
`sceGxmTextureInitSwizzledArbitrary` is not looked at by the source; the descriptor
is taken to change only when the initialisation is accepted. -/
def gpu_alloc_compressed_mipmaps (P : Platform) (tex : texture) (isdxt5 : Bool)
    (gl_format : Nat) (data : Mem) : Outcome :=
  let orig_w := tex.gxm_tex.width
  let orig_h := tex.gxm_tex.height
  let format := tex.gxm_tex.format
  let bpp := 4
  let w := nearest_po2 orig_w
  let h := nearest_po2 orig_h
  if orig_w % 16 ≠ 0 ∨ orig_h % 26 ≠ 0 then ⟨some GL_INVALID_OPERATION, tex⟩
  else
    let sized := compressed_mipmaps_sizing isdxt5 w ⟨[], 0, w, h, orig_w, orig_h, 0⟩
    let size := sized.size
    let level := sized.level
    let temp0 := P.malloc 1 (u32 (u32 (orig_w * orig_h) * bpp))
    let temp1 := P.malloc 2 (u32 (u32 (orig_w * orig_h) * bpp))
    let base_bytes := compressed_level_bytes w h isdxt5
    let old : Mem := match tex.gxm_tex.data with
      | some b => b.bytes
      | none => fun _ => 0
    let has_temp_buffer := (P.malloc 3 base_bytes).isSome
    let tmp : Mem := match P.malloc 3 base_bytes with
      | none => old
      | some m => memcpy m 0 old 0 base_bytes
    let tex := if has_temp_buffer then gpu_free_texture tex else tex
    if gl_format ≠ GL_RGBA ∧ gl_format ≠ GL_RGB then ⟨some GL_INVALID_OPERATION, tex⟩
    else
      let read_cb := if gl_format = GL_RGBA then P.readRGBA else P.readRGB
      let src_bpp := if gl_format = GL_RGBA then 4 else 3
      match temp0, temp1 with
      | some t0, some t1 =>
        let t0 := (convert_rows_rgba P w h bpp src_bpp read_cb data t0).1
        let alloc := gpu_alloc_mapped P size (if P.use_vram then VGL_MEM_VRAM else VGL_MEM_RAM)
        let tex := { tex with mtype := alloc.2 }
        match alloc.1 with
        | none => ⟨some GL_OUT_OF_MEMORY, tex⟩
        | some fresh =>
          let texture_data := memcpy fresh 0 tmp 0 base_bytes
          let tex := if has_temp_buffer then tex else gpu_free_texture tex
          let tex := { tex with valid := true }
          let curWidth := if orig_w % 2 ≠ 0 then u32 (orig_w + 2 ^ 32 - 1) else orig_w
          let curHeight := if orig_h % 2 ≠ 0 then u32 (orig_h + 2 ^ 32 - 1) else orig_h
          let final := (List.range level).foldl
            (compressed_mipmaps_step P isdxt5 sized.jumps bpp)
            ⟨texture_data, 0, curWidth, curHeight, w, h, t0, t1⟩
          let buf : Buffer := ⟨size, final.texture_data⟩
          let gxm_tex : SceGxmTexture :=
            if P.sceGxmTextureInitSwizzledArbitrary format orig_w orig_h level < 0 then tex.gxm_tex
            else ⟨some buf, format, orig_w, orig_h, level⟩
          ⟨none, { tex with gxm_tex := gxm_tex, data := some buf }⟩
      | _, _ => ⟨some GL_OUT_OF_MEMORY, tex⟩

/-! ## Concrete inputs -/

/-- A platform on which every request succeeds: the allocators hand out zero-filled
blocks, the descriptor initialisations return 0, the block compressor returns the
first bytes of the block and the pixel callbacks move one byte. -/
def plainPlatform : Platform :=
  { use_vram := false
    use_extra_mem := true
    fast_texture_compression := true
    vgl_mem_alloc := fun _ _ => some (fun _ => 0)
    malloc := fun _ _ => some (fun _ => 0)
    sceGxmTextureInitLinear := fun _ _ _ _ => 0
    sceGxmTextureInitSwizzledArbitrary := fun _ _ _ _ => 0
    stb_compress_dxt_block := fun block _ _ => block
    readRGBA := fun m o => m o
    readRGB := fun m o => m o
    writeRGBA := fun m o c => memset m o c 4
    sceGxmTransferDownscale := fun src _ _ _ _ _ => src }

/-- A texture object that holds no storage yet. -/
def blankTexture : texture :=
  { gxm_tex := ⟨none, ⟨U8U8U8U8, SWIZZLE4_ABGR⟩, 0, 0, 0⟩
    data := none
    mtype := VGL_MEM_RAM
    palette_UID := 0
    valid := false
    type := 0 }

/-- A source buffer whose byte at offset `a` is `a % 251`. -/
def rampSource : Mem := fun a => a % 251

/-- A valid compressed texture of the given size with a single level. -/
def compressedTexture (width height : Nat) : texture :=
  { gxm_tex := ⟨some ⟨width / 4 * (height / 4) * 8, fun _ => 0⟩,
      SCE_GXM_TEXTURE_FORMAT_UBC1_ABGR, width, height, 0⟩
    data := some ⟨width / 4 * (height / 4) * 8, fun _ => 0⟩
    mtype := VGL_MEM_RAM
    palette_UID := 0
    valid := true
    type := GL_RGBA }

/-- The state of a block loop has only written at or above `base`: the offset of
`dst` is at least `base` and the bytes below `base` are those of `dst`. -/
def WritesAbove (dst : Mem) (base : Nat) (st : Mem × Nat) : Prop :=
  base ≤ st.2 ∧ ∀ k < base, st.1 k = dst k

/-! ## Fallback order of the allocator -/

/-- Position of a memory domain in the spec's fixed fallback order: fast-dedicated
(VRAM), fast-shared (RAM), slow-fallback, host heap. -/
def domain_rank : vglMemType → Nat
  | VGL_MEM_VRAM => 0
  | VGL_MEM_RAM => 1
  | VGL_MEM_SLOW => 2
  | VGL_MEM_EXTERNAL => 3

/-- The domain `gpu_alloc_mapped` turns to when the preferred one is exhausted
("using other one"): RAM after VRAM, VRAM after anything else. -/
def other_domain (type : vglMemType) : vglMemType :=
  if type = VGL_MEM_VRAM then VGL_MEM_RAM else VGL_MEM_VRAM

/-- The requests `gpu_alloc_mapped` makes, in the order it makes them, each with the
domain it is made in and the answer of the service: the preferred domain, the other
one of VRAM and RAM, the slow domain and, when `use_extra_mem` is set, the host
heap. -/
def fallback_attempts (P : Platform) (size : Nat) (type : vglMemType) :
    List (vglMemType × Option Mem) :=
  [(type, P.vgl_mem_alloc size type),
   (other_domain type, P.vgl_mem_alloc size (other_domain type)),
   (VGL_MEM_SLOW, P.vgl_mem_alloc size VGL_MEM_SLOW)] ++
  (if P.use_extra_mem then [(VGL_MEM_EXTERNAL, P.malloc 0 size)] else [])

/-! ## Scratch pool -/

/-- Source: the static variables `pool_addr`, `pool_index`, `pool_size` of
`gpu_utils.c`; `pool_addr` is the address of the block as a 32-bit number, 0 for
`NULL`. -/
structure Pool where
  pool_addr : Nat
  pool_index : Nat
  pool_size : Nat

/-- Source: the initial values of the pool variables (`NULL`, 0, 0). -/
def pool_start : Pool := ⟨0, 0, 0⟩

/-- A 32-bit address as the pointer a routine returns: `none` is the null pointer,
that is address 0. -/
def ptr_of_addr (addr : Nat) : Option Nat :=
  if addr = 0 then none else some addr

/-- Source: `gpu_pool_malloc`; the pair is the returned pointer (`none` for a null
pointer: the `return NULL` path, or an `addr` that is 0) and the pool after the
call. -/
def gpu_pool_malloc (pool : Pool) (size : Nat) : Option Nat × Pool :=
  if u32 (pool.pool_index + size) < pool.pool_size then
    (ptr_of_addr (u32 (pool.pool_addr + pool.pool_index)),
      { pool with pool_index := u32 (pool.pool_index + size) })
  else (none, pool)

/-- Source: `gpu_pool_memalign`; the pair is the returned pointer (`none` for a null
pointer, as for `gpu_pool_malloc`) and the pool after the call. -/
def gpu_pool_memalign (pool : Pool) (size alignment : Nat) : Option Nat × Pool :=
  let new_index := ALIGN pool.pool_index alignment
  if u32 (new_index + size) < pool.pool_size then
    (ptr_of_addr (u32 (pool.pool_addr + new_index)),
      { pool with pool_index := u32 (new_index + size) })
  else (none, pool)

/-- Source: `gpu_pool_free_space`. -/
def gpu_pool_free_space (pool : Pool) : Nat :=
  u32 (pool.pool_size + 2 ^ 32 - pool.pool_index)

/-- Source: `gpu_pool_reset`. -/
def gpu_pool_reset (pool : Pool) : Pool :=
  { pool with pool_index := 0 }

/-- Source: `gpu_pool_init`.  `block_addr` is the address of the block when
`gpu_alloc_mapped` hands one out; `pool_index` is not touched. -/
def gpu_pool_init (P : Platform) (block_addr : Nat) (pool : Pool) (temp_pool_size : Nat) : Pool :=
  { pool with
    pool_size := temp_pool_size
    pool_addr :=
      match (gpu_alloc_mapped P temp_pool_size VGL_MEM_RAM).1 with
      | some _ => block_addr
      | none => 0 }

/-- A call on the pool: `gpu_pool_malloc(size)`, `gpu_pool_memalign(size, alignment)`
or `gpu_pool_reset()`. -/
inductive PoolCall
  | malloc (size : Nat)
  | memalign (size alignment : Nat)
  | reset

/-- The pool after one call. -/
def pool_after (pool : Pool) : PoolCall → Pool
  | PoolCall.malloc size => (gpu_pool_malloc pool size).2
  | PoolCall.memalign size alignment => (gpu_pool_memalign pool size alignment).2
  | PoolCall.reset => gpu_pool_reset pool

/-- The pool after a sequence of calls. -/
def pool_after_all (pool : Pool) (calls : List PoolCall) : Pool :=
  calls.foldl pool_after pool

/-! ## Palettes -/

/-- Source: `struct palette` of `gpu_utils.h`. -/
structure palette where
  data : Option Buffer
  type : vglMemType

/-- Source: `gpu_alloc_palette`.  `data = none` is a null source pointer.  The
results of `malloc(sizeof(palette))` and of `gpu_alloc_mapped` are not checked by the
source; a palette whose block could not be allocated has `data = none` here. -/
def gpu_alloc_palette (P : Platform) (data : Option Mem) (w bpe : Nat) : palette :=
  let alloc := gpu_alloc_mapped P (256 * 4) (if P.use_vram then VGL_MEM_VRAM else VGL_MEM_RAM)
  match alloc.1 with
  | none => ⟨none, alloc.2⟩
  | some fresh =>
    let texture_palette : Mem :=
      match data with
      | none => memset fresh 0 0 (256 * 4)
      | some src => if bpe = 4 then memcpy fresh 0 src 0 (u32 (w * 4)) else fresh
    ⟨some ⟨256 * 4, texture_palette⟩, alloc.2⟩

/-! ## Texture invariants -/

/-- The invariant of the spec's data model: `data != null` if and only if `valid`. -/
def data_iff_valid (tex : texture) : Prop :=
  tex.data ≠ none ↔ tex.valid = true

/-- A valid texture has storage: `valid` implies `data != null`. -/
def valid_has_data (tex : texture) : Prop :=
  tex.valid = true → tex.data ≠ none

/-! ## More concrete inputs -/

/-- A platform on which only the domain `t` can satisfy a request and the host heap
is not used. -/
def onlyDomainPlatform (t : vglMemType) : Platform :=
  { plainPlatform with
    use_extra_mem := false
    vgl_mem_alloc := fun _ ty => if ty = t then some (fun _ => 0) else none
    malloc := fun _ _ => none }

/-- A platform whose fresh blocks hold the byte `0xAA` everywhere. -/
def stalePlatform : Platform :=
  { plainPlatform with vgl_mem_alloc := fun _ _ => some (fun _ => 0xAA) }

/-- A block source that tags its 8-byte blocks: every byte of block `i` is `1 + i`. -/
def blockTagSource : Mem := fun a => 1 + a / 8

/-! ## Which blocks the two block loops process -/

/-- Source: the two tests of the loop body of `dxt_compress` that end in `continue`
(`offs_x * 4 >= h`, `offs_y * 4 >= w`); `true` when neither holds, so that the
iteration for `d` reaches `extract_block` and the block compressor. -/
def dxt_compress_visits (w h : ℤ) (d : Nat) : Bool :=
  !(decide ((d2xy_morton d).1 * 4 ≥ u64 h)) && !(decide ((d2xy_morton d).2 * 4 ≥ u64 w))

/-- Source: the two tests of the loop body of `swizzle_compressed_texture_region` that
end in `continue`; `true` when neither holds, so that the iteration for `d` reaches
`memcpy`. -/
def swizzle_visits (region_x region_y region_width region_height : ℤ) (ispvrt2bpp : Bool)
    (d : Nat) : Bool :=
  !(decide ((d2xy_morton d).1 * 4 ≥ u64 (region_height + region_y) ∨
      (d2xy_morton d).1 * 4 < u64 region_y)) &&
  !(decide ((d2xy_morton d).2 * (if ispvrt2bpp then 8 else 4) ≥ u64 (region_width + region_x) ∨
      (d2xy_morton d).2 * (if ispvrt2bpp then 8 else 4) < u64 region_x))

/-! ## Mipmap generation for uncompressed textures -/

/-- Source: the loops `for (w = 1; w < orig_w; w <<= 1) {}` of `gpu_alloc_mipmaps`, on
`uint32_t`.  The first argument bounds the number of tests of the loop condition;
`none` when it is used up: the shifted value is 0 from the 32nd shift on, and for
`orig_w > 2 ^ 31` the loop of the source never ends. -/
def mipmaps_po2_loop : Nat → Nat → Nat → Option Nat
  | 0, _, _ => none
  | fuel + 1, w, orig_w =>
    if w < orig_w then mipmaps_po2_loop fuel (u32 (w <<< 1)) orig_w else some w

/-- The variables of the sizing loops of `gpu_alloc_mipmaps`.  `jumps` is the table
`uint32_t jumps[10]` by index (an index above 9 is outside the array; entries never
written, indeterminate in the source, read as 0); `written` lists the indices of the
assignments `jumps[..] = ...` made so far, in order. -/
structure MipmapSizing where
  jumps : Nat → Nat
  written : List Nat
  size : Nat
  w : Nat
  h : Nat
  level : Nat

/-- Source: the statements `jumps[j] = max(w, 8) * h * bpp; size += jumps[j]; w /= 2;
h /= 2;` common to both sizing loops of `gpu_alloc_mipmaps`, for the index `j`, on
`uint32_t`.  Modelled from the spec: `max` (a macro from outside the sources at hand)
is the larger of its two arguments. -/
def mipmaps_sizing_body (bpp : Nat) (st : MipmapSizing) (j : Nat) : MipmapSizing :=
  let jump := u32 (u32 (max st.w 8 * st.h) * bpp)
  { st with
    jumps := fun i => if i = j then jump else st.jumps i
    written := st.written ++ [j]
    size := u32 (st.size + jump)
    w := st.w / 2
    h := st.h / 2 }

/-- Source: the loop `while ((w > 1) && (h > 1)) { ...; level++; }` of
`gpu_alloc_mipmaps`.  The first argument bounds the number of iterations; `w` halves
at each one, so the initial `w` is enough. -/
def mipmaps_sizing_while (bpp : Nat) : Nat → MipmapSizing → MipmapSizing
  | 0, st => st
  | fuel + 1, st =>
    if st.w > 1 ∧ st.h > 1 then
      mipmaps_sizing_while bpp fuel
        { mipmaps_sizing_body bpp st st.level with level := st.level + 1 }
    else st

/-- Source: the block "Calculating new texture data buffer size" of
`gpu_alloc_mipmaps`, from the rounded sizes `w`, `h`: the loop `for (j = 0; j < level;
j++)` when `level > 0`, else `level = 0` and the `while` loop. -/
def gpu_alloc_mipmaps_sizing (level : ℤ) (w h bpp : Nat) : MipmapSizing :=
  if level > 0 then
    (List.range level.toNat).foldl (mipmaps_sizing_body bpp)
      ⟨fun _ => 0, [], 0, w, h, level.toNat⟩
  else mipmaps_sizing_while bpp w ⟨fun _ => 0, [], 0, w, h, 0⟩

/-- The variables of the downscale loop of `gpu_alloc_mipmaps`: the texture memory,
the offset of `curPtr` in it and the current sizes; `read` lists the indices of the
reads `jumps[j]` made so far, in order. -/
structure MipmapChain where
  texture_data : Mem
  curPtr : Nat
  curWidth : Nat
  curHeight : Nat
  read : List Nat

/-- Source: one iteration of the loop `for (j = 0; j < level - 1; j++)` of
`gpu_alloc_mipmaps`: the level at `curPtr` is downscaled into `curPtr + jumps[j]`.
The transfer sees the memory from its source and destination pointers on and is
taken to write nothing below the destination pointer. -/
def mipmaps_downscale_step (P : Platform) (jumps : Nat → Nat) (bpp : Nat)
    (st : MipmapChain) (j : Nat) : MipmapChain :=
  let curSrcStride := ALIGN st.curWidth 8
  let curDstStride := ALIGN (st.curWidth >>> 1) 8
  let dstPtr := st.curPtr + jumps j
  let down := P.sceGxmTransferDownscale (fun a => st.texture_data (st.curPtr + a))
    st.curWidth st.curHeight (u32 (curSrcStride * bpp))
    (fun a => st.texture_data (dstPtr + a)) (u32 (curDstStride * bpp))
  { texture_data := fun a => if dstPtr ≤ a then down (a - dstPtr) else st.texture_data a
    curPtr := dstPtr
    curWidth := st.curWidth / 2
    curHeight := st.curHeight / 2
    read := st.read ++ [j] }

/-- Source: the block "Performing a chain downscale process to generate requested
mipmaps" of `gpu_alloc_mipmaps`. -/
def mipmaps_downscale (P : Platform) (jumps : Nat → Nat) (bpp level : Nat)
    (texture_data : Mem) (orig_w orig_h : Nat) : MipmapChain :=
  let curWidth := if orig_w % 2 ≠ 0 then u32 (orig_w + 2 ^ 32 - 1) else orig_w
  let curHeight := if orig_h % 2 ≠ 0 then u32 (orig_h + 2 ^ 32 - 1) else orig_h
  (List.range (level - 1)).foldl (mipmaps_downscale_step P jumps bpp)
    ⟨texture_data, 0, curWidth, curHeight, []⟩

/-- Source: the number of bytes `stride * orig_h * bpp`, with `stride = ALIGN(orig_w,
8)`, that `gpu_alloc_mipmaps` moves to the heap and back into the new buffer. -/
def mipmaps_base_bytes (orig_w orig_h bpp : Nat) : Nat :=
  u32 (u32 (ALIGN orig_w 8 * orig_h) * bpp)

/-- Source: `gpu_alloc_mipmaps`; `none` when one of the rounding loops does not end.
`level > count` compares an `int` with a `uint32_t`, that is `level` reduced modulo
`2 ^ 32`.  The result of `gpu_alloc_mapped` is not checked by the source: a failed
allocation is not told apart and the copy then starts from an all-zero memory.  The
return code of `sceGxmTextureInitLinear` is not looked at either; the descriptor is
taken to change only when the initialisation is accepted. -/
def gpu_alloc_mipmaps (P : Platform) (level : ℤ) (tex : texture) : Option texture :=
  let count := tex.gxm_tex.mipCount
  let orig_w := tex.gxm_tex.width
  let orig_h := tex.gxm_tex.height
  let format := tex.gxm_tex.format
  let bpp := tex_format_to_bytespp format
  if (level % 2 ^ 32).toNat > count ∨ level < 0 then
    match mipmaps_po2_loop 34 1 orig_w, mipmaps_po2_loop 34 1 orig_h with
    | some w, some h =>
      let sized := gpu_alloc_mipmaps_sizing level w h bpp
      let size := sized.size
      let level := sized.level
      let bytes := mipmaps_base_bytes orig_w orig_h bpp
      let old : Mem := match tex.gxm_tex.data with
        | some b => b.bytes
        | none => fun _ => 0
      let has_temp_buffer := (P.malloc 1 bytes).isSome
      let temp : Mem := match P.malloc 1 bytes with
        | none => old
        | some m => memcpy m 0 old 0 bytes
      let tex := if has_temp_buffer then gpu_free_texture tex else tex
      let alloc := gpu_alloc_mapped P size (if P.use_vram then VGL_MEM_VRAM else VGL_MEM_RAM)
      let tex := { tex with mtype := alloc.2 }
      let texture_data := memcpy (alloc.1.getD (fun _ => 0)) 0 temp 0 bytes
      let tex := if has_temp_buffer then tex else gpu_free_texture tex
      let tex := { tex with valid := true }
      let final := mipmaps_downscale P sized.jumps bpp level texture_data orig_w orig_h
      let buf : Buffer := ⟨size, final.texture_data⟩
      let gxm_tex : SceGxmTexture :=
        if P.sceGxmTextureInitLinear format orig_w orig_h level < 0 then tex.gxm_tex
        else ⟨some buf, format, orig_w, orig_h, level⟩
      some { tex with gxm_tex := gxm_tex, data := some buf }
    | _, _ => none
  else some tex

/-! ## Concrete inputs for the mip chain routines -/

/-- A valid uncompressed RGBA texture of the given size with a single level, whose
storage holds the bytes of `rampSource`. -/
def linearTexture (width height : Nat) : texture :=
  { gxm_tex := ⟨some ⟨ALIGN width 8 * height * 4, rampSource⟩,
      ⟨U8U8U8U8, SWIZZLE4_ABGR⟩, width, height, 0⟩
    data := some ⟨ALIGN width 8 * height * 4, rampSource⟩
    mtype := VGL_MEM_RAM
    palette_UID := 0
    valid := true
    type := GL_RGBA }

/-- A valid 16 x 16 PVRT 4bpp texture with a single level of 128 zero bytes. -/
def pvrtTexture : texture :=
  { gxm_tex := ⟨some ⟨128, fun _ => 0⟩, SCE_GXM_TEXTURE_FORMAT_PVRT4BPP_ABGR, 16, 16, 0⟩
    data := some ⟨128, fun _ => 0⟩
    mtype := VGL_MEM_RAM
    palette_UID := 0
    valid := true
    type := GL_RGBA }

open vglMemType

/-! # Theorems -/

/-! ### Morton addressing -/

theorem testBit_high (d : Nat) (hd : d < 2 ^ 32) (j : Nat) (hj : 32 ≤ j) : d.testBit j = false := by
  apply Nat.testBit_lt_two_pow
  exact lt_of_lt_of_le hd (Nat.pow_le_pow_right (by norm_num) hj)

theorem testBit_ge64 (m : Nat) (hm : m < 2 ^ 64) (i : Nat) (hi : 64 ≤ i) : m.testBit i = false := by
  apply Nat.testBit_lt_two_pow
  exact lt_of_lt_of_le hm (Nat.pow_le_pow_right (by norm_num) hi)

theorem mask1_testBit (i : Nat) :
    (0x5555555555555555 : Nat).testBit i = (decide (i < 64) && decide (i % 2 = 0)) := by
  by_cases hi : i < 64
  · have h : ∀ i < 64, (0x5555555555555555 : Nat).testBit i = (decide (i < 64) && decide (i % 2 = 0)) := by
      decide
    exact h i hi
  · rw [testBit_ge64 _ (by norm_num) i (by omega)]; simp [hi]

theorem mask2_testBit (i : Nat) :
    (0x3333333333333333 : Nat).testBit i = (decide (i < 64) && decide (i % 4 < 2)) := by
  by_cases hi : i < 64
  · have h : ∀ i < 64, (0x3333333333333333 : Nat).testBit i = (decide (i < 64) && decide (i % 4 < 2)) := by
      decide
    exact h i hi
  · rw [testBit_ge64 _ (by norm_num) i (by omega)]; simp [hi]

theorem mask4_testBit (i : Nat) :
    (0x0F0F0F0F0F0F0F0F : Nat).testBit i = (decide (i < 64) && decide (i % 8 < 4)) := by
  by_cases hi : i < 64
  · have h : ∀ i < 64, (0x0F0F0F0F0F0F0F0F : Nat).testBit i = (decide (i < 64) && decide (i % 8 < 4)) := by
      decide
    exact h i hi
  · rw [testBit_ge64 _ (by norm_num) i (by omega)]; simp [hi]

theorem mask8_testBit (i : Nat) :
    (0x00FF00FF00FF00FF : Nat).testBit i = (decide (i < 64) && decide (i % 16 < 8)) := by
  by_cases hi : i < 64
  · have h : ∀ i < 64, (0x00FF00FF00FF00FF : Nat).testBit i = (decide (i < 64) && decide (i % 16 < 8)) := by
      decide
    exact h i hi
  · rw [testBit_ge64 _ (by norm_num) i (by omega)]; simp [hi]

theorem mask16_testBit (i : Nat) :
    (0x0000FFFF0000FFFF : Nat).testBit i = (decide (i < 64) && decide (i % 32 < 16)) := by
  by_cases hi : i < 64
  · have h : ∀ i < 64, (0x0000FFFF0000FFFF : Nat).testBit i = (decide (i < 64) && decide (i % 32 < 16)) := by
      decide
    exact h i hi
  · rw [testBit_ge64 _ (by norm_num) i (by omega)]; simp [hi]

theorem mask32_testBit (i : Nat) :
    (0xFFFFFFFFFFFFFFFF : Nat).testBit i = decide (i < 64) := by
  have : (0xFFFFFFFFFFFFFFFF : Nat) = 2 ^ 64 - 1 := by norm_num
  rw [this, Nat.testBit_two_pow_sub_one]

set_option maxHeartbeats 4000000 in
theorem morton_1_testBit (d : Nat) (hd : d < 2 ^ 32) (i : Nat) :
    (morton_1 d).testBit i = d.testBit (2 * i) := by
  have hh := testBit_high d hd
  by_cases hi : i < 32
  · interval_cases i <;>
      simp [morton_1, Nat.testBit_and, Nat.testBit_or, Nat.testBit_shiftRight, hh,
        mask1_testBit, mask2_testBit, mask4_testBit, mask8_testBit, mask16_testBit, mask32_testBit]
  · have h1 : ∀ s, d.testBit (s + i) = false := fun s => hh _ (by omega)
    have h2 : d.testBit i = false := hh _ (by omega)
    simp [morton_1, Nat.testBit_and, Nat.testBit_or, Nat.testBit_shiftRight, h1, h2,
      hh (2 * i) (by omega), ← Nat.add_assoc]

theorem morton_1_mod_two (d : Nat) (hd : d < 2 ^ 32) : morton_1 d % 2 = d % 2 := by
  have h := morton_1_testBit d hd 0
  simp only [Nat.testBit_zero, Nat.mul_zero] at h
  have h1 := Nat.mod_two_eq_zero_or_one d
  have h2 := Nat.mod_two_eq_zero_or_one (morton_1 d)
  rcases h1 with h1 | h1 <;> rcases h2 with h2 | h2 <;> simp_all

theorem morton_1_div_two (d : Nat) (hd : d < 2 ^ 32) : morton_1 d / 2 = morton_1 (d / 4) := by
  apply Nat.eq_of_testBit_eq
  intro i
  have hd4 : d / 4 < 2 ^ 32 := lt_of_le_of_lt (Nat.div_le_self _ _) hd
  rw [← Nat.testBit_succ, morton_1_testBit d hd, morton_1_testBit _ hd4]
  have : d / 4 = d >>> 2 := by rw [Nat.shiftRight_eq_div_pow]
  rw [this, Nat.testBit_shiftRight]
  congr 1
  omega

theorem interleave_morton (n : Nat) : ∀ d, d < 2 ^ 32 →
    interleave n (morton_1 d) (morton_1 (d >>> 1)) = d % 4 ^ n := by
  induction n with
  | zero => intro d _; simp [interleave, Nat.mod_one]
  | succ n ih =>
    intro d hd
    have hd2 : d / 2 < 2 ^ 32 := lt_of_le_of_lt (Nat.div_le_self _ _) hd
    have hd4 : d / 4 < 2 ^ 32 := lt_of_le_of_lt (Nat.div_le_self _ _) hd
    have e : d / 2 / 4 = (d / 4) >>> 1 := by
      rw [Nat.shiftRight_eq_div_pow]; omega
    have hs : d >>> 1 = d / 2 := by rw [Nat.shiftRight_eq_div_pow]
    rw [hs]
    simp only [interleave]
    rw [morton_1_mod_two d hd, morton_1_mod_two _ hd2, morton_1_div_two d hd,
      morton_1_div_two _ hd2, e, ih _ hd4, pow_succ, Nat.mul_comm (4 ^ n) 4, Nat.mod_mul]
    omega

theorem interleave_testBit (n : Nat) : ∀ x y i, i < n →
    (interleave n x y).testBit (2 * i) = x.testBit i ∧
    (interleave n x y).testBit (2 * i + 1) = y.testBit i := by
  induction n with
  | zero => intro x y i hi; omega
  | succ n ih =>
    intro x y i hi
    have hdiv : (x % 2 + 2 * (y % 2) + 4 * interleave n (x / 2) (y / 2)) / 2 / 2
        = interleave n (x / 2) (y / 2) := by omega
    simp only [interleave]
    cases i with
    | zero =>
      constructor
      · simp only [Nat.mul_zero, Nat.testBit_zero]
        congr 1
        apply propext
        omega
      · have : 2 * 0 + 1 = 0 + 1 := by norm_num
        rw [this, Nat.testBit_succ, Nat.testBit_zero, Nat.testBit_zero]
        congr 1
        apply propext
        omega
    | succ j =>
      have e1 : 2 * (j + 1) = 2 * j + 1 + 1 := by ring
      have e2 : 2 * (j + 1) + 1 = 2 * j + 1 + 1 + 1 := by ring
      obtain ⟨h1, h2⟩ := ih (x / 2) (y / 2) j (by omega)
      constructor
      · rw [e1, Nat.testBit_succ, Nat.testBit_succ, hdiv, h1, Nat.testBit_succ]
      · rw [e2, Nat.testBit_succ, Nat.testBit_succ, hdiv, h2, Nat.testBit_succ]

/-- C1: for every `d` with `0 <= d < 2^32`, taking `x = morton_1(d)` and
`y = morton_1(d >> 1)` and re-interleaving them (bit `i` of `x` at bit `2i`, bit `i`
of `y` at bit `2i+1`) reproduces `d` exactly; bit by bit, bit `i` of `x` is bit `2i`
of `d` and bit `i` of `y` is bit `2i+1` of `d`. -/
theorem morton_interleave_roundtrip (d : Nat) (hd : d < 2 ^ 32) :
    interleave 32 (morton_1 d) (morton_1 (d >>> 1)) = d ∧
    ∀ i, (morton_1 d).testBit i = d.testBit (2 * i) ∧
      (morton_1 (d >>> 1)).testBit i = d.testBit (2 * i + 1) := by
  constructor
  · rw [interleave_morton 32 d hd]
    apply Nat.mod_eq_of_lt
    exact lt_of_lt_of_le hd (by norm_num)
  · intro i
    have hd2 : d >>> 1 < 2 ^ 32 := by
      rw [Nat.shiftRight_eq_div_pow]
      exact lt_of_le_of_lt (Nat.div_le_self _ _) hd
    refine ⟨morton_1_testBit d hd i, ?_⟩
    rw [morton_1_testBit _ hd2, Nat.testBit_shiftRight]
    congr 1
    omega

theorem morton_interleave_roundtrip_witness :
    (0xDEADBEEF : Nat) < 2 ^ 32 ∧
    (interleave 32 (morton_1 0xDEADBEEF) (morton_1 (0xDEADBEEF >>> 1)) = 0xDEADBEEF ∧
      ∀ i, (morton_1 0xDEADBEEF).testBit i = (0xDEADBEEF : Nat).testBit (2 * i) ∧
        (morton_1 (0xDEADBEEF >>> 1)).testBit i = (0xDEADBEEF : Nat).testBit (2 * i + 1)) :=
  ⟨by decide, morton_interleave_roundtrip 0xDEADBEEF (by decide)⟩

/-! ### `nearest_po2` -/

theorem smear_step (x y n : Nat)
    (h : ∀ i, y.testBit i = true ↔ ∃ j, i ≤ j ∧ j < i + n ∧ x.testBit j = true) (i : Nat) :
    (y ||| (y >>> n)).testBit i = true ↔ ∃ j, i ≤ j ∧ j < i + (n + n) ∧ x.testBit j = true := by
  rw [Nat.testBit_or, Nat.testBit_shiftRight, Bool.or_eq_true, h, h]
  constructor
  · rintro (⟨j, h1, h2, h3⟩ | ⟨j, h1, h2, h3⟩)
    · exact ⟨j, h1, by omega, h3⟩
    · exact ⟨j, by omega, by omega, h3⟩
  · rintro ⟨j, h1, h2, h3⟩
    by_cases hj : j < i + n
    · exact Or.inl ⟨j, h1, hj, h3⟩
    · exact Or.inr ⟨j, by omega, by omega, h3⟩

theorem smear_testBit (x i : Nat) :
    (smear x).testBit i = true ↔ ∃ j, i ≤ j ∧ j < i + 32 ∧ x.testBit j = true := by
  have h0 : ∀ i, x.testBit i = true ↔ ∃ j, i ≤ j ∧ j < i + 1 ∧ x.testBit j = true := by
    intro i
    constructor
    · intro h; exact ⟨i, le_refl _, by omega, h⟩
    · rintro ⟨j, h1, h2, h3⟩
      have : j = i := by omega
      rw [← this]; exact h3
  have h1 := smear_step x _ 1 h0
  have h2 := smear_step x _ 2 h1
  have h4 := smear_step x _ 4 h2
  have h8 := smear_step x _ 8 h4
  have h16 := smear_step x _ 16 h8
  exact h16 i

theorem testBit_size_pred (x : Nat) (hx : 0 < x) : x.testBit (x.size - 1) = true := by
  have h1 : 2 ^ (x.size - 1) ≤ x := by
    apply Nat.lt_size.mp
    have : 0 < x.size := Nat.size_pos.mpr hx
    omega
  have h2 : x < 2 ^ x.size := Nat.lt_size_self x
  have hs : 0 < x.size := Nat.size_pos.mpr hx
  rw [Nat.testBit_to_div_mod, decide_eq_true_eq]
  have h3 : x / 2 ^ (x.size - 1) = 1 := by
    apply Nat.div_eq_of_lt_le
    · simpa using h1
    · have : 2 ^ x.size = 2 ^ (x.size - 1) * 2 := by
        rw [← pow_succ]; congr 1; omega
      rw [this] at h2
      linarith
  rw [h3]

theorem smear_eq (x : Nat) (hx : x < 2 ^ 32) : smear x = 2 ^ x.size - 1 := by
  apply Nat.eq_of_testBit_eq
  intro i
  rw [Nat.testBit_two_pow_sub_one]
  have hsz : x.size ≤ 32 := Nat.size_le.mpr hx
  by_cases hi : i < x.size
  · have hx0 : 0 < x := by
      rcases Nat.eq_zero_or_pos x with h | h
      · subst h; simp at hi
      · exact h
    have := (smear_testBit x i).mpr ⟨x.size - 1, by omega, by omega, testBit_size_pred x hx0⟩
    simp [this, hi]
  · have : (smear x).testBit i = false := by
      by_contra hc
      rw [Bool.not_eq_false] at hc
      obtain ⟨j, h1, _, h3⟩ := (smear_testBit x i).mp hc
      have : x.testBit j = false := by
        apply Nat.testBit_lt_two_pow
        exact lt_of_lt_of_le (Nat.lt_size_self x) (Nat.pow_le_pow_right (by norm_num) (by omega))
      simp [this] at h3
    simp [this, hi]

theorem nearest_po2_eq (v : Nat) (h1 : 1 ≤ v) (h2 : v ≤ 2 ^ 31) :
    nearest_po2 v = 2 ^ (v - 1).size := by
  have e : u32 (v + 2 ^ 32 - 1) = v - 1 := by unfold u32; omega
  have hlt : v - 1 < 2 ^ 31 := by omega
  have hsz : (v - 1).size ≤ 31 := Nat.size_le.mpr hlt
  have hp : 2 ^ (v - 1).size ≤ 2 ^ 31 := Nat.pow_le_pow_right (by norm_num) hsz
  have hpos : 0 < 2 ^ (v - 1).size := Nat.pos_pow_of_pos _ (by norm_num)
  have hs := smear_eq (v - 1) (by omega)
  unfold smear at hs
  unfold nearest_po2
  simp only [e]
  simp only [] at hs
  rw [hs]
  unfold u32
  omega

theorem nearest_po2_spec (v : Nat) (h1 : 1 ≤ v) (h2 : v ≤ 2 ^ 31) :
    (∃ k, nearest_po2 v = 2 ^ k) ∧ v ≤ nearest_po2 v ∧
    (∀ k, v ≤ 2 ^ k → nearest_po2 v ≤ 2 ^ k) ∧
    ((∃ k, v = 2 ^ k) → nearest_po2 v = v) := by
  have e := nearest_po2_eq v h1 h2
  have hge : v ≤ nearest_po2 v := by
    rw [e]
    have := Nat.lt_size_self (v - 1)
    omega
  have hmin : ∀ k, v ≤ 2 ^ k → nearest_po2 v ≤ 2 ^ k := by
    intro k hk
    rw [e]
    apply Nat.pow_le_pow_right (by norm_num)
    apply Nat.size_le.mpr
    omega
  refine ⟨⟨_, e⟩, hge, hmin, ?_⟩
  rintro ⟨k, hk⟩
  have := hmin k (le_of_eq hk)
  rw [← hk] at this
  exact le_antisymm this hge

theorem nearest_po2_two_pow (a : Nat) (ha : a ≤ 31) : nearest_po2 (2 ^ a) = 2 ^ a :=
  (nearest_po2_spec (2 ^ a) (Nat.one_le_two_pow) (Nat.pow_le_pow_right (by norm_num) ha)).2.2.2
    ⟨a, rfl⟩

/-- C2: for every 32-bit `v` with `1 <= v <= 2^31`, `nearest_po2(v)` is a power of
two, is `>= v`, and is the smallest such power of two, so `nearest_po2(v) = v` when
`v` is already a power of two. -/
theorem nearest_po2_least_power_of_two (v : Nat) (h1 : 1 ≤ v) (h2 : v ≤ 2 ^ 31) :
    (∃ k, nearest_po2 v = 2 ^ k) ∧ v ≤ nearest_po2 v ∧
    (∀ k, v ≤ 2 ^ k → nearest_po2 v ≤ 2 ^ k) ∧
    ((∃ k, v = 2 ^ k) → nearest_po2 v = v) :=
  nearest_po2_spec v h1 h2

theorem nearest_po2_least_power_of_two_witness :
    1 ≤ 100 ∧ 100 ≤ 2 ^ 31 ∧
    ((∃ k, nearest_po2 100 = 2 ^ k) ∧ 100 ≤ nearest_po2 100 ∧
      (∀ k, 100 ≤ 2 ^ k → nearest_po2 100 ≤ 2 ^ k) ∧
      ((∃ k, 100 = 2 ^ k) → nearest_po2 100 = 100)) :=
  ⟨by decide, by decide, nearest_po2_least_power_of_two 100 (by decide) (by decide)⟩

/-! ### Mip chain sizing -/


theorem mipchain_loop_eq (format : SceGxmTextureFormat) (n : Nat) :
    ∀ size width height : ℤ, mipchain_loop format n size width height =
      size + ∑ i in Finset.range n, mip_level_size format (width * 2 ^ i) (height * 2 ^ i) := by
  induction n with
  | zero => intro size width height; simp [mipchain_loop]
  | succ n ih =>
    intro size width height
    rw [mipchain_loop, ih, Finset.sum_range_succ']
    simp only [pow_zero, mul_one, pow_succ]
    have : ∀ i : ℕ, width * 2 * 2 ^ i = width * (2 ^ i * 2) ∧ height * 2 * 2 ^ i = height * (2 ^ i * 2) :=
      fun i => ⟨by ring, by ring⟩
    simp only [this]
    ring

theorem gpu_get_mipchain_size_eq_sum (level : Nat) (width height : ℤ) (format : SceGxmTextureFormat) :
    gpu_get_mipchain_size level width height format =
      ∑ i in Finset.range (level + 1), mip_level_size format (width * 2 ^ i) (height * 2 ^ i) := by
  unfold gpu_get_mipchain_size
  rw [mipchain_loop_eq]
  have : ((level : ℤ) + 1).toNat = level + 1 := by omega
  rw [this]; simp

theorem gpu_get_mipchain_size_neg (level width height : ℤ) (format : SceGxmTextureFormat)
    (h : level < 0) : gpu_get_mipchain_size level width height format = 0 := by
  unfold gpu_get_mipchain_size
  have : (level + 1).toNat = 0 := by omega
  rw [this]; rfl

/-- C6: for every format and every width and height,
`gpu_get_mip_offset(0, width, height, format) = 0`, and `gpu_get_mipchain_size` of
any negative level is 0: level 0 always starts the chain buffer. -/
theorem mip_offset_level_zero (format : SceGxmTextureFormat) (width height : ℤ) :
    gpu_get_mip_offset 0 width height format = 0 ∧
    ∀ level : ℤ, level < 0 → gpu_get_mipchain_size level width height format = 0 := by
  constructor
  · unfold gpu_get_mip_offset
    exact gpu_get_mipchain_size_neg _ _ _ _ (by norm_num)
  · intro level h
    exact gpu_get_mipchain_size_neg _ _ _ _ h

theorem gpu_get_mip_offset_eq_sum (level : Nat) (width height : ℤ) (format : SceGxmTextureFormat) :
    gpu_get_mip_offset level width height format =
      ∑ i in Finset.range level, mip_level_size format (width * 2 ^ (i + 1)) (height * 2 ^ (i + 1)) := by
  unfold gpu_get_mip_offset
  cases level with
  | zero =>
    simp only [Finset.range_zero, Finset.sum_empty]
    exact gpu_get_mipchain_size_neg _ _ _ _ (by norm_num)
  | succ k =>
    have : ((k + 1 : ℕ) : ℤ) - 1 = (k : ℤ) := by push_cast; ring
    rw [this, gpu_get_mipchain_size_eq_sum]
    apply Finset.sum_congr rfl
    intro i _
    rw [pow_succ]
    congr 1 <;> ring

theorem pow_shiftRight (a i : Nat) (h : i ≤ a) : ((2 : ℤ) ^ a) >>> i = 2 ^ (a - i) := by
  rw [Int.shiftRight_eq_div_pow]
  have : (2 : ℤ) ^ a = 2 ^ (a - i) * 2 ^ i := by
    rw [← pow_add]; congr 1; omega
  rw [this]
  have h2 : ((2 : ℤ) ^ i) ≠ 0 := by positivity
  push_cast
  exact Int.mul_ediv_cancel _ h2

theorem mip_level_size_nonneg (format : SceGxmTextureFormat) (width height : ℤ)
    (hw : 0 ≤ width) (hh : 0 ≤ height) : 0 ≤ mip_level_size format width height := by
  have hc : ∀ q : ℚ, 0 ≤ q → 0 ≤ CEIL q := fun q hq => Int.ceil_nonneg hq
  have hm : ∀ x : ℤ, 0 ≤ MAX x 8 := by
    intro x; unfold MAX; split <;> omega
  have ht : ∀ x : ℤ, 0 ≤ x → 0 ≤ Int.tdiv x 4 := fun x hx => Int.tdiv_nonneg hx (by norm_num)
  have hq : ∀ x : ℤ, 0 ≤ x → ∀ k : ℚ, 0 < k → 0 ≤ (x : ℚ) / k := by
    intro x hx k hk
    have : (0 : ℚ) ≤ (x : ℚ) := by exact_mod_cast hx
    positivity
  have hbc : ∀ k : ℤ, 0 ≤ k →
      0 ≤ CEIL ((Int.tdiv width 4 : ℤ) : ℚ) * CEIL ((Int.tdiv height 4 : ℤ) : ℚ) * k := by
    intro k hk
    apply mul_nonneg _ hk
    apply mul_nonneg <;> apply hc
    · exact_mod_cast ht _ hw
    · exact_mod_cast ht _ hh
  have hpv : ∀ k c : ℚ, 0 < k → 0 < c →
      0 ≤ CEIL ((width : ℚ) / k) * CEIL ((height : ℚ) / c) * 8 := by
    intro k c hk hc'
    apply mul_nonneg _ (by norm_num)
    apply mul_nonneg <;> apply hc
    · exact hq _ hw _ hk
    · exact hq _ hh _ hc'
  have hmx : ∀ k : ℤ, 0 ≤ k → 0 ≤ Int.tdiv (MAX width 8 * MAX height 8 * k + 7) 8 := by
    intro k hk
    apply Int.tdiv_nonneg _ (by norm_num)
    have := mul_nonneg (mul_nonneg (hm width) (hm height)) hk
    linarith
  unfold mip_level_size
  split_ifs
  · exact hmx 2 (by norm_num)
  · exact hmx 4 (by norm_num)
  · exact hpv 8 4 (by norm_num) (by norm_num)
  · exact hpv 4 4 (by norm_num) (by norm_num)
  · exact hbc 8 (by norm_num)
  · exact hbc 16 (by norm_num)
  · exact le_rfl

theorem spec_level_bytes_ubc3 (w h : ℤ) :
    spec_level_bytes SCE_GXM_TEXTURE_FORMAT_UBC3_ABGR w h = ⌈(w : ℚ) / 4⌉ * ⌈(h : ℚ) / 4⌉ * 16 := by
  have h1 : SCE_GXM_TEXTURE_FORMAT_UBC3_ABGR ∈ bc_formats := by decide
  have h2 : spec_bc_block_bytes SCE_GXM_TEXTURE_FORMAT_UBC3_ABGR = 16 := by decide
  unfold spec_level_bytes
  rw [if_pos h1, h2]

/-- C3 (the code at a failing input): for the 16 x 8 texture of format UBC3 and
level 2 (`W >> 2 = 4`, `H >> 2 = 2`) `gpu_get_mip_offset` is 160, the byte size of
levels 0 and 1 (128 + 32), but `gpu_get_mipchain_size` is 160 as well: the 4 x 2
level, one 16-byte block, is counted with 0 bytes, so its byte range `[160, 176)` is
not inside the chain; and for level 3 (`2 x 1`) `gpu_get_mip_offset` is still 160
where levels 0 to 2 take 176 bytes. -/
theorem mip_chain_drops_small_bc_level :
    gpu_get_mip_offset 2 ((16 : ℤ) >>> 2) ((8 : ℤ) >>> 2) SCE_GXM_TEXTURE_FORMAT_UBC3_ABGR = 160 ∧
    spec_level_bytes SCE_GXM_TEXTURE_FORMAT_UBC3_ABGR ((16 : ℤ) >>> 0) ((8 : ℤ) >>> 0) +
      spec_level_bytes SCE_GXM_TEXTURE_FORMAT_UBC3_ABGR ((16 : ℤ) >>> 1) ((8 : ℤ) >>> 1) = 160 ∧
    spec_level_bytes SCE_GXM_TEXTURE_FORMAT_UBC3_ABGR ((16 : ℤ) >>> 2) ((8 : ℤ) >>> 2) = 16 ∧
    gpu_get_mipchain_size 2 ((16 : ℤ) >>> 2) ((8 : ℤ) >>> 2) SCE_GXM_TEXTURE_FORMAT_UBC3_ABGR
      = 160 ∧
    gpu_get_mip_offset 3 ((16 : ℤ) >>> 3) ((8 : ℤ) >>> 3) SCE_GXM_TEXTURE_FORMAT_UBC3_ABGR = 160 ∧
    spec_level_bytes SCE_GXM_TEXTURE_FORMAT_UBC3_ABGR ((16 : ℤ) >>> 0) ((8 : ℤ) >>> 0) +
      spec_level_bytes SCE_GXM_TEXTURE_FORMAT_UBC3_ABGR ((16 : ℤ) >>> 1) ((8 : ℤ) >>> 1) +
      spec_level_bytes SCE_GXM_TEXTURE_FORMAT_UBC3_ABGR ((16 : ℤ) >>> 2) ((8 : ℤ) >>> 2) = 176 := by
  have s0 : (16 : ℤ) >>> 0 = 16 := by decide
  have s0' : (8 : ℤ) >>> 0 = 8 := by decide
  have s1 : (16 : ℤ) >>> 1 = 8 := by decide
  have s1' : (8 : ℤ) >>> 1 = 4 := by decide
  have s2 : (16 : ℤ) >>> 2 = 4 := by decide
  have s2' : (8 : ℤ) >>> 2 = 2 := by decide
  have c16 : ⌈((16 : ℤ) : ℚ) / 4⌉ = 4 := by rw [Int.ceil_eq_iff]; norm_num
  have c8 : ⌈((8 : ℤ) : ℚ) / 4⌉ = 2 := by rw [Int.ceil_eq_iff]; norm_num
  have c4 : ⌈((4 : ℤ) : ℚ) / 4⌉ = 1 := by rw [Int.ceil_eq_iff]; norm_num
  have c2 : ⌈((2 : ℤ) : ℚ) / 4⌉ = 1 := by rw [Int.ceil_eq_iff]; norm_num
  have b0 : spec_level_bytes SCE_GXM_TEXTURE_FORMAT_UBC3_ABGR ((16 : ℤ) >>> 0) ((8 : ℤ) >>> 0)
      = 128 := by
    rw [s0, s0', spec_level_bytes_ubc3, c16, c8]; norm_num
  have b1 : spec_level_bytes SCE_GXM_TEXTURE_FORMAT_UBC3_ABGR ((16 : ℤ) >>> 1) ((8 : ℤ) >>> 1)
      = 32 := by
    rw [s1, s1', spec_level_bytes_ubc3, c8, c4]; norm_num
  have b2 : spec_level_bytes SCE_GXM_TEXTURE_FORMAT_UBC3_ABGR ((16 : ℤ) >>> 2) ((8 : ℤ) >>> 2)
      = 16 := by
    rw [s2, s2', spec_level_bytes_ubc3, c4, c2]; norm_num
  refine ⟨by decide, ?_, b2, by decide, by decide, ?_⟩
  · rw [b0, b1]; norm_num
  · rw [b0, b1, b2]; norm_num

theorem mip_level_size_bc_of_mul_four (format : SceGxmTextureFormat) (hf : format ∈ bc_formats)
    (a b : ℤ) :
    mip_level_size format (4 * a) (4 * b) =
      ⌈((4 * a : ℤ) : ℚ) / 4⌉ * ⌈((4 * b : ℤ) : ℚ) / 4⌉ * spec_bc_block_bytes format := by
  have ht : ∀ x : ℤ, Int.tdiv (4 * x) 4 = x := fun x => Int.mul_tdiv_cancel_left x (by norm_num)
  have hc : ∀ x : ℤ, ⌈((4 * x : ℤ) : ℚ) / 4⌉ = x := by
    intro x
    have : ((4 * x : ℤ) : ℚ) / 4 = ((x : ℤ) : ℚ) := by push_cast; ring
    rw [this, Int.ceil_intCast]
  have hC : ∀ x : ℤ, CEIL ((Int.tdiv (4 * x) 4 : ℤ) : ℚ) = x := by
    intro x
    rw [ht]
    exact Int.ceil_intCast x
  simp only [bc_formats, List.mem_cons, List.mem_singleton, List.not_mem_nil, or_false] at hf
  rcases hf with h | h | h <;> subst h
  · rw [mip_level_size, if_neg (by decide), if_neg (by decide), if_neg (by decide),
      if_neg (by decide), if_pos (by decide), hC, hC, hc, hc, spec_bc_block_bytes,
      if_neg (by decide)]
  · rw [mip_level_size, if_neg (by decide), if_neg (by decide), if_neg (by decide),
      if_neg (by decide), if_pos (by decide), hC, hC, hc, hc, spec_bc_block_bytes,
      if_neg (by decide)]
  · rw [mip_level_size, if_neg (by decide), if_neg (by decide), if_neg (by decide),
      if_neg (by decide), if_neg (by decide), if_pos (by decide), hC, hC, hc, hc,
      spec_bc_block_bytes, if_pos (by decide)]

theorem gpu_get_mipchain_size_bc_of_mul_four (format : SceGxmTextureFormat)
    (hf : format ∈ bc_formats) (level : Nat) (a b : ℤ) :
    gpu_get_mipchain_size level (4 * a) (4 * b) format =
      spec_bc_chain_size level (4 * a) (4 * b) format := by
  rw [gpu_get_mipchain_size_eq_sum, spec_bc_chain_size]
  apply Finset.sum_congr rfl
  intro i _
  have e1 : 4 * a * 2 ^ i = 4 * (a * 2 ^ i) := by ring
  have e2 : 4 * b * 2 ^ i = 4 * (b * 2 ^ i) := by ring
  rw [e1, e2]
  exact mip_level_size_bc_of_mul_four format hf _ _

theorem tdiv_add_seven_eq_ceil (x : ℤ) (hx : 0 ≤ x) : Int.tdiv (x + 7) 8 = ⌈(x : ℚ) / 8⌉ := by
  rw [Int.tdiv_eq_ediv (by omega) (by norm_num)]
  symm
  rw [Int.ceil_eq_iff]
  have h1 : 8 * ((x + 7) / 8) ≤ x + 7 := by omega
  have h2 : x ≤ 8 * ((x + 7) / 8) := by omega
  have h1' : (8 : ℚ) * (((x + 7) / 8 : ℤ) : ℚ) ≤ (x : ℚ) + 7 := by exact_mod_cast h1
  have h2' : (x : ℚ) ≤ 8 * (((x + 7) / 8 : ℤ) : ℚ) := by exact_mod_cast h2
  constructor
  · rw [lt_div_iff₀ (by norm_num)]; linarith
  · rw [div_le_iff₀ (by norm_num)]; linarith

theorem MAX_eq_max (a b : ℤ) : MAX a b = max a b := by
  unfold MAX
  split_ifs with h
  · exact (max_eq_left (le_of_lt h)).symm
  · exact (max_eq_right (not_lt.mp h)).symm

theorem mip_level_size_pvr (format : SceGxmTextureFormat) (hf : format ∈ pvr_formats)
    (width height : ℤ) :
    mip_level_size format width height = spec_pvr_level_size format width height := by
  have hm : ∀ k : ℤ, 0 ≤ k → Int.tdiv (MAX width 8 * MAX height 8 * k + 7) 8 =
      ⌈((max width 8 * max height 8 * k : ℤ) : ℚ) / 8⌉ := by
    intro k hk
    rw [MAX_eq_max, MAX_eq_max]
    apply tdiv_add_seven_eq_ceil
    have h1 : (0 : ℤ) ≤ max width 8 := le_trans (by norm_num) (le_max_right _ _)
    have h2 : (0 : ℤ) ≤ max height 8 := le_trans (by norm_num) (le_max_right _ _)
    positivity
  simp only [pvr_formats, List.mem_cons, List.mem_singleton, List.not_mem_nil, or_false] at hf
  rcases hf with h | h | h | h | h | h <;> subst h
  · rw [mip_level_size, spec_pvr_level_size, if_pos (by decide), if_pos (by decide),
      hm 2 (by norm_num)]
  · rw [mip_level_size, spec_pvr_level_size, if_pos (by decide), if_pos (by decide),
      hm 2 (by norm_num)]
  · rw [mip_level_size, spec_pvr_level_size, if_neg (by decide), if_pos (by decide),
      if_neg (by decide), if_pos (by decide), hm 4 (by norm_num)]
  · rw [mip_level_size, spec_pvr_level_size, if_neg (by decide), if_pos (by decide),
      if_neg (by decide), if_pos (by decide), hm 4 (by norm_num)]
  · rw [mip_level_size, spec_pvr_level_size, if_neg (by decide), if_neg (by decide),
      if_pos (by decide), if_neg (by decide), if_neg (by decide), if_pos (by decide)]
    rfl
  · rw [mip_level_size, spec_pvr_level_size, if_neg (by decide), if_neg (by decide),
      if_neg (by decide), if_pos (by decide), if_neg (by decide), if_neg (by decide),
      if_neg (by decide), if_pos (by decide)]
    rfl

/-- C5: for the PVR-style formats, every level `>= 0` and every width and height
(in particular `>= 1`), `gpu_get_mipchain_size(level, width, height, format)` is the
sum over `i` in `[0, level]` of the per-level size at `w_i = width * 2^i`,
`h_i = height * 2^i`, the per-level size being `ceil(max(w,8)*max(h,8)*2/8)` for
PVRT 2bpp, `ceil(max(w,8)*max(h,8)*4/8)` for PVRT 4bpp, `ceil(w/8)*ceil(h/4)*8` for
PVRT-II 2bpp and `ceil(w/4)*ceil(h/4)*8` for PVRT-II 4bpp (integers of the
embedding: no `int` overflow). -/
theorem mipchain_size_pvr_eq_spec (format : SceGxmTextureFormat) (hf : format ∈ pvr_formats)
    (level : Nat) (width height : ℤ) :
    gpu_get_mipchain_size level width height format =
      ∑ i in Finset.range (level + 1),
        spec_pvr_level_size format (width * 2 ^ i) (height * 2 ^ i) := by
  rw [gpu_get_mipchain_size_eq_sum]
  apply Finset.sum_congr rfl
  intro i _
  exact mip_level_size_pvr format hf _ _

theorem mipchain_size_pvr_eq_spec_witness :
    SCE_GXM_TEXTURE_FORMAT_PVRTII2BPP_ABGR ∈ pvr_formats ∧
    gpu_get_mipchain_size (2 : Nat) 3 5 SCE_GXM_TEXTURE_FORMAT_PVRTII2BPP_ABGR =
      ∑ i in Finset.range (2 + 1),
        spec_pvr_level_size SCE_GXM_TEXTURE_FORMAT_PVRTII2BPP_ABGR (3 * 2 ^ i) (5 * 2 ^ i) :=
  ⟨by decide, mipchain_size_pvr_eq_spec SCE_GXM_TEXTURE_FORMAT_PVRTII2BPP_ABGR (by decide) 2 3 5⟩

/-- C4 (the code at a failing input): for a 2 x 2 level in a BC1 format the code
adds `CEIL(2 / 4) * CEIL(2 / 4) * 8 = 0` bytes, the integer quotient being taken
before the ceiling, where the claimed `ceil(2/4) * ceil(2/4) * 8` is 8 bytes. -/
theorem mipchain_size_bc_small_level :
    gpu_get_mipchain_size 0 2 2 SCE_GXM_TEXTURE_FORMAT_UBC1_ABGR = 0 ∧
    spec_bc_chain_size 0 2 2 SCE_GXM_TEXTURE_FORMAT_UBC1_ABGR = 8 := by
  refine ⟨by decide, ?_⟩
  have h : ⌈((2 : ℤ) : ℚ) / 4⌉ = 1 := by
    rw [Int.ceil_eq_iff]; norm_num
  simp [spec_bc_chain_size, spec_bc_block_bytes, SCE_GXM_TEXTURE_FORMAT_UBC1_ABGR]
  simp at h
  rw [h]; norm_num

/-! ### `ALIGN` and the fast row copy -/

theorem testBit_ge32 (x : Nat) (hx : x < 2 ^ 32) (i : Nat) (hi : 32 ≤ i) :
    x.testBit i = false := by
  apply Nat.testBit_lt_two_pow
  exact lt_of_lt_of_le hx (Nat.pow_le_pow_right (by norm_num) hi)

theorem and_mask_eight (x : Nat) (hx : x < 2 ^ 32) : x &&& (2 ^ 32 - 8) = x / 8 * 8 := by
  apply Nat.eq_of_testBit_eq
  intro i
  have hm : ∀ j < 32, (2 ^ 32 - 8 : Nat).testBit j = decide (3 ≤ j) := by decide
  have e : x / 8 * 8 = (x >>> 3) <<< 3 := by
    rw [Nat.shiftRight_eq_div_pow, Nat.shiftLeft_eq]
  rw [e, Nat.testBit_and, Nat.testBit_shiftLeft, Nat.testBit_shiftRight]
  by_cases hi : i < 32
  · rw [hm i hi]
    by_cases h3 : 3 ≤ i
    · have : 3 + (i - 3) = i := by omega
      simp [h3, this]
    · simp [h3]
  · rw [testBit_ge32 x hx i (by omega)]
    have : x.testBit (3 + (i - 3)) = false := testBit_ge32 x hx _ (by omega)
    simp [this]

theorem ALIGN_eight (w : Nat) (hw : w + 7 < 2 ^ 32) : ALIGN w 8 = (w + 7) / 8 * 8 := by
  unfold ALIGN u32
  have h1 : (8 + 2 ^ 32 - 1) % 2 ^ 32 = 7 := by norm_num
  rw [h1, Nat.mod_eq_of_lt hw]
  have h2 : 2 ^ 32 - 1 - 7 = 2 ^ 32 - 8 := by norm_num
  rw [h2]
  exact and_mask_eight _ hw

theorem store_rows_fast_spec (w bpp : Nat) (data texture_data : Mem) (hA : w ≤ ALIGN w 8) :
    ∀ n, ALIGN w 8 * bpp * n < 2 ^ 32 →
      (store_rows_fast w n bpp data texture_data).2 = n * (w * bpp) ∧
      ∀ i < n, ∀ k < w * bpp,
        (store_rows_fast w n bpp data texture_data).1 (ALIGN w 8 * bpp * i + k) =
          data (w * bpp * i + k) := by
  intro n
  induction n with
  | zero => intro _; simp [store_rows_fast]
  | succ n ih =>
    intro hfit
    have hmono : ALIGN w 8 * bpp * n ≤ ALIGN w 8 * bpp * (n + 1) :=
      Nat.mul_le_mul_left _ (Nat.le_succ n)
    have hline : w * bpp ≤ ALIGN w 8 * bpp := Nat.mul_le_mul_right _ hA
    have hs1 : ALIGN w 8 * bpp ≤ ALIGN w 8 * bpp * (n + 1) := Nat.le_mul_of_pos_right _ (by omega)
    obtain ⟨ih1, ih2⟩ := ih (lt_of_le_of_lt hmono hfit)
    have e1 : u32 (w * bpp) = w * bpp := Nat.mod_eq_of_lt (by omega)
    have e2 : u32 (u32 (ALIGN w 8 * bpp) * n) = ALIGN w 8 * bpp * n := by
      unfold u32
      rw [Nat.mod_eq_of_lt (a := ALIGN w 8 * bpp) (by omega), Nat.mod_eq_of_lt (by omega)]
    have hstep : store_rows_fast w (n + 1) bpp data texture_data =
        (memcpy (store_rows_fast w n bpp data texture_data).1 (ALIGN w 8 * bpp * n) data
            (store_rows_fast w n bpp data texture_data).2 (w * bpp),
          (store_rows_fast w n bpp data texture_data).2 + w * bpp) := by
      simp only [store_rows_fast, List.range_succ, List.foldl_append, List.foldl_cons,
        List.foldl_nil, e1, e2]
    rw [hstep]
    refine ⟨by simp only [ih1]; ring, ?_⟩
    intro i hi k hk
    simp only [memcpy]
    by_cases hin : i = n
    · subst hin
      have hc : ALIGN w 8 * bpp * i ≤ ALIGN w 8 * bpp * i + k ∧
          ALIGN w 8 * bpp * i + k < ALIGN w 8 * bpp * i + w * bpp := ⟨by omega, by omega⟩
      rw [if_pos hc, ih1]
      congr 1
      have : ALIGN w 8 * bpp * i + k - ALIGN w 8 * bpp * i = k := by omega
      rw [this]; ring
    · have hi' : i < n := by omega
      have hlt : ALIGN w 8 * bpp * i + k < ALIGN w 8 * bpp * n := by
        have : ALIGN w 8 * bpp * (i + 1) ≤ ALIGN w 8 * bpp * n := Nat.mul_le_mul_left _ hi'
        have h3 : ALIGN w 8 * bpp * (i + 1) = ALIGN w 8 * bpp * i + ALIGN w 8 * bpp := by ring
        omega
      rw [if_neg (by omega)]
      exact ih2 i hi' k hk

theorem tex_format_to_bytespp_pos (format : SceGxmTextureFormat) :
    1 ≤ tex_format_to_bytespp format := by
  unfold tex_format_to_bytespp
  split <;> norm_num

/-- C7 (amended): for every `w`, `h >= 1` whose 8-texel-aligned texture size
`roundup8(w) * h * bpp` is below `2^32`, every destination format with
bytes-per-pixel `bpp` and every non-null source buffer, a `gpu_alloc_texture` call
with `fast_store` set that reports no error produces a buffer of
`ALIGN(w,8) * h * bpp` bytes, `ALIGN(w,8)` being `w` rounded up to a multiple of 8, in
which for every row `i < h` and every `k < w * bpp` the byte at offset
`ALIGN(w,8) * bpp * i + k` equals source byte `w * bpp * i + k`. -/
theorem gpu_alloc_texture_fast_store (P : Platform) (w h : Nat) (format : SceGxmTextureFormat)
    (src : Mem) (tex : texture) (src_bpp : Nat) (read_cb : Mem → Nat → Nat)
    (write_cb : Mem → Nat → Nat → Mem)
    (hh : 1 ≤ h)
    (hfit : (w + 7) / 8 * 8 * h * tex_format_to_bytespp format < 2 ^ 32)
    (hok : (gpu_alloc_texture P w h format (some src) tex src_bpp read_cb write_cb true).error
      = none) :
    ∃ buf : Buffer,
      (gpu_alloc_texture P w h format (some src) tex src_bpp read_cb write_cb true).tex.data
        = some buf ∧
      buf.size = ALIGN w 8 * h * tex_format_to_bytespp format ∧
      ALIGN w 8 = (w + 7) / 8 * 8 ∧
      ∀ i < h, ∀ k < w * tex_format_to_bytespp format,
        buf.bytes (ALIGN w 8 * tex_format_to_bytespp format * i + k) =
          src (w * tex_format_to_bytespp format * i + k) := by
  have hb := tex_format_to_bytespp_pos format
  have hA8 : (w + 7) / 8 * 8 < 2 ^ 32 := by
    have h1 : (w + 7) / 8 * 8 ≤ (w + 7) / 8 * 8 * h := Nat.le_mul_of_pos_right _ (by omega)
    have h2 : (w + 7) / 8 * 8 * h ≤ (w + 7) / 8 * 8 * h * tex_format_to_bytespp format :=
      Nat.le_mul_of_pos_right _ (by omega)
    omega
  have hA : ALIGN w 8 = (w + 7) / 8 * 8 := ALIGN_eight w (by omega)
  have hwA : w ≤ ALIGN w 8 := by rw [hA]; omega
  rw [← hA] at hfit
  have hfit' : ALIGN w 8 * tex_format_to_bytespp format * h < 2 ^ 32 := by
    have : ALIGN w 8 * tex_format_to_bytespp format * h
        = ALIGN w 8 * h * tex_format_to_bytespp format := by ring
    omega
  have hsz : u32 (ALIGN w 8 * h * tex_format_to_bytespp format)
      = ALIGN w 8 * h * tex_format_to_bytespp format := Nat.mod_eq_of_lt hfit
  have hrows := (store_rows_fast_spec w (tex_format_to_bytespp format) src · hwA h hfit')
  unfold gpu_alloc_texture at hok ⊢
  simp only [] at hok ⊢
  cases halloc : (gpu_alloc_mapped P (u32 (ALIGN w 8 * h * tex_format_to_bytespp format))
      (if P.use_vram then VGL_MEM_VRAM else VGL_MEM_RAM)).1 with
  | none => simp [halloc] at hok
  | some fresh =>
    by_cases hinit : P.sceGxmTextureInitLinear format w h 0 < 0
    · simp [halloc, hinit] at hok
    · simp only [halloc, hinit, if_false, if_true]
      exact ⟨_, rfl, hsz, hA, (hrows fresh).2⟩

theorem gpu_alloc_texture_fast_store_witness :
    1 ≤ 4 ∧
    (4 + 7) / 8 * 8 * 4 * tex_format_to_bytespp ⟨U8U8U8U8, SWIZZLE4_ABGR⟩ < 2 ^ 32 ∧
    (gpu_alloc_texture plainPlatform 4 4 ⟨U8U8U8U8, SWIZZLE4_ABGR⟩ (some rampSource)
      blankTexture 4 (fun m o => m o) (fun m _ _ => m) true).error = none ∧
    ∃ buf : Buffer,
      (gpu_alloc_texture plainPlatform 4 4 ⟨U8U8U8U8, SWIZZLE4_ABGR⟩ (some rampSource)
        blankTexture 4 (fun m o => m o) (fun m _ _ => m) true).tex.data = some buf ∧
      buf.size = ALIGN 4 8 * 4 * tex_format_to_bytespp ⟨U8U8U8U8, SWIZZLE4_ABGR⟩ ∧
      ALIGN 4 8 = (4 + 7) / 8 * 8 ∧
      ∀ i < 4, ∀ k < 4 * tex_format_to_bytespp ⟨U8U8U8U8, SWIZZLE4_ABGR⟩,
        buf.bytes (ALIGN 4 8 * tex_format_to_bytespp ⟨U8U8U8U8, SWIZZLE4_ABGR⟩ * i + k) =
          rampSource (4 * tex_format_to_bytespp ⟨U8U8U8U8, SWIZZLE4_ABGR⟩ * i + k) :=
  ⟨by decide, by decide, by decide,
    gpu_alloc_texture_fast_store plainPlatform 4 4 ⟨U8U8U8U8, SWIZZLE4_ABGR⟩ rampSource
      blankTexture 4 (fun m o => m o) (fun m _ _ => m) (by decide) (by decide) (by decide)⟩

/-- C7 (counterexample): with `w = 2^29`, `h = 9` and a one-byte format the size
`ALIGN(w,8) * h * bpp = 9 * 2^29` wraps on `uint32_t` to `2^29`; the call reports no
error, the buffer has `2^29` bytes instead of `9 * 2^29`, and row 8 is written at
offset `8 * 2^29 mod 2^32 = 0`, so the byte at offset 0 is not source byte 0. -/
theorem gpu_alloc_texture_fast_store_overflow :
    (gpu_alloc_texture plainPlatform (2 ^ 29) 9 ⟨U8, SWIZZLE4_ABGR⟩ (some rampSource)
        blankTexture 1 (fun m o => m o) (fun m _ _ => m) true).error = none ∧
    ∃ buf : Buffer,
      (gpu_alloc_texture plainPlatform (2 ^ 29) 9 ⟨U8, SWIZZLE4_ABGR⟩ (some rampSource)
        blankTexture 1 (fun m o => m o) (fun m _ _ => m) true).tex.data = some buf ∧
      buf.size = 2 ^ 29 ∧
      buf.size ≠ ALIGN (2 ^ 29) 8 * 9 * tex_format_to_bytespp ⟨U8, SWIZZLE4_ABGR⟩ ∧
      buf.bytes (ALIGN (2 ^ 29) 8 * tex_format_to_bytespp ⟨U8, SWIZZLE4_ABGR⟩ * 0 + 0) ≠
        rampSource (2 ^ 29 * tex_format_to_bytespp ⟨U8, SWIZZLE4_ABGR⟩ * 0 + 0) := by
  refine ⟨by decide, _, rfl, ?_, ?_, ?_⟩
  · decide
  · decide
  · decide

/-! ### Writes of the level fill stay at or above `mip_data` -/

theorem foldl_invariant {α β : Type} (f : α → β → α) (Inv : α → Prop)
    (hstep : ∀ s x, Inv s → Inv (f s x)) : ∀ (l : List β) (s : α), Inv s → Inv (l.foldl f s) := by
  intro l
  induction l with
  | nil => intro s hs; exact hs
  | cons x xs ih => intro s hs; exact ih _ (hstep s x hs)

theorem memcpy_below (dst : Mem) (doff : Nat) (src : Mem) (soff n k : Nat) (hk : k < doff) :
    memcpy dst doff src soff n k = dst k := by
  unfold memcpy
  rw [if_neg (by omega)]

theorem memset_below (dst : Mem) (doff c n k : Nat) (hk : k < doff) :
    memset dst doff c n k = dst k := by
  unfold memset
  rw [if_neg (by omega)]

theorem dxt_compress_step_above (P : Platform) (dst : Mem) (base : Nat) (src : Mem) (soff : Nat)
    (w h aw ah : ℤ) (isdxt5 : Bool) (st : Mem × Nat) (d : Nat)
    (hst : WritesAbove dst base st) :
    WritesAbove dst base (dxt_compress_step P src soff w h aw ah isdxt5 st d) := by
  obtain ⟨h1, h2⟩ := hst
  unfold dxt_compress_step
  simp only []
  split_ifs
  all_goals first
    | exact ⟨h1, h2⟩
    | exact ⟨Nat.le_trans h1 (Nat.le_add_right _ _), h2⟩
    | exact ⟨Nat.le_trans h1 (Nat.le_add_right _ _), fun k hk => by
        dsimp only
        rw [memcpy_below _ _ _ _ _ _ (by omega)]; exact h2 k hk⟩

theorem dxt_compress_below (P : Platform) (dst : Mem) (doff : Nat) (src : Mem) (soff : Nat)
    (w h aw ah : ℤ) (isdxt5 : Bool) (k : Nat) (hk : k < doff) :
    (dxt_compress P dst doff src soff w h aw ah isdxt5).1 k = dst k := by
  unfold dxt_compress
  exact (foldl_invariant _ (WritesAbove dst doff)
    (fun s x hs => dxt_compress_step_above P dst doff src soff w h aw ah isdxt5 s x hs)
    _ (dst, doff) ⟨le_refl _, fun _ _ => rfl⟩).2 k hk

theorem swizzle_step_above (dst : Mem) (base : Nat) (src : Mem) (soff : Nat)
    (tw th rx ry rw' rh : ℤ) (isdxt5 ispvrt2bpp : Bool) (st : Mem × Nat) (d : Nat)
    (hst : WritesAbove dst base st) :
    WritesAbove dst base (swizzle_step src soff tw th rx ry rw' rh isdxt5 ispvrt2bpp st d) := by
  obtain ⟨h1, h2⟩ := hst
  unfold swizzle_step
  simp only []
  split_ifs
  all_goals first
    | exact ⟨h1, h2⟩
    | exact ⟨Nat.le_trans h1 (Nat.le_add_right _ _), h2⟩
    | exact ⟨Nat.le_trans h1 (Nat.le_add_right _ _), fun k hk => by
        dsimp only
        rw [memcpy_below _ _ _ _ _ _ (by omega)]; exact h2 k hk⟩

theorem swizzle_below (dst : Mem) (doff : Nat) (src : Mem) (soff : Nat)
    (tw th rx ry rw' rh : ℤ) (isdxt5 ispvrt2bpp : Bool) (k : Nat) (hk : k < doff) :
    (swizzle_compressed_texture_region dst doff src soff tw th rx ry rw' rh isdxt5 ispvrt2bpp).1 k
      = dst k := by
  unfold swizzle_compressed_texture_region
  exact (foldl_invariant _ (WritesAbove dst doff)
    (fun s x hs => swizzle_step_above dst doff src soff tw th rx ry rw' rh isdxt5 ispvrt2bpp s x hs)
    _ (dst, doff) ⟨le_refl _, fun _ _ => rfl⟩).2 k hk

theorem fill_mip_data_below (P : Platform) (w h : Nat) (format : SceGxmTextureFormat)
    (data : Option Mem) (src_bpp : Nat) (read_cb : Option ReadCallback)
    (aw ah : Nat) (tex_size mip_size : ℤ) (texture_data : Mem) (mip_off k : Nat)
    (hk : k < mip_off) :
    fill_mip_data P w h format data src_bpp read_cb aw ah tex_size mip_size texture_data mip_off k
      = texture_data k := by
  unfold fill_mip_data
  cases data with
  | none => exact memset_below _ _ _ _ _ hk
  | some src =>
    cases read_cb with
    | none =>
      simp only []
      split_ifs
      · exact memcpy_below _ _ _ _ _ _ hk
      · exact swizzle_below _ _ _ _ _ _ _ _ _ _ _ _ _ hk
      · exact swizzle_below _ _ _ _ _ _ _ _ _ _ _ _ _ hk
      · exact swizzle_below _ _ _ _ _ _ _ _ _ _ _ _ _ hk
    | some cb =>
      cases cb with
      | readRGBA => exact dxt_compress_below _ _ _ _ _ _ _ _ _ _ _ hk
      | other f => exact dxt_compress_below _ _ _ _ _ _ _ _ _ _ _ hk

/-! ### Growing a compressed texture by one level -/

theorem validate_compressed_ok (P : Platform) (format : SceGxmTextureFormat) (tex : texture)
    (texture_data : Buffer) (tex_width tex_height mipCount : Nat)
    (herr : (validate_compressed P format tex texture_data tex_width tex_height mipCount).error
      = none) :
    validate_compressed P format tex texture_data tex_width tex_height mipCount =
      ⟨none, { tex with
        gxm_tex := ⟨some texture_data, format, tex_width, tex_height, mipCount⟩
        palette_UID := 0
        valid := true
        data := some texture_data }⟩ := by
  unfold validate_compressed at herr ⊢
  by_cases hinit : P.sceGxmTextureInitSwizzledArbitrary format tex_width tex_height mipCount < 0
  · rw [if_pos hinit] at herr; simp at herr
  · rw [if_neg hinit]

theorem alloc_compressed_fresh (P : Platform) (mip_level w h : Nat)
    (format : SceGxmTextureFormat) (image_size : Nat) (data : Option Mem) (tex : texture)
    (src_bpp : Nat) (read_cb : Option ReadCallback) (hvalid : tex.valid = false)
    (herr : (gpu_alloc_compressed_texture P mip_level w h format image_size data tex src_bpp
      read_cb).error = none) :
    ∃ buf : Buffer,
      (gpu_alloc_compressed_texture P mip_level w h format image_size data tex src_bpp
        read_cb).tex.data = some buf ∧
      (gpu_alloc_compressed_texture P mip_level w h format image_size data tex src_bpp
        read_cb).tex.valid = true ∧
      (gpu_alloc_compressed_texture P mip_level w h format image_size data tex src_bpp
        read_cb).tex.gxm_tex.mipCount = mip_level ∧
      (gpu_alloc_compressed_texture P mip_level w h format image_size data tex src_bpp
        read_cb).tex.gxm_tex.width = w ∧
      (gpu_alloc_compressed_texture P mip_level w h format image_size data tex src_bpp
        read_cb).tex.gxm_tex.height = h := by
  generalize hr : gpu_alloc_compressed_texture P mip_level w h format image_size data tex src_bpp
    read_cb = r at herr ⊢
  unfold gpu_alloc_compressed_texture at hr
  simp only [hvalid, Bool.false_eq_true, and_false, if_false, if_true] at hr
  by_cases himg : image_size ≠ 0 ∧ (image_size : ℤ) ≠ mip_level_size format w h
  · rw [if_pos himg] at hr; subst hr; simp at herr
  · rw [if_neg himg] at hr
    split at hr
    · subst hr; simp at herr
    · subst hr
      rw [validate_compressed_ok _ _ _ _ _ _ _ herr]
      exact ⟨_, rfl, rfl, rfl, rfl, rfl⟩

theorem alloc_compressed_grow (P : Platform) (mip_level w h : Nat)
    (format : SceGxmTextureFormat) (image_size : Nat) (data : Option Mem) (tex : texture)
    (src_bpp : Nat) (read_cb : Option ReadCallback) (old : Buffer)
    (hvalid : tex.valid = true) (hlevel : mip_level ≠ 0)
    (hcount : tex.gxm_tex.mipCount < mip_level) (hold : tex.data = some old)
    (herr : (gpu_alloc_compressed_texture P mip_level w h format image_size data tex src_bpp
      read_cb).error = none) :
    ∃ buf : Buffer,
      (gpu_alloc_compressed_texture P mip_level w h format image_size data tex src_bpp
        read_cb).tex.data = some buf ∧
      ∀ k : Nat,
        k < (gpu_get_mip_offset mip_level (nearest_po2 w) (nearest_po2 h) format).toNat →
        k < ((gpu_get_mipchain_size tex.gxm_tex.mipCount
            (gpu_get_mip_size tex.gxm_tex.mipCount (nearest_po2 tex.gxm_tex.width)
              (nearest_po2 tex.gxm_tex.height)).1
            (gpu_get_mip_size tex.gxm_tex.mipCount (nearest_po2 tex.gxm_tex.width)
              (nearest_po2 tex.gxm_tex.height)).2 format) % 2 ^ 32).toNat →
        buf.bytes k = old.bytes k := by
  generalize hr : gpu_alloc_compressed_texture P mip_level w h format image_size data tex src_bpp
    read_cb = r at herr ⊢
  unfold gpu_alloc_compressed_texture at hr
  simp only [hvalid, hlevel, false_and, if_false, if_true, Bool.true_eq_false,
    -Nat.reducePow] at hr
  by_cases himg : image_size ≠ 0 ∧ (image_size : ℤ) ≠ mip_level_size format w h
  · rw [if_pos himg] at hr; subst hr; simp at herr
  · rw [if_neg himg, if_neg (by omega)] at hr
    split at hr
    · subst hr; simp at herr
    · subst hr
      rw [validate_compressed_ok _ _ _ _ _ _ _ herr]
      refine ⟨_, rfl, ?_⟩
      intro k hk1 hk2
      simp only [hold]
      rw [fill_mip_data_below _ _ _ _ _ _ _ _ _ _ _ _ _ _ hk1]
      unfold memcpy
      rw [if_pos ⟨Nat.zero_le _, by omega⟩]
      simp

theorem two_pow_half (a : Nat) (ha : 1 ≤ a) : 2 ^ a / 2 = 2 ^ (a - 1) := by
  have : 2 ^ a = 2 ^ (a - 1) * 2 := by rw [← pow_succ]; congr 1; omega
  rw [this, Nat.mul_div_cancel _ (by norm_num)]

theorem MAX_eight_mul (x : ℤ) (hx : 1 ≤ x) : MAX (8 * x) 8 = 8 * x := by
  unfold MAX
  split_ifs <;> omega

theorem mip_level_size_le_area (format : SceGxmTextureFormat) (x y : ℤ) (hx : 1 ≤ x)
    (hy : 1 ≤ y) : mip_level_size format (8 * x) (8 * y) ≤ 64 * (x * y) := by
  have hp : 0 ≤ x * y := mul_nonneg (by omega) (by omega)
  have c8 : ∀ z : ℤ, CEIL (((8 * z : ℤ) : ℚ) / 8) = z := by
    intro z
    unfold CEIL
    have : ((8 * z : ℤ) : ℚ) / 8 = ((z : ℤ) : ℚ) := by push_cast; ring
    rw [this, Int.ceil_intCast]
  have c4 : ∀ z : ℤ, CEIL (((8 * z : ℤ) : ℚ) / 4) = 2 * z := by
    intro z
    unfold CEIL
    have : ((8 * z : ℤ) : ℚ) / 4 = ((2 * z : ℤ) : ℚ) := by push_cast; ring
    rw [this, Int.ceil_intCast]
  have ct : ∀ z : ℤ, 0 ≤ z → CEIL ((Int.tdiv (8 * z) 4 : ℤ) : ℚ) = 2 * z := by
    intro z hz
    unfold CEIL
    rw [Int.ceil_intCast, Int.tdiv_eq_ediv (by omega) (by norm_num)]
    omega
  have t2 : Int.tdiv (8 * x * (8 * y) * 2 + 7) 8 = 16 * (x * y) := by
    rw [Int.tdiv_eq_ediv (by nlinarith) (by norm_num)]
    have : 8 * x * (8 * y) * 2 + 7 = 8 * (16 * (x * y)) + 7 := by ring
    rw [this]
    omega
  have t4 : Int.tdiv (8 * x * (8 * y) * 4 + 7) 8 = 32 * (x * y) := by
    rw [Int.tdiv_eq_ediv (by nlinarith) (by norm_num)]
    have : 8 * x * (8 * y) * 4 + 7 = 8 * (32 * (x * y)) + 7 := by ring
    rw [this]
    omega
  unfold mip_level_size
  rw [MAX_eight_mul x hx, MAX_eight_mul y hy, t2, t4, c8 x, c4 x, c4 y, ct x (by omega),
    ct y (by omega)]
  split_ifs <;> nlinarith

theorem level_zero_size_fits (format : SceGxmTextureFormat) (a b : Nat) (ha : 3 ≤ a)
    (hb : 3 ≤ b) (hint : a + b ≤ 28) :
    gpu_get_mipchain_size 0 ((2 ^ a : Nat) : ℤ) ((2 ^ b : Nat) : ℤ) format < 2 ^ 32 := by
  have e0 : gpu_get_mipchain_size 0 ((2 ^ a : Nat) : ℤ) ((2 ^ b : Nat) : ℤ) format =
      mip_level_size format ((2 ^ a : Nat) : ℤ) ((2 ^ b : Nat) : ℤ) := by
    simp [gpu_get_mipchain_size, mipchain_loop]
  have ea : ((2 ^ a : Nat) : ℤ) = 8 * ((2 ^ (a - 3) : Nat) : ℤ) := by
    have : 2 ^ a = 2 ^ 3 * 2 ^ (a - 3) := by rw [← pow_add]; congr 1; omega
    rw [this]; push_cast; ring
  have eb : ((2 ^ b : Nat) : ℤ) = 8 * ((2 ^ (b - 3) : Nat) : ℤ) := by
    have : 2 ^ b = 2 ^ 3 * 2 ^ (b - 3) := by rw [← pow_add]; congr 1; omega
    rw [this]; push_cast; ring
  have hx : (1 : ℤ) ≤ ((2 ^ (a - 3) : Nat) : ℤ) := by
    exact_mod_cast Nat.one_le_two_pow
  have hy : (1 : ℤ) ≤ ((2 ^ (b - 3) : Nat) : ℤ) := by
    exact_mod_cast Nat.one_le_two_pow
  have hxy : ((2 ^ (a - 3) : Nat) : ℤ) * ((2 ^ (b - 3) : Nat) : ℤ) ≤ 2 ^ 22 := by
    have h1 : 2 ^ (a - 3) * 2 ^ (b - 3) ≤ 2 ^ 22 := by
      rw [← pow_add]
      exact Nat.pow_le_pow_right (by norm_num) (by omega)
    exact_mod_cast h1
  rw [e0, ea, eb]
  have := mip_level_size_le_area format _ _ hx hy
  omega

/-- C8: for every format and every power-of-two base size `W = 2^a`, `H = 2^b >= 8`
with `W * H <= 2^28` (so that every size the routine computes in `int`, the largest
being `W * H * 4 + 7`, stays in the `int` range), if
`gpu_alloc_compressed_texture` is called on an invalid texture with mip level 0 and
size `W x H`, and then again on the same texture with mip level 1 and size
`W/2 x H/2`, neither call reporting an error, then the bytes of level 0 (offsets 0 up
to the level-0 byte size) in the texture's buffer after the second call are those
after the first call. -/
theorem compressed_growth_preserves_level_zero (P1 P2 : Platform)
    (format : SceGxmTextureFormat) (a b : Nat)
    (ha : 3 ≤ a) (hb : 3 ≤ b) (hint : a + b ≤ 28)
    (tex0 : texture) (htex0 : tex0.valid = false)
    (image_size1 image_size2 : Nat) (data1 data2 : Option Mem) (src_bpp1 src_bpp2 : Nat)
    (read_cb1 read_cb2 : Option ReadCallback)
    (h1 : (gpu_alloc_compressed_texture P1 0 (2 ^ a) (2 ^ b) format image_size1 data1 tex0
      src_bpp1 read_cb1).error = none)
    (h2 : (gpu_alloc_compressed_texture P2 1 (2 ^ a / 2) (2 ^ b / 2) format image_size2 data2
      (gpu_alloc_compressed_texture P1 0 (2 ^ a) (2 ^ b) format image_size1 data1 tex0
        src_bpp1 read_cb1).tex src_bpp2 read_cb2).error = none) :
    ∃ buf1 buf2 : Buffer,
      (gpu_alloc_compressed_texture P1 0 (2 ^ a) (2 ^ b) format image_size1 data1 tex0
        src_bpp1 read_cb1).tex.data = some buf1 ∧
      (gpu_alloc_compressed_texture P2 1 (2 ^ a / 2) (2 ^ b / 2) format image_size2 data2
        (gpu_alloc_compressed_texture P1 0 (2 ^ a) (2 ^ b) format image_size1 data1 tex0
          src_bpp1 read_cb1).tex src_bpp2 read_cb2).tex.data = some buf2 ∧
      ∀ k : Nat, (k : ℤ) < gpu_get_mipchain_size 0 ((2 ^ a : Nat) : ℤ) ((2 ^ b : Nat) : ℤ) format →
        buf2.bytes k = buf1.bytes k := by
  have ha' : a ≤ 31 := by omega
  have hb' : b ≤ 31 := by omega
  have hfit := level_zero_size_fits format a b ha hb hint
  obtain ⟨buf1, hd1, hv1, hm1, hw1, hh1⟩ :=
    alloc_compressed_fresh P1 0 (2 ^ a) (2 ^ b) format image_size1 data1 tex0 src_bpp1 read_cb1
      htex0 h1
  obtain ⟨buf2, hd2, hbytes⟩ :=
    alloc_compressed_grow P2 1 (2 ^ a / 2) (2 ^ b / 2) format image_size2 data2 _ src_bpp2
      read_cb2 buf1 hv1 (by norm_num) (by rw [hm1]; norm_num) hd1 h2
  refine ⟨buf1, buf2, hd1, hd2, ?_⟩
  intro k hk
  rw [hm1, hw1, hh1, nearest_po2_two_pow a ha', nearest_po2_two_pow b hb',
    two_pow_half a (by omega), two_pow_half b (by omega),
    nearest_po2_two_pow (a - 1) (by omega), nearest_po2_two_pow (b - 1) (by omega)] at hbytes
  have e1 : gpu_get_mip_offset ((1 : Nat) : ℤ) ((2 ^ (a - 1) : Nat) : ℤ) ((2 ^ (b - 1) : Nat) : ℤ)
      format = gpu_get_mipchain_size 0 ((2 ^ a : Nat) : ℤ) ((2 ^ b : Nat) : ℤ) format := by
    unfold gpu_get_mip_offset
    have ea : ((2 ^ (a - 1) : Nat) : ℤ) * 2 = ((2 ^ a : Nat) : ℤ) := by
      have : 2 ^ a = 2 ^ (a - 1) * 2 := by rw [← pow_succ]; congr 1; omega
      rw [this]; push_cast; ring
    have eb : ((2 ^ (b - 1) : Nat) : ℤ) * 2 = ((2 ^ b : Nat) : ℤ) := by
      have : 2 ^ b = 2 ^ (b - 1) * 2 := by rw [← pow_succ]; congr 1; omega
      rw [this]; push_cast; ring
    rw [ea, eb]
    norm_num
  have e2 : gpu_get_mip_size ((0 : Nat) : ℤ) ((2 ^ a : Nat) : ℤ) ((2 ^ b : Nat) : ℤ)
      = (((2 ^ a : Nat) : ℤ), ((2 ^ b : Nat) : ℤ)) := by
    simp [gpu_get_mip_size, mip_size_loop]
  rw [e1, e2] at hbytes
  apply hbytes k
  · omega
  · simp only [Nat.cast_zero]
    omega

theorem compressed_growth_preserves_level_zero_witness :
    3 ≤ 3 ∧ 3 + 3 ≤ 28 ∧ blankTexture.valid = false ∧
    (gpu_alloc_compressed_texture plainPlatform 0 (2 ^ 3) (2 ^ 3)
      SCE_GXM_TEXTURE_FORMAT_UBC1_ABGR 0 (some rampSource) blankTexture 0 none).error = none ∧
    (gpu_alloc_compressed_texture plainPlatform 1 (2 ^ 3 / 2) (2 ^ 3 / 2)
      SCE_GXM_TEXTURE_FORMAT_UBC1_ABGR 0 (some rampSource)
      (gpu_alloc_compressed_texture plainPlatform 0 (2 ^ 3) (2 ^ 3)
        SCE_GXM_TEXTURE_FORMAT_UBC1_ABGR 0 (some rampSource) blankTexture 0 none).tex
      0 none).error = none ∧
    ∃ buf1 buf2 : Buffer,
      (gpu_alloc_compressed_texture plainPlatform 0 (2 ^ 3) (2 ^ 3)
        SCE_GXM_TEXTURE_FORMAT_UBC1_ABGR 0 (some rampSource) blankTexture 0 none).tex.data
        = some buf1 ∧
      (gpu_alloc_compressed_texture plainPlatform 1 (2 ^ 3 / 2) (2 ^ 3 / 2)
        SCE_GXM_TEXTURE_FORMAT_UBC1_ABGR 0 (some rampSource)
        (gpu_alloc_compressed_texture plainPlatform 0 (2 ^ 3) (2 ^ 3)
          SCE_GXM_TEXTURE_FORMAT_UBC1_ABGR 0 (some rampSource) blankTexture 0 none).tex
        0 none).tex.data = some buf2 ∧
      ∀ k : Nat, (k : ℤ) < gpu_get_mipchain_size 0 ((2 ^ 3 : Nat) : ℤ) ((2 ^ 3 : Nat) : ℤ)
          SCE_GXM_TEXTURE_FORMAT_UBC1_ABGR →
        buf2.bytes k = buf1.bytes k :=
  ⟨by decide, by decide, rfl, by decide, by decide,
    compressed_growth_preserves_level_zero plainPlatform plainPlatform
      SCE_GXM_TEXTURE_FORMAT_UBC1_ABGR 3 3 (by decide) (by decide)
      (by decide) blankTexture rfl 0 0 (some rampSource) (some rampSource) 0 0 none none
      (by decide) (by decide)⟩

/-! ### The dimension check of `gpu_alloc_compressed_mipmaps` -/

theorem compressed_mipmaps_rejects (P : Platform) (tex : texture) (isdxt5 : Bool)
    (gl_format : Nat) (data : Mem)
    (h : tex.gxm_tex.width % 16 ≠ 0 ∨ tex.gxm_tex.height % 26 ≠ 0) :
    gpu_alloc_compressed_mipmaps P tex isdxt5 gl_format data = ⟨some GL_INVALID_OPERATION, tex⟩ := by
  unfold gpu_alloc_compressed_mipmaps
  simp only []
  rw [if_pos h]

theorem compressed_mipmaps_accepts (P : Platform) (tex : texture) (isdxt5 : Bool)
    (gl_format : Nat) (data : Mem)
    (hw : tex.gxm_tex.width % 16 = 0) (hh : tex.gxm_tex.height % 26 = 0)
    (hf : gl_format = GL_RGBA ∨ gl_format = GL_RGB) :
    (gpu_alloc_compressed_mipmaps P tex isdxt5 gl_format data).error ≠ some GL_INVALID_OPERATION := by
  unfold gpu_alloc_compressed_mipmaps
  simp only []
  rw [if_neg (by omega), if_neg (by omega)]
  split
  · split <;> simp [GL_OUT_OF_MEMORY, GL_INVALID_OPERATION]
  · simp [GL_OUT_OF_MEMORY, GL_INVALID_OPERATION]

/-- C9 (the code at a failing input): a valid 16 x 26 texture has a height that is
not a multiple of 16, yet `gpu_alloc_compressed_mipmaps` passes the dimension check
(`orig_h % 26`), reports no error and rebuilds the texture: its mip count goes from
0 to 1. -/
theorem compressed_mipmaps_accepts_16x26 :
    (compressedTexture 16 26).valid = true ∧
    (compressedTexture 16 26).gxm_tex.height % 16 ≠ 0 ∧
    (gpu_alloc_compressed_mipmaps plainPlatform (compressedTexture 16 26) false GL_RGBA
      rampSource).error = none ∧
    (gpu_alloc_compressed_mipmaps plainPlatform (compressedTexture 16 26) false GL_RGBA
      rampSource).tex.gxm_tex.mipCount = 1 ∧
    (compressedTexture 16 26).gxm_tex.mipCount = 0 := by
  decide

/-- C10 (the code at a failing input): a valid 16 x 16 texture has both sizes
multiples of 16 and the source format is `GL_RGBA`, yet the dimension check
(`orig_h % 26`) makes `gpu_alloc_compressed_mipmaps` report `GL_INVALID_OPERATION`. -/
theorem compressed_mipmaps_rejects_16x16 :
    (compressedTexture 16 16).valid = true ∧
    (compressedTexture 16 16).gxm_tex.width % 16 = 0 ∧
    (compressedTexture 16 16).gxm_tex.height % 16 = 0 ∧
    (gpu_alloc_compressed_mipmaps plainPlatform (compressedTexture 16 16) false GL_RGBA
      rampSource).error = some GL_INVALID_OPERATION := by
  decide

theorem compressed_mipmaps_sizing_fuel (isdxt5 : Bool) (fuel : Nat) :
    ∀ st : MipSizing, st.w ≤ fuel →
      compressed_mipmaps_sizing isdxt5 (fuel + 1) st = compressed_mipmaps_sizing isdxt5 fuel st := by
  induction fuel with
  | zero =>
    intro st hst
    have : ¬ (st.w > 1 ∧ st.h > 1) := by omega
    simp [compressed_mipmaps_sizing, this]
  | succ n ih =>
    intro st hst
    rw [compressed_mipmaps_sizing, compressed_mipmaps_sizing.eq_def isdxt5 (n + 1) st]
    simp only []
    by_cases hc : st.w > 1 ∧ st.h > 1
    · rw [if_pos hc, if_pos hc]
      split_ifs with hb
      · rfl
      · exact ih _ (by simp only []; omega)
    · rw [if_neg hc, if_neg hc]


/-! ### Fallback order of `gpu_alloc_mapped` -/

/-- C11 (amended): for every preferred domain and every pattern of which domains can
satisfy the request, `gpu_alloc_mapped` takes the block from the first request that is
satisfied in the order: the preferred domain, then the other one of VRAM and RAM (RAM
when the preferred domain is VRAM, VRAM otherwise), then the slow domain, then, when
`use_extra_mem` is set, the host heap; on success the caller's domain variable holds
the domain the block came from, on failure the last domain tried. -/
theorem gpu_alloc_mapped_first_attempt (P : Platform) (size : Nat) (type : vglMemType) :
    gpu_alloc_mapped P size type =
      match (fallback_attempts P size type).find? (fun a => a.2.isSome) with
      | some a => (a.2, a.1)
      | none => (none, if P.use_extra_mem then VGL_MEM_EXTERNAL else VGL_MEM_SLOW) := by
  unfold gpu_alloc_mapped fallback_attempts other_domain
  cases h1 : P.vgl_mem_alloc size type with
  | some r => simp [h1]
  | none =>
    cases h2 : P.vgl_mem_alloc size (if type = VGL_MEM_VRAM then VGL_MEM_RAM else VGL_MEM_VRAM) with
    | some r => simp [h1, h2]
    | none =>
      cases h3 : P.vgl_mem_alloc size VGL_MEM_SLOW with
      | some r => simp [h1, h2, h3]
      | none =>
        cases h4 : P.use_extra_mem with
        | false => simp [h1, h2, h3, h4]
        | true =>
          cases h5 : P.malloc 0 size with
          | some r => simp [h1, h2, h3, h4, h5]
          | none => simp [h1, h2, h3, h4, h5]

/-- C11 (counterexample): with RAM preferred and only VRAM able to satisfy the
request, the block comes from VRAM, a domain before RAM in the fixed order. -/
theorem gpu_alloc_mapped_moves_backward :
    ((gpu_alloc_mapped (onlyDomainPlatform VGL_MEM_VRAM) 64 VGL_MEM_RAM).1).isSome = true ∧
    (gpu_alloc_mapped (onlyDomainPlatform VGL_MEM_VRAM) 64 VGL_MEM_RAM).2 = VGL_MEM_VRAM ∧
    domain_rank VGL_MEM_VRAM < domain_rank VGL_MEM_RAM := by
  decide

/-- C12 (amended): for every size and a preferred domain that is VRAM or RAM,
`gpu_alloc_mapped` returns null if and only if the request cannot be satisfied in any
of VRAM, RAM and the slow domain and, when `use_extra_mem` is set, not by the host
heap either. -/
theorem gpu_alloc_mapped_null_iff_exhausted (P : Platform) (size : Nat) (type : vglMemType)
    (ht : type = VGL_MEM_VRAM ∨ type = VGL_MEM_RAM) :
    (gpu_alloc_mapped P size type).1 = none ↔
      (P.vgl_mem_alloc size VGL_MEM_VRAM = none ∧ P.vgl_mem_alloc size VGL_MEM_RAM = none ∧
        P.vgl_mem_alloc size VGL_MEM_SLOW = none ∧
        (P.use_extra_mem = true → P.malloc 0 size = none)) := by
  unfold gpu_alloc_mapped
  rcases ht with rfl | rfl
  · cases h1 : P.vgl_mem_alloc size VGL_MEM_VRAM <;> cases h2 : P.vgl_mem_alloc size VGL_MEM_RAM <;>
      cases h3 : P.vgl_mem_alloc size VGL_MEM_SLOW <;> cases h4 : P.use_extra_mem <;>
      simp [h1, h2, h3, h4]
  · cases h1 : P.vgl_mem_alloc size VGL_MEM_VRAM <;> cases h2 : P.vgl_mem_alloc size VGL_MEM_RAM <;>
      cases h3 : P.vgl_mem_alloc size VGL_MEM_SLOW <;> cases h4 : P.use_extra_mem <;>
      simp [h1, h2, h3, h4]

theorem gpu_alloc_mapped_null_iff_exhausted_witness :
    (VGL_MEM_RAM = VGL_MEM_VRAM ∨ VGL_MEM_RAM = VGL_MEM_RAM) ∧
    ((gpu_alloc_mapped (onlyDomainPlatform VGL_MEM_SLOW) 64 VGL_MEM_RAM).1 = none ↔
      ((onlyDomainPlatform VGL_MEM_SLOW).vgl_mem_alloc 64 VGL_MEM_VRAM = none ∧
        (onlyDomainPlatform VGL_MEM_SLOW).vgl_mem_alloc 64 VGL_MEM_RAM = none ∧
        (onlyDomainPlatform VGL_MEM_SLOW).vgl_mem_alloc 64 VGL_MEM_SLOW = none ∧
        ((onlyDomainPlatform VGL_MEM_SLOW).use_extra_mem = true →
          (onlyDomainPlatform VGL_MEM_SLOW).malloc 0 64 = none))) :=
  ⟨Or.inr rfl,
    gpu_alloc_mapped_null_iff_exhausted (onlyDomainPlatform VGL_MEM_SLOW) 64 VGL_MEM_RAM
      (Or.inr rfl)⟩

/-- C12 (counterexample): with the slow domain preferred, the host heap off and only
RAM able to satisfy the request, RAM is never asked and the call returns null. -/
theorem gpu_alloc_mapped_skips_ram :
    (gpu_alloc_mapped (onlyDomainPlatform VGL_MEM_RAM) 64 VGL_MEM_SLOW).1 = none ∧
    ((onlyDomainPlatform VGL_MEM_RAM).vgl_mem_alloc 64 VGL_MEM_RAM).isSome = true := by
  constructor
  · simp [gpu_alloc_mapped, onlyDomainPlatform]
  · decide

/-! ### Scratch pool -/

theorem ptr_of_addr_ne_zero (a : Nat) (h : a ≠ 0) : ptr_of_addr a = some a := by
  simp [ptr_of_addr, h]

theorem gpu_pool_malloc_cases (pool : Pool) (size : Nat)
    (hfit : pool.pool_index + size < 2 ^ 32) :
    (pool.pool_index + size < pool.pool_size →
      (gpu_pool_malloc pool size).1 = ptr_of_addr (u32 (pool.pool_addr + pool.pool_index)) ∧
      (gpu_pool_malloc pool size).2.pool_index = pool.pool_index + size ∧
      (gpu_pool_malloc pool size).2.pool_addr = pool.pool_addr ∧
      (gpu_pool_malloc pool size).2.pool_size = pool.pool_size) ∧
    (¬ pool.pool_index + size < pool.pool_size →
      (gpu_pool_malloc pool size).1 = none ∧ (gpu_pool_malloc pool size).2 = pool) := by
  have e : u32 (pool.pool_index + size) = pool.pool_index + size := Nat.mod_eq_of_lt hfit
  unfold gpu_pool_malloc
  rw [e]
  by_cases h : pool.pool_index + size < pool.pool_size
  · simp [h]
  · simp [h]

/-- C13 (amended): for every pool state (base, offset, capacity) in which
`base + offset`, as a 32-bit address, is not the null address, and every size with
`offset + size < 2^32`, `gpu_pool_malloc(size)` succeeds (returns a non-null pointer)
if and only if `offset + size < capacity`; on success it returns `base + offset` (a
32-bit address) and the new offset is `offset + size`; on failure it returns null and
leaves the pool unchanged. -/
theorem gpu_pool_malloc_spec (pool : Pool) (size : Nat)
    (hbase : u32 (pool.pool_addr + pool.pool_index) ≠ 0)
    (hfit : pool.pool_index + size < 2 ^ 32) :
    ((gpu_pool_malloc pool size).1 ≠ none ↔ pool.pool_index + size < pool.pool_size) ∧
    (pool.pool_index + size < pool.pool_size →
      (gpu_pool_malloc pool size).1 = some (u32 (pool.pool_addr + pool.pool_index)) ∧
      (gpu_pool_malloc pool size).2.pool_index = pool.pool_index + size ∧
      (gpu_pool_malloc pool size).2.pool_addr = pool.pool_addr ∧
      (gpu_pool_malloc pool size).2.pool_size = pool.pool_size) ∧
    (¬ pool.pool_index + size < pool.pool_size →
      (gpu_pool_malloc pool size).1 = none ∧ (gpu_pool_malloc pool size).2 = pool) := by
  obtain ⟨hs, hf⟩ := gpu_pool_malloc_cases pool size hfit
  have hp := ptr_of_addr_ne_zero _ hbase
  refine ⟨⟨?_, ?_⟩, ?_, hf⟩
  · intro hne
    by_contra hc
    exact hne (hf hc).1
  · intro hc
    rw [(hs hc).1, hp]
    simp
  · intro hc
    refine ⟨?_, (hs hc).2⟩
    rw [(hs hc).1, hp]

theorem gpu_pool_malloc_spec_witness :
    u32 (0x1000 + 10) ≠ 0 ∧ (10 + 20 < 2 ^ 32) ∧
    (((gpu_pool_malloc ⟨0x1000, 10, 100⟩ 20).1 ≠ none ↔ 10 + 20 < 100) ∧
    (10 + 20 < 100 →
      (gpu_pool_malloc ⟨0x1000, 10, 100⟩ 20).1 = some (u32 (0x1000 + 10)) ∧
      (gpu_pool_malloc ⟨0x1000, 10, 100⟩ 20).2.pool_index = 10 + 20 ∧
      (gpu_pool_malloc ⟨0x1000, 10, 100⟩ 20).2.pool_addr = 0x1000 ∧
      (gpu_pool_malloc ⟨0x1000, 10, 100⟩ 20).2.pool_size = 100) ∧
    (¬ 10 + 20 < 100 →
      (gpu_pool_malloc ⟨0x1000, 10, 100⟩ 20).1 = none ∧
      (gpu_pool_malloc ⟨0x1000, 10, 100⟩ 20).2 = ⟨0x1000, 10, 100⟩)) :=
  ⟨by decide, by decide, gpu_pool_malloc_spec ⟨0x1000, 10, 100⟩ 20 (by decide) (by decide)⟩

/-- C13 (counterexample): at offset 10 in a pool of capacity 100 the request of
`2^32 - 5` bytes makes `pool_index + size` wrap to 5, so the call succeeds and sets
the offset to 5 although `offset + size` is far above the capacity; and in the pool
left by a `gpu_pool_init(100)` whose allocation failed (base `NULL`, offset 0) the
request of 10 bytes, with `offset + size < capacity`, returns the null pointer and
still moves the offset to 10. -/
theorem gpu_pool_malloc_wrap_and_null :
    (gpu_pool_malloc ⟨0x1000, 10, 100⟩ (2 ^ 32 - 5)).1 = some 0x100A ∧
    (gpu_pool_malloc ⟨0x1000, 10, 100⟩ (2 ^ 32 - 5)).2.pool_index = 5 ∧
    ¬ (10 + (2 ^ 32 - 5) < 100) ∧
    (gpu_pool_init (onlyDomainPlatform VGL_MEM_EXTERNAL) 0x1000 pool_start 100).pool_addr = 0 ∧
    (gpu_pool_init (onlyDomainPlatform VGL_MEM_EXTERNAL) 0x1000 pool_start 100).pool_index = 0 ∧
    (gpu_pool_init (onlyDomainPlatform VGL_MEM_EXTERNAL) 0x1000 pool_start 100).pool_size = 100 ∧
    (gpu_pool_malloc (gpu_pool_init (onlyDomainPlatform VGL_MEM_EXTERNAL) 0x1000 pool_start 100)
      10).1 = none ∧
    (gpu_pool_malloc (gpu_pool_init (onlyDomainPlatform VGL_MEM_EXTERNAL) 0x1000 pool_start 100)
      10).2.pool_index = 10 ∧
    0 + 10 < 100 := by
  decide

/-- C14: for a freshly initialised pool (its block allocated at a non-null address
inside the 32-bit address space, offset 0) and every `size1`, `size2` with
`size1 + size2 < capacity`, two sequential `gpu_pool_malloc` calls both succeed and
return the adjacent, disjoint ranges `[a1, a1+size1)` and `[a2, a2+size2)` with
`a1 = base` and `a2 = base + size1`; after `gpu_pool_reset` the next
`gpu_pool_malloc(size1)` returns `a1` again. -/
theorem gpu_pool_fresh_two_mallocs (P : Platform) (block_addr capacity size1 size2 : Nat)
    (halloc : (gpu_alloc_mapped P capacity VGL_MEM_RAM).1 ≠ none)
    (haddr : 0 < block_addr) (hspace : block_addr + capacity ≤ 2 ^ 32)
    (hsum : size1 + size2 < capacity) :
    ∃ a1 a2 : Nat,
      (gpu_pool_malloc (gpu_pool_init P block_addr pool_start capacity) size1).1 = some a1 ∧
      (gpu_pool_malloc
        (gpu_pool_malloc (gpu_pool_init P block_addr pool_start capacity) size1).2 size2).1
        = some a2 ∧
      a1 = block_addr ∧ a2 = block_addr + size1 ∧ a1 + size1 ≤ a2 ∧
      (gpu_pool_malloc
        (gpu_pool_reset
          (gpu_pool_malloc
            (gpu_pool_malloc (gpu_pool_init P block_addr pool_start capacity) size1).2 size2).2)
        size1).1 = some a1 := by
  have hinit : gpu_pool_init P block_addr pool_start capacity = ⟨block_addr, 0, capacity⟩ := by
    unfold gpu_pool_init pool_start
    cases h : (gpu_alloc_mapped P capacity VGL_MEM_RAM).1 with
    | none => exact absurd h halloc
    | some m => rfl
  rw [hinit]
  have e1 : u32 size1 = size1 := Nat.mod_eq_of_lt (by omega)
  have e2 : u32 (size1 + size2) = size1 + size2 := Nat.mod_eq_of_lt (by omega)
  have e3 : u32 block_addr = block_addr := Nat.mod_eq_of_lt (by omega)
  have e4 : u32 (block_addr + size1) = block_addr + size1 := Nat.mod_eq_of_lt (by omega)
  have p1 : ptr_of_addr block_addr = some block_addr := ptr_of_addr_ne_zero _ (by omega)
  have p2 : ptr_of_addr (block_addr + size1) = some (block_addr + size1) :=
    ptr_of_addr_ne_zero _ (by omega)
  have c1 : size1 < capacity := by omega
  have m1 : gpu_pool_malloc ⟨block_addr, 0, capacity⟩ size1 =
      (some block_addr, ⟨block_addr, size1, capacity⟩) := by
    simp only [gpu_pool_malloc, Nat.zero_add, Nat.add_zero, e1, e3, c1, if_true, p1]
  have m2 : gpu_pool_malloc ⟨block_addr, size1, capacity⟩ size2 =
      (some (block_addr + size1), ⟨block_addr, size1 + size2, capacity⟩) := by
    simp only [gpu_pool_malloc, e2, e4, hsum, if_true, p2]
  refine ⟨block_addr, block_addr + size1, ?_, ?_, rfl, rfl, le_refl _, ?_⟩
  · rw [m1]
  · rw [m1, m2]
  · rw [m1, m2]
    simp only [gpu_pool_reset]
    rw [m1]

theorem gpu_pool_fresh_two_mallocs_witness :
    (gpu_alloc_mapped plainPlatform 100 VGL_MEM_RAM).1 ≠ none ∧ 0 < 0x1000 ∧
    0x1000 + 100 ≤ 2 ^ 32 ∧ 10 + 20 < 100 ∧
    ∃ a1 a2 : Nat,
      (gpu_pool_malloc (gpu_pool_init plainPlatform 0x1000 pool_start 100) 10).1 = some a1 ∧
      (gpu_pool_malloc
        (gpu_pool_malloc (gpu_pool_init plainPlatform 0x1000 pool_start 100) 10).2 20).1
        = some a2 ∧
      a1 = 0x1000 ∧ a2 = 0x1000 + 10 ∧ a1 + 10 ≤ a2 ∧
      (gpu_pool_malloc
        (gpu_pool_reset
          (gpu_pool_malloc
            (gpu_pool_malloc (gpu_pool_init plainPlatform 0x1000 pool_start 100) 10).2 20).2)
        10).1 = some a1 :=
  ⟨by simp [gpu_alloc_mapped, plainPlatform], by decide, by decide, by decide,
    gpu_pool_fresh_two_mallocs plainPlatform 0x1000 100 10 20
      (by simp [gpu_alloc_mapped, plainPlatform]) (by decide) (by decide) (by decide)⟩

/-! ### `ALIGN` to a power of two -/

theorem mask_pow_testBit (k j : Nat) (hk : k ≤ 32) :
    (2 ^ 32 - 2 ^ k : Nat).testBit j = (decide (k ≤ j) && decide (j < 32)) := by
  have e : (2 ^ 32 - 2 ^ k : Nat) = (2 ^ (32 - k) - 1) <<< k := by
    rw [Nat.shiftLeft_eq, Nat.sub_mul, ← pow_add, Nat.one_mul]
    congr 2
    omega
  rw [e, Nat.testBit_shiftLeft, Nat.testBit_two_pow_sub_one]
  by_cases h : k ≤ j
  · simp only [ge_iff_le, h, decide_True, Bool.true_and]
    congr 1
    apply propext
    omega
  · simp [h]

theorem and_mask_pow (y k : Nat) (hy : y < 2 ^ 32) (hk : k ≤ 32) :
    y &&& (2 ^ 32 - 2 ^ k) = y / 2 ^ k * 2 ^ k := by
  apply Nat.eq_of_testBit_eq
  intro j
  have e : y / 2 ^ k * 2 ^ k = (y >>> k) <<< k := by
    rw [Nat.shiftRight_eq_div_pow, Nat.shiftLeft_eq]
  rw [e, Nat.testBit_and, mask_pow_testBit k j hk, Nat.testBit_shiftLeft, Nat.testBit_shiftRight]
  by_cases h : k ≤ j
  · have e2 : k + (j - k) = j := by omega
    by_cases h32 : j < 32
    · simp [h, h32, e2]
    · simp [h, h32, e2, testBit_ge32 y hy j (by omega)]
  · simp [h]

theorem ALIGN_pow (x k : Nat) (hk : k ≤ 31) (hx : x + 2 ^ k - 1 < 2 ^ 32) :
    ALIGN x (2 ^ k) = (x + 2 ^ k - 1) / 2 ^ k * 2 ^ k := by
  have hpos : 0 < 2 ^ k := Nat.pos_pow_of_pos _ (by norm_num)
  have hle : 2 ^ k ≤ 2 ^ 31 := Nat.pow_le_pow_right (by norm_num) hk
  unfold ALIGN u32
  have h1 : (2 ^ k + 2 ^ 32 - 1) % 2 ^ 32 = 2 ^ k - 1 := by omega
  rw [h1]
  have h2 : x + (2 ^ k - 1) = x + 2 ^ k - 1 := by omega
  rw [h2, Nat.mod_eq_of_lt hx]
  have h3 : 2 ^ 32 - 1 - (2 ^ k - 1) = 2 ^ 32 - 2 ^ k := by omega
  rw [h3]
  exact and_mask_pow _ k hx (by omega)

theorem round_up_least (x a : Nat) (ha : 0 < a) :
    a ∣ (x + a - 1) / a * a ∧ x ≤ (x + a - 1) / a * a ∧
    ∀ m, a ∣ m → x ≤ m → (x + a - 1) / a * a ≤ m := by
  refine ⟨Dvd.intro_left _ rfl, ?_, ?_⟩
  · have := Nat.div_add_mod (x + a - 1) a
    have hm := Nat.mod_lt (x + a - 1) ha
    rw [Nat.mul_comm] at this
    omega
  · rintro m ⟨q, rfl⟩ hxm
    rw [Nat.mul_comm a q]
    apply Nat.mul_le_mul_right
    apply Nat.le_of_lt_succ
    rw [Nat.div_lt_iff_lt_mul ha, Nat.succ_mul, Nat.mul_comm q a]
    omega

theorem round_up_lt_two_pow (x k : Nat) (hk : k ≤ 32)
    (hr : (x + 2 ^ k - 1) / 2 ^ k * 2 ^ k < 2 ^ 32) : x + 2 ^ k - 1 < 2 ^ 32 := by
  by_contra hc
  have hpos : 0 < 2 ^ k := Nat.pos_pow_of_pos _ (by norm_num)
  have h1 : 2 ^ 32 / 2 ^ k ≤ (x + 2 ^ k - 1) / 2 ^ k := Nat.div_le_div_right (by omega)
  have h2 : 2 ^ 32 / 2 ^ k * 2 ^ k = 2 ^ 32 := by
    have : (2 : Nat) ^ 32 = 2 ^ (32 - k) * 2 ^ k := by rw [← pow_add]; congr 1; omega
    rw [this, Nat.mul_div_cancel _ hpos]
  have h3 := Nat.mul_le_mul_right (2 ^ k) h1
  omega

theorem gpu_pool_memalign_cases (pool : Pool) (size k : Nat) (hk : k ≤ 31)
    (hfit : (pool.pool_index + 2 ^ k - 1) / 2 ^ k * 2 ^ k + size < 2 ^ 32) :
    (2 ^ k ∣ (pool.pool_index + 2 ^ k - 1) / 2 ^ k * 2 ^ k ∧
      pool.pool_index ≤ (pool.pool_index + 2 ^ k - 1) / 2 ^ k * 2 ^ k ∧
      ∀ m, 2 ^ k ∣ m → pool.pool_index ≤ m → (pool.pool_index + 2 ^ k - 1) / 2 ^ k * 2 ^ k ≤ m) ∧
    ((pool.pool_index + 2 ^ k - 1) / 2 ^ k * 2 ^ k + size < pool.pool_size →
      (gpu_pool_memalign pool size (2 ^ k)).1 =
        ptr_of_addr (u32 (pool.pool_addr + (pool.pool_index + 2 ^ k - 1) / 2 ^ k * 2 ^ k)) ∧
      (gpu_pool_memalign pool size (2 ^ k)).2.pool_index =
        (pool.pool_index + 2 ^ k - 1) / 2 ^ k * 2 ^ k + size ∧
      (gpu_pool_memalign pool size (2 ^ k)).2.pool_addr = pool.pool_addr ∧
      (gpu_pool_memalign pool size (2 ^ k)).2.pool_size = pool.pool_size) ∧
    (¬ (pool.pool_index + 2 ^ k - 1) / 2 ^ k * 2 ^ k + size < pool.pool_size →
      (gpu_pool_memalign pool size (2 ^ k)).1 = none ∧
      (gpu_pool_memalign pool size (2 ^ k)).2 = pool) := by
  have hpos : 0 < 2 ^ k := Nat.pos_pow_of_pos _ (by norm_num)
  have hA : ALIGN pool.pool_index (2 ^ k) = (pool.pool_index + 2 ^ k - 1) / 2 ^ k * 2 ^ k :=
    ALIGN_pow _ k hk (round_up_lt_two_pow _ k (by omega) (by omega))
  have e : u32 ((pool.pool_index + 2 ^ k - 1) / 2 ^ k * 2 ^ k + size) =
      (pool.pool_index + 2 ^ k - 1) / 2 ^ k * 2 ^ k + size := Nat.mod_eq_of_lt hfit
  refine ⟨round_up_least _ _ hpos, ?_⟩
  unfold gpu_pool_memalign
  simp only [hA, e]
  by_cases h : (pool.pool_index + 2 ^ k - 1) / 2 ^ k * 2 ^ k + size < pool.pool_size
  · simp [h]
  · simp [h]

/-- C15 (amended): for every pool state and every power-of-two alignment `2^k`
(`k <= 31`), with `r` the smallest multiple of the alignment that is `>=` the current
offset, `base + r`, as a 32-bit address, not the null address and `r + size < 2^32`,
`gpu_pool_memalign(size, alignment)` succeeds (returns a non-null pointer) if and only
if `r + size < capacity`, on success returns `base + r` (a 32-bit address) and sets
the offset to `r + size`, and on failure returns null and leaves the pool unchanged. -/
theorem gpu_pool_memalign_spec (pool : Pool) (size k : Nat) (hk : k ≤ 31)
    (hbase : u32 (pool.pool_addr + (pool.pool_index + 2 ^ k - 1) / 2 ^ k * 2 ^ k) ≠ 0)
    (hfit : (pool.pool_index + 2 ^ k - 1) / 2 ^ k * 2 ^ k + size < 2 ^ 32) :
    (2 ^ k ∣ (pool.pool_index + 2 ^ k - 1) / 2 ^ k * 2 ^ k ∧
      pool.pool_index ≤ (pool.pool_index + 2 ^ k - 1) / 2 ^ k * 2 ^ k ∧
      ∀ m, 2 ^ k ∣ m → pool.pool_index ≤ m → (pool.pool_index + 2 ^ k - 1) / 2 ^ k * 2 ^ k ≤ m) ∧
    ((gpu_pool_memalign pool size (2 ^ k)).1 ≠ none ↔
      (pool.pool_index + 2 ^ k - 1) / 2 ^ k * 2 ^ k + size < pool.pool_size) ∧
    ((pool.pool_index + 2 ^ k - 1) / 2 ^ k * 2 ^ k + size < pool.pool_size →
      (gpu_pool_memalign pool size (2 ^ k)).1 =
        some (u32 (pool.pool_addr + (pool.pool_index + 2 ^ k - 1) / 2 ^ k * 2 ^ k)) ∧
      (gpu_pool_memalign pool size (2 ^ k)).2.pool_index =
        (pool.pool_index + 2 ^ k - 1) / 2 ^ k * 2 ^ k + size ∧
      (gpu_pool_memalign pool size (2 ^ k)).2.pool_addr = pool.pool_addr ∧
      (gpu_pool_memalign pool size (2 ^ k)).2.pool_size = pool.pool_size) ∧
    (¬ (pool.pool_index + 2 ^ k - 1) / 2 ^ k * 2 ^ k + size < pool.pool_size →
      (gpu_pool_memalign pool size (2 ^ k)).1 = none ∧
      (gpu_pool_memalign pool size (2 ^ k)).2 = pool) := by
  obtain ⟨hr, hs, hf⟩ := gpu_pool_memalign_cases pool size k hk hfit
  have hp := ptr_of_addr_ne_zero _ hbase
  refine ⟨hr, ⟨?_, ?_⟩, ?_, hf⟩
  · intro hne
    by_contra hc
    exact hne (hf hc).1
  · intro hc
    rw [(hs hc).1, hp]
    simp
  · intro hc
    refine ⟨?_, (hs hc).2⟩
    rw [(hs hc).1, hp]

theorem gpu_pool_memalign_spec_witness :
    4 ≤ 31 ∧ u32 (0x1000 + (10 + 2 ^ 4 - 1) / 2 ^ 4 * 2 ^ 4) ≠ 0 ∧
    (10 + 2 ^ 4 - 1) / 2 ^ 4 * 2 ^ 4 + 20 < 2 ^ 32 ∧
    ((2 ^ 4 ∣ (10 + 2 ^ 4 - 1) / 2 ^ 4 * 2 ^ 4 ∧
      10 ≤ (10 + 2 ^ 4 - 1) / 2 ^ 4 * 2 ^ 4 ∧
      ∀ m, 2 ^ 4 ∣ m → 10 ≤ m → (10 + 2 ^ 4 - 1) / 2 ^ 4 * 2 ^ 4 ≤ m) ∧
    ((gpu_pool_memalign ⟨0x1000, 10, 100⟩ 20 (2 ^ 4)).1 ≠ none ↔
      (10 + 2 ^ 4 - 1) / 2 ^ 4 * 2 ^ 4 + 20 < 100) ∧
    ((10 + 2 ^ 4 - 1) / 2 ^ 4 * 2 ^ 4 + 20 < 100 →
      (gpu_pool_memalign ⟨0x1000, 10, 100⟩ 20 (2 ^ 4)).1 =
        some (u32 (0x1000 + (10 + 2 ^ 4 - 1) / 2 ^ 4 * 2 ^ 4)) ∧
      (gpu_pool_memalign ⟨0x1000, 10, 100⟩ 20 (2 ^ 4)).2.pool_index =
        (10 + 2 ^ 4 - 1) / 2 ^ 4 * 2 ^ 4 + 20 ∧
      (gpu_pool_memalign ⟨0x1000, 10, 100⟩ 20 (2 ^ 4)).2.pool_addr = 0x1000 ∧
      (gpu_pool_memalign ⟨0x1000, 10, 100⟩ 20 (2 ^ 4)).2.pool_size = 100) ∧
    (¬ (10 + 2 ^ 4 - 1) / 2 ^ 4 * 2 ^ 4 + 20 < 100 →
      (gpu_pool_memalign ⟨0x1000, 10, 100⟩ 20 (2 ^ 4)).1 = none ∧
      (gpu_pool_memalign ⟨0x1000, 10, 100⟩ 20 (2 ^ 4)).2 = ⟨0x1000, 10, 100⟩)) :=
  ⟨by decide, by decide, by decide,
    gpu_pool_memalign_spec ⟨0x1000, 10, 100⟩ 20 4 (by decide) (by decide) (by decide)⟩

/-- C15 (counterexample): at offset 8 in a pool of capacity 100, with alignment 8
(`r = 8`) the request of `2^32 - 4` bytes makes `new_index + size` wrap to 4, so the
call succeeds and sets the offset to 4 although `r + size` is far above the
capacity; and in the pool left by a `gpu_pool_init(100)` whose allocation failed
(base `NULL`, offset 0) the request of 10 bytes with alignment 8, with
`r + size < capacity`, returns the null pointer and still moves the offset to 10. -/
theorem gpu_pool_memalign_wrap_and_null :
    (gpu_pool_memalign ⟨0x1000, 8, 100⟩ (2 ^ 32 - 4) (2 ^ 3)).1 = some 0x1008 ∧
    (gpu_pool_memalign ⟨0x1000, 8, 100⟩ (2 ^ 32 - 4) (2 ^ 3)).2.pool_index = 4 ∧
    ¬ ((8 + 2 ^ 3 - 1) / 2 ^ 3 * 2 ^ 3 + (2 ^ 32 - 4) < 100) ∧
    (gpu_pool_init (onlyDomainPlatform VGL_MEM_EXTERNAL) 0x1000 pool_start 100).pool_addr = 0 ∧
    (gpu_pool_init (onlyDomainPlatform VGL_MEM_EXTERNAL) 0x1000 pool_start 100).pool_index = 0 ∧
    (gpu_pool_init (onlyDomainPlatform VGL_MEM_EXTERNAL) 0x1000 pool_start 100).pool_size = 100 ∧
    (gpu_pool_memalign
      (gpu_pool_init (onlyDomainPlatform VGL_MEM_EXTERNAL) 0x1000 pool_start 100)
      10 (2 ^ 3)).1 = none ∧
    (gpu_pool_memalign
      (gpu_pool_init (onlyDomainPlatform VGL_MEM_EXTERNAL) 0x1000 pool_start 100)
      10 (2 ^ 3)).2.pool_index = 10 ∧
    (0 + 2 ^ 3 - 1) / 2 ^ 3 * 2 ^ 3 + 10 < 100 := by
  decide

/-! ### Pool invariant -/

theorem pool_after_bound (pool : Pool) (c : PoolCall) (h : pool.pool_index ≤ pool.pool_size) :
    (pool_after pool c).pool_index ≤ (pool_after pool c).pool_size ∧
    (pool_after pool c).pool_size = pool.pool_size := by
  cases c with
  | malloc size =>
    simp only [pool_after, gpu_pool_malloc]
    split_ifs with hc
    · exact ⟨le_of_lt hc, rfl⟩
    · exact ⟨h, rfl⟩
  | memalign size alignment =>
    simp only [pool_after, gpu_pool_memalign]
    split_ifs with hc
    · exact ⟨le_of_lt hc, rfl⟩
    · exact ⟨h, rfl⟩
  | reset => exact ⟨Nat.zero_le _, rfl⟩

theorem pool_after_all_bound (calls : List PoolCall) :
    ∀ pool : Pool, pool.pool_index ≤ pool.pool_size →
      (pool_after_all pool calls).pool_index ≤ (pool_after_all pool calls).pool_size ∧
      (pool_after_all pool calls).pool_size = pool.pool_size := by
  induction calls with
  | nil => intro pool h; exact ⟨h, rfl⟩
  | cons c cs ih =>
    intro pool h
    obtain ⟨h1, h2⟩ := pool_after_bound pool c h
    obtain ⟨h3, h4⟩ := ih (pool_after pool c) h1
    simp only [pool_after_all, List.foldl_cons] at h3 h4 ⊢
    exact ⟨h3, by rw [h4, h2]⟩

/-- C16 (amended): in every pool state reachable from `gpu_pool_init(capacity)` by any
sequence of `gpu_pool_malloc`, `gpu_pool_memalign` and `gpu_pool_reset` calls with
arbitrary arguments, `0 <= offset <= capacity` holds; a `gpu_pool_malloc` call with
`offset + size < 2^32`, and a `gpu_pool_memalign` call with a power-of-two alignment
and `r + size < 2^32` (`r` the offset rounded up to the alignment), leaves the offset
greater than or equal to its value before the call; `gpu_pool_reset` sets it to 0. -/
theorem pool_invariant (P : Platform) (block_addr capacity : Nat) (calls : List PoolCall) :
    (0 ≤ (pool_after_all (gpu_pool_init P block_addr pool_start capacity) calls).pool_index ∧
      (pool_after_all (gpu_pool_init P block_addr pool_start capacity) calls).pool_index
        ≤ capacity) ∧
    (∀ pool : Pool, ∀ size, pool.pool_index + size < 2 ^ 32 →
      pool.pool_index ≤ (gpu_pool_malloc pool size).2.pool_index) ∧
    (∀ pool : Pool, ∀ size k, k ≤ 31 →
      (pool.pool_index + 2 ^ k - 1) / 2 ^ k * 2 ^ k + size < 2 ^ 32 →
      pool.pool_index ≤ (gpu_pool_memalign pool size (2 ^ k)).2.pool_index) ∧
    (∀ pool : Pool, (gpu_pool_reset pool).pool_index = 0) := by
  refine ⟨⟨Nat.zero_le _, ?_⟩, ?_, ?_, fun _ => rfl⟩
  · have h := pool_after_all_bound calls (gpu_pool_init P block_addr pool_start capacity)
      (Nat.zero_le _)
    obtain ⟨h1, h2⟩ := h
    rw [h2] at h1
    exact h1
  · intro pool size hfit
    by_cases h : pool.pool_index + size < pool.pool_size
    · rw [((gpu_pool_malloc_cases pool size hfit).1 h).2.1]; omega
    · rw [((gpu_pool_malloc_cases pool size hfit).2 h).2]
  · intro pool size k hk hfit
    have hs := gpu_pool_memalign_cases pool size k hk hfit
    by_cases h : (pool.pool_index + 2 ^ k - 1) / 2 ^ k * 2 ^ k + size < pool.pool_size
    · rw [(hs.2.1 h).2.1]
      have := hs.1.2.1
      omega
    · rw [(hs.2.2 h).2]

/-- C16 (counterexample): in the pool of capacity 100 reached by `gpu_pool_malloc(10)`
the call `gpu_pool_malloc(2^32 - 5)`, a 32-bit argument, succeeds through the wrap of
`pool_index + size` and moves the offset from 10 down to 5. -/
theorem pool_offset_decreases :
    (pool_after_all (gpu_pool_init plainPlatform 0x1000 pool_start 100)
      [PoolCall.malloc 10]).pool_index = 10 ∧
    (gpu_pool_malloc
      (pool_after_all (gpu_pool_init plainPlatform 0x1000 pool_start 100) [PoolCall.malloc 10])
      (2 ^ 32 - 5)).2.pool_index = 5 ∧
    (2 ^ 32 - 5 : Nat) < 2 ^ 32 := by
  decide

/-! ### Texture validity and storage -/

theorem valid_has_data_validate (P : Platform) (format : SceGxmTextureFormat) (tex : texture)
    (texture_data : Buffer) (tex_width tex_height mipCount : Nat)
    (h : valid_has_data tex) :
    valid_has_data
      (validate_compressed P format tex texture_data tex_width tex_height mipCount).tex := by
  unfold validate_compressed
  by_cases hinit : P.sceGxmTextureInitSwizzledArbitrary format tex_width tex_height mipCount < 0
  · rw [if_pos hinit]; exact h
  · rw [if_neg hinit]
    intro _
    simp

theorem valid_has_data_alloc_texture (P : Platform) (w h : Nat) (format : SceGxmTextureFormat)
    (data : Option Mem) (tex : texture) (src_bpp : Nat) (read_cb : Mem → Nat → Nat)
    (write_cb : Mem → Nat → Nat → Mem) (fast_store : Bool) :
    valid_has_data
      (gpu_alloc_texture P w h format data tex src_bpp read_cb write_cb fast_store).tex := by
  generalize hr : gpu_alloc_texture P w h format data tex src_bpp read_cb write_cb fast_store = r
  unfold gpu_alloc_texture at hr
  simp only [] at hr
  have hfree : (if tex.valid = true then gpu_free_texture tex else tex).valid = false := by
    by_cases hv : tex.valid = true
    · rw [if_pos hv]; rfl
    · rw [if_neg hv]; simpa using hv
  generalize (if tex.valid = true then gpu_free_texture tex else tex) = t0 at hr hfree
  have hinvalid : ∀ t : texture, t.valid = false → valid_has_data t := by
    intro t ht hv
    rw [ht] at hv
    exact absurd hv (by decide)
  split at hr
  · subst hr; exact hinvalid _ hfree
  · by_cases hinit : P.sceGxmTextureInitLinear format w h 0 < 0
    · rw [if_pos hinit] at hr
      subst hr; exact hinvalid _ hfree
    · rw [if_neg hinit] at hr
      subst hr
      intro _
      simp

theorem valid_has_data_alloc_compressed (P : Platform) (mip_level w h : Nat)
    (format : SceGxmTextureFormat) (image_size : Nat) (data : Option Mem) (tex : texture)
    (src_bpp : Nat) (read_cb : Option ReadCallback) (hinv : valid_has_data tex) :
    valid_has_data
      (gpu_alloc_compressed_texture P mip_level w h format image_size data tex src_bpp
        read_cb).tex := by
  generalize hr : gpu_alloc_compressed_texture P mip_level w h format image_size data tex src_bpp
    read_cb = r
  unfold gpu_alloc_compressed_texture at hr
  simp only [] at hr
  have hfree : valid_has_data
      (if mip_level = 0 ∧ tex.valid = true then gpu_free_texture tex else tex) := by
    split_ifs
    · intro hv; exact absurd hv (by simp [gpu_free_texture])
    · exact hinv
  generalize (if mip_level = 0 ∧ tex.valid = true then gpu_free_texture tex else tex) = t0
    at hr hfree
  have hmt : ∀ m : vglMemType, valid_has_data { t0 with mtype := m } := fun _ => hfree
  have hinvalid : ∀ t : texture, t.valid = false → valid_has_data t := by
    intro t ht hv
    rw [ht] at hv
    exact absurd hv (by decide)
  by_cases himg : image_size ≠ 0 ∧ (image_size : ℤ) ≠ mip_level_size format w h
  · rw [if_pos himg] at hr
    subst hr
    exact hmt _
  · rw [if_neg himg] at hr
    by_cases hv : t0.valid = false
    · rw [if_pos hv] at hr
      split at hr
      · subst hr; exact hinvalid _ hv
      · subst hr; exact valid_has_data_validate _ _ _ _ _ _ _ (hinvalid _ hv)
    · rw [if_neg hv] at hr
      by_cases hge : t0.gxm_tex.mipCount ≥ mip_level
      · rw [if_pos hge] at hr
        split at hr
        · subst hr; exact valid_has_data_validate _ _ _ _ _ _ _ (hmt _)
        · subst hr; exact valid_has_data_validate _ _ _ _ _ _ _ (hmt _)
      · rw [if_neg hge] at hr
        split at hr
        · subst hr; exact hmt _
        · subst hr
          exact valid_has_data_validate _ _ _ _ _ _ _ (hinvalid _ rfl)

/-- C17 (amended): for every texture in which `valid` implies `data != null`, that
implication holds again after `gpu_free_texture`, after `gpu_alloc_texture` and after
`gpu_alloc_compressed_texture`, whatever their arguments and outcome; after
`gpu_free_texture` the texture is invalid and its `data` pointer is what it was (the
released block). -/
theorem valid_has_data_preserved (tex : texture) (hinv : valid_has_data tex) :
    (valid_has_data (gpu_free_texture tex) ∧ (gpu_free_texture tex).valid = false ∧
      (gpu_free_texture tex).data = tex.data) ∧
    (∀ (P : Platform) (w h : Nat) (format : SceGxmTextureFormat) (data : Option Mem)
      (src_bpp : Nat) (read_cb : Mem → Nat → Nat) (write_cb : Mem → Nat → Nat → Mem)
      (fast_store : Bool),
      valid_has_data
        (gpu_alloc_texture P w h format data tex src_bpp read_cb write_cb fast_store).tex) ∧
    (∀ (P : Platform) (mip_level w h : Nat) (format : SceGxmTextureFormat) (image_size : Nat)
      (data : Option Mem) (src_bpp : Nat) (read_cb : Option ReadCallback),
      valid_has_data
        (gpu_alloc_compressed_texture P mip_level w h format image_size data tex src_bpp
          read_cb).tex) := by
  refine ⟨⟨?_, rfl, rfl⟩, ?_, ?_⟩
  · intro hv; exact absurd hv (by simp [gpu_free_texture])
  · intro P w h format data src_bpp read_cb write_cb fast_store
    exact valid_has_data_alloc_texture P w h format data tex src_bpp read_cb write_cb fast_store
  · intro P mip_level w h format image_size data src_bpp read_cb
    exact valid_has_data_alloc_compressed P mip_level w h format image_size data tex src_bpp
      read_cb hinv

theorem valid_has_data_preserved_witness :
    valid_has_data (compressedTexture 16 16) ∧
    ((valid_has_data (gpu_free_texture (compressedTexture 16 16)) ∧
      (gpu_free_texture (compressedTexture 16 16)).valid = false ∧
      (gpu_free_texture (compressedTexture 16 16)).data = (compressedTexture 16 16).data) ∧
    (∀ (P : Platform) (w h : Nat) (format : SceGxmTextureFormat) (data : Option Mem)
      (src_bpp : Nat) (read_cb : Mem → Nat → Nat) (write_cb : Mem → Nat → Nat → Mem)
      (fast_store : Bool),
      valid_has_data
        (gpu_alloc_texture P w h format data (compressedTexture 16 16) src_bpp read_cb write_cb
          fast_store).tex) ∧
    (∀ (P : Platform) (mip_level w h : Nat) (format : SceGxmTextureFormat) (image_size : Nat)
      (data : Option Mem) (src_bpp : Nat) (read_cb : Option ReadCallback),
      valid_has_data
        (gpu_alloc_compressed_texture P mip_level w h format image_size data
          (compressedTexture 16 16) src_bpp read_cb).tex)) :=
  ⟨by simp [valid_has_data, compressedTexture],
    valid_has_data_preserved (compressedTexture 16 16)
      (by simp [valid_has_data, compressedTexture])⟩

/-- C17 (counterexample): a valid texture with storage satisfies `data != null` if and
only if `valid`; after `gpu_free_texture` it is invalid and `data` still points to
the released block, so the equivalence no longer holds. -/
theorem free_texture_keeps_data :
    data_iff_valid (compressedTexture 16 16) ∧
    ¬ data_iff_valid (gpu_free_texture (compressedTexture 16 16)) ∧
    (gpu_free_texture (compressedTexture 16 16)).valid = false ∧
    (gpu_free_texture (compressedTexture 16 16)).data ≠ none := by
  refine ⟨?_, ?_, rfl, ?_⟩
  · simp [data_iff_valid, compressedTexture]
  · simp [data_iff_valid, compressedTexture, gpu_free_texture]
  · simp [compressedTexture, gpu_free_texture]

/-! ### Palettes -/

/-- C18 (amended): for every call `gpu_alloc_palette(data, w, bpe)` whose allocation
succeeds the palette buffer has 1024 bytes; they are all zero when `data` is null;
when `data` is not null and `bpe = 4` the first `w * 4` bytes are those of the source
and every byte from `w * 4` on is left as the allocator handed it out; when `data` is
not null and `bpe != 4` no byte is written. -/
theorem gpu_alloc_palette_spec (P : Platform) (data : Option Mem) (w bpe : Nat) (fresh : Mem)
    (halloc : (gpu_alloc_mapped P (256 * 4)
      (if P.use_vram then VGL_MEM_VRAM else VGL_MEM_RAM)).1 = some fresh) :
    ∃ buf : Buffer,
      (gpu_alloc_palette P data w bpe).data = some buf ∧ buf.size = 1024 ∧
      (data = none → ∀ k < 1024, buf.bytes k = 0) ∧
      (∀ src, data = some src → bpe = 4 →
        (∀ k < u32 (w * 4), buf.bytes k = src k) ∧ (∀ k, u32 (w * 4) ≤ k → buf.bytes k = fresh k)) ∧
      (∀ src, data = some src → bpe ≠ 4 → ∀ k, buf.bytes k = fresh k) := by
  unfold gpu_alloc_palette
  simp only [halloc]
  refine ⟨_, rfl, rfl, ?_, ?_, ?_⟩
  · intro hd k hk
    subst hd
    simp only [memset]
    rw [if_pos ⟨Nat.zero_le _, by omega⟩]
  · intro src hd hb
    subst hd
    simp only [hb, if_true, memcpy]
    constructor
    · intro k hk
      rw [if_pos ⟨Nat.zero_le _, by omega⟩]
      simp
    · intro k hk
      rw [if_neg (by omega)]
  · intro src hd hb k
    subst hd
    simp only [hb, if_false]

theorem gpu_alloc_palette_spec_witness :
    (gpu_alloc_mapped stalePlatform (256 * 4)
      (if stalePlatform.use_vram then VGL_MEM_VRAM else VGL_MEM_RAM)).1 = some (fun _ => 0xAA) ∧
    ∃ buf : Buffer,
      (gpu_alloc_palette stalePlatform (some rampSource) 256 4).data = some buf ∧
      buf.size = 1024 ∧
      ((some rampSource : Option Mem) = none → ∀ k < 1024, buf.bytes k = 0) ∧
      (∀ src, (some rampSource : Option Mem) = some src → 4 = 4 →
        (∀ k < u32 (256 * 4), buf.bytes k = src k) ∧
        (∀ k, u32 (256 * 4) ≤ k → buf.bytes k = (fun _ => 0xAA) k)) ∧
      (∀ src, (some rampSource : Option Mem) = some src → 4 ≠ 4 →
        ∀ k, buf.bytes k = (fun _ => 0xAA) k) :=
  ⟨rfl, gpu_alloc_palette_spec stalePlatform (some rampSource) 256 4 (fun _ => 0xAA) rfl⟩

/-- C18 (counterexample): with a non-null source, `w = 16` and `bpe = 4` only the
first 64 bytes are written; byte 100 keeps the allocator's stale value `0xAA`, so the
buffer is neither entirely zero nor entirely populated from the source. -/
theorem gpu_alloc_palette_partial :
    ∃ buf : Buffer,
      (gpu_alloc_palette stalePlatform (some rampSource) 16 4).data = some buf ∧
      ¬ (∀ k < 1024, buf.bytes k = 0) ∧ ¬ (∀ k < 1024, buf.bytes k = rampSource k) := by
  refine ⟨_, rfl, ?_, ?_⟩
  · intro h
    exact absurd (h 100 (by norm_num)) (by decide)
  · intro h
    exact absurd (h 100 (by norm_num)) (by decide)

/-! ### Swizzling a whole square texture -/

theorem morton_1_lt (j d : Nat) (hj : j ≤ 16) (hd : d < 4 ^ j) :
    morton_1 d < 2 ^ j ∧ morton_1 (d >>> 1) < 2 ^ j := by
  have h4 : (4 : Nat) ^ j = 2 ^ (2 * j) := by
    rw [pow_mul]; norm_num
  have hd32 : d < 2 ^ 32 :=
    lt_of_lt_of_le (h4 ▸ hd) (Nat.pow_le_pow_right (by norm_num) (by omega))
  have hd2 : d >>> 1 < 2 ^ 32 := by
    rw [Nat.shiftRight_eq_div_pow]
    exact lt_of_le_of_lt (Nat.div_le_self _ _) hd32
  have hbit : ∀ i, 2 * j ≤ i → d.testBit i = false := by
    intro i hi
    apply Nat.testBit_lt_two_pow
    exact lt_of_lt_of_le (h4 ▸ hd) (Nat.pow_le_pow_right (by norm_num) hi)
  constructor
  · apply Nat.lt_pow_two_of_testBit
    intro i hi
    rw [morton_1_testBit d hd32]
    exact hbit _ (by omega)
  · apply Nat.lt_pow_two_of_testBit
    intro i hi
    rw [morton_1_testBit _ hd2, Nat.testBit_shiftRight]
    exact hbit _ (by omega)

theorem u64_natCast (x : Nat) (hx : x < 2 ^ 64) : u64 (x : ℤ) = x := by
  unfold u64
  have : ((x : ℤ) % 2 ^ 64) = (x : ℤ) := Int.emod_eq_of_lt (by omega) (by exact_mod_cast hx)
  rw [this]
  exact Int.toNat_natCast x

theorem swizzle_step_inside (src : Mem) (soff : Nat) (k : Nat) (hk : 2 ≤ k) (hk' : k ≤ 18)
    (isdxt5 : Bool) (st : Mem × Nat) (d : Nat) (hd : d < 2 ^ (k - 2) * 2 ^ (k - 2)) :
    swizzle_step src soff ((2 ^ k : Nat) : ℤ) ((2 ^ k : Nat) : ℤ) 0 0 ((2 ^ k : Nat) : ℤ)
        ((2 ^ k : Nat) : ℤ) isdxt5 false st d =
      (memcpy st.1 st.2 src
          (soff + (morton_1 d * 2 ^ (k - 2) + morton_1 (d >>> 1)) * (if isdxt5 then 16 else 8))
          (if isdxt5 then 16 else 8),
        st.2 + (if isdxt5 then 16 else 8)) := by
  have hd4 : d < 4 ^ (k - 2) := by
    have : (4 : Nat) ^ (k - 2) = 2 ^ (k - 2) * 2 ^ (k - 2) := by
      rw [← Nat.mul_pow]
    rw [this]; exact hd
  obtain ⟨hx, hy⟩ := morton_1_lt (k - 2) d (by omega) hd4
  have hpk : (2 : Nat) ^ k = 2 ^ (k - 2) * 4 := by
    have : k = (k - 2) + 2 := by omega
    conv_lhs => rw [this, pow_add]
    norm_num
  have hk64 : (2 : Nat) ^ k < 2 ^ 64 := Nat.pow_lt_pow_right (by norm_num) (by omega)
  have hn64 : (2 : Nat) ^ (k - 2) < 2 ^ 64 := Nat.pow_lt_pow_right (by norm_num) (by omega)
  have e0 : u64 0 = 0 := by decide
  have e1 : u64 (((2 ^ k : Nat) : ℤ) + 0) = 2 ^ k := by
    rw [Int.add_zero]; exact u64_natCast _ hk64
  have e2 : u64 ((2 ^ k : Nat) : ℤ) = 2 ^ k := u64_natCast _ hk64
  have e3 : Int.tdiv (0 : ℤ) ((4 : Nat) : ℤ) = 0 := by simp
  have e3' : Int.tdiv (0 : ℤ) 4 = 0 := by simp
  have e4 : u64 (Int.tdiv ((2 ^ k : Nat) : ℤ) ((4 : Nat) : ℤ)) = 2 ^ (k - 2) := by
    have : Int.tdiv ((2 ^ k : Nat) : ℤ) ((4 : Nat) : ℤ) = ((2 ^ (k - 2) : Nat) : ℤ) := by
      rw [hpk]
      push_cast
      exact Int.mul_tdiv_cancel _ (by norm_num)
    rw [this]
    exact u64_natCast _ hn64
  have ex : (morton_1 d + 2 ^ 64 - 0) % 2 ^ 64 = morton_1 d := by
    have : morton_1 d < 2 ^ 64 := lt_trans hx hn64
    omega
  have ey : (morton_1 (d >>> 1) + 2 ^ 64 - 0) % 2 ^ 64 = morton_1 (d >>> 1) := by
    have : morton_1 (d >>> 1) < 2 ^ 64 := lt_trans hy hn64
    omega
  unfold swizzle_step d2xy_morton
  simp only [Bool.false_eq_true, if_false, -Nat.reducePow]
  rw [e3, e3', e0, e1, e2, e4, ex, ey, if_neg (by omega), if_neg (by omega)]
  have e5 : soff + morton_1 (d >>> 1) * (if isdxt5 = true then 16 else 8) +
      morton_1 d * 2 ^ (k - 2) * (if isdxt5 = true then 16 else 8) =
      soff + (morton_1 d * 2 ^ (k - 2) + morton_1 (d >>> 1)) * (if isdxt5 = true then 16 else 8) := by
    ring
  rw [e5]

theorem swizzle_full_fold (dst src : Mem) (doff soff : Nat) (k : Nat) (hk : 2 ≤ k) (hk' : k ≤ 18)
    (isdxt5 : Bool) :
    ∀ m, m ≤ 2 ^ (k - 2) * 2 ^ (k - 2) →
      ((List.range m).foldl
        (swizzle_step src soff ((2 ^ k : Nat) : ℤ) ((2 ^ k : Nat) : ℤ) 0 0 ((2 ^ k : Nat) : ℤ)
          ((2 ^ k : Nat) : ℤ) isdxt5 false) (dst, doff)).2
        = doff + m * (if isdxt5 then 16 else 8) ∧
      (∀ d < m, ∀ t < (if isdxt5 then 16 else 8),
        ((List.range m).foldl
          (swizzle_step src soff ((2 ^ k : Nat) : ℤ) ((2 ^ k : Nat) : ℤ) 0 0 ((2 ^ k : Nat) : ℤ)
            ((2 ^ k : Nat) : ℤ) isdxt5 false) (dst, doff)).1
            (doff + d * (if isdxt5 then 16 else 8) + t) =
          src (soff + (morton_1 d * 2 ^ (k - 2) + morton_1 (d >>> 1)) *
            (if isdxt5 then 16 else 8) + t)) ∧
      (∀ a, a < doff ∨ doff + m * (if isdxt5 then 16 else 8) ≤ a →
        ((List.range m).foldl
          (swizzle_step src soff ((2 ^ k : Nat) : ℤ) ((2 ^ k : Nat) : ℤ) 0 0 ((2 ^ k : Nat) : ℤ)
            ((2 ^ k : Nat) : ℤ) isdxt5 false) (dst, doff)).1 a = dst a) := by
  intro m
  induction m with
  | zero =>
    intro _
    refine ⟨by simp, ?_, ?_⟩
    · intro d hd; omega
    · intro a _; rfl
  | succ m ih =>
    intro hm
    obtain ⟨ih1, ih2, ih3⟩ := ih (by omega)
    rw [List.range_succ, List.foldl_append, List.foldl_cons, List.foldl_nil,
      swizzle_step_inside src soff k hk hk' isdxt5 _ m (by omega)]
    generalize hst : (List.range m).foldl
        (swizzle_step src soff ((2 ^ k : Nat) : ℤ) ((2 ^ k : Nat) : ℤ) 0 0 ((2 ^ k : Nat) : ℤ)
          ((2 ^ k : Nat) : ℤ) isdxt5 false) (dst, doff) = st at ih1 ih2 ih3 ⊢
    generalize hbs : (if isdxt5 = true then 16 else 8) = bs at ih1 ih2 ih3 ⊢
    have hbs0 : 0 < bs := by rw [← hbs]; split <;> norm_num
    have hsucc : (m + 1) * bs = m * bs + bs := by ring
    refine ⟨by simp only []; rw [ih1, hsucc]; omega, ?_, ?_⟩
    · intro d hd t ht
      simp only [memcpy]
      by_cases hdm : d = m
      · subst hdm
        rw [if_pos ⟨by omega, by omega⟩, ih1]
        congr 1
        omega
      · have hlt : d < m := by omega
        have hmul : (d + 1) * bs ≤ m * bs := Nat.mul_le_mul_right _ hlt
        have hexp : (d + 1) * bs = d * bs + bs := by ring
        rw [if_neg (by omega)]
        exact ih2 d hlt t ht
    · intro a ha
      simp only [memcpy]
      rw [if_neg (by omega)]
      exact ih3 a (by omega)

theorem swizzle_num_blocks_square (k : Nat) (hk : 2 ≤ k) (hk' : k ≤ 17) :
    ((Int.tdiv (MAX ((2 ^ k : Nat) : ℤ) ((2 ^ k : Nat) : ℤ) * MAX ((2 ^ k : Nat) : ℤ)
        ((2 ^ k : Nat) : ℤ)) 16) % 2 ^ 32).toNat = 2 ^ (k - 2) * 2 ^ (k - 2) := by
  have hmax : MAX ((2 ^ k : Nat) : ℤ) ((2 ^ k : Nat) : ℤ) = ((2 ^ k : Nat) : ℤ) := by
    unfold MAX; simp
  have hpk : (2 : Nat) ^ k = 2 ^ (k - 2) * 4 := by
    have : k = (k - 2) + 2 := by omega
    conv_lhs => rw [this, pow_add]
    norm_num
  have hlt : 2 ^ (k - 2) * 2 ^ (k - 2) < 2 ^ 32 := by
    rw [← pow_add]
    exact Nat.pow_lt_pow_right (by norm_num) (by omega)
  have e : Int.tdiv (((2 ^ k : Nat) : ℤ) * ((2 ^ k : Nat) : ℤ)) 16 =
      ((2 ^ (k - 2) * 2 ^ (k - 2) : Nat) : ℤ) := by
    rw [hpk]
    push_cast
    have : ((2 : ℤ) ^ (k - 2) * 4) * ((2 : ℤ) ^ (k - 2) * 4) = (2 ^ (k - 2) * 2 ^ (k - 2)) * 16 := by
      ring
    rw [this]
    exact Int.mul_tdiv_cancel _ (by norm_num)
  rw [hmax, e]
  have : ((2 ^ (k - 2) * 2 ^ (k - 2) : Nat) : ℤ) % 2 ^ 32 = ((2 ^ (k - 2) * 2 ^ (k - 2) : Nat) : ℤ) :=
    Int.emod_eq_of_lt (by positivity) (by exact_mod_cast hlt)
  rw [this]
  exact Int.toNat_natCast _

/-- C19: for every square texture whose side `s = 2^k` is a power of two `>= 4` (with
`s * s` an `int`, `k <= 15`), the region equal to the whole texture and an 8- or
16-byte block format that is not PVRT 2bpp, `swizzle_compressed_texture_region`
writes, for every `d` in `[0, (s/4)^2)`, destination block `d` with the source block at
row-major index `morton_1(d) * (s/4) + morton_1(d >> 1)`, leaves `dst` just past the
last block, and changes no byte outside those `(s/4)^2` blocks. -/
theorem swizzle_full_square_layout (dst src : Mem) (doff soff : Nat) (k : Nat)
    (hk : 2 ≤ k) (hk' : k ≤ 15) (isdxt5 : Bool) :
    (swizzle_compressed_texture_region dst doff src soff ((2 ^ k : Nat) : ℤ) ((2 ^ k : Nat) : ℤ)
        0 0 ((2 ^ k : Nat) : ℤ) ((2 ^ k : Nat) : ℤ) isdxt5 false).2
      = doff + (2 ^ k / 4) * (2 ^ k / 4) * (if isdxt5 then 16 else 8) ∧
    (∀ d < (2 ^ k / 4) * (2 ^ k / 4), ∀ t < (if isdxt5 then 16 else 8),
      (swizzle_compressed_texture_region dst doff src soff ((2 ^ k : Nat) : ℤ)
          ((2 ^ k : Nat) : ℤ) 0 0 ((2 ^ k : Nat) : ℤ) ((2 ^ k : Nat) : ℤ) isdxt5 false).1
          (doff + d * (if isdxt5 then 16 else 8) + t) =
        src (soff + (morton_1 d * (2 ^ k / 4) + morton_1 (d >>> 1)) *
          (if isdxt5 then 16 else 8) + t)) ∧
    (∀ a, a < doff ∨ doff + (2 ^ k / 4) * (2 ^ k / 4) * (if isdxt5 then 16 else 8) ≤ a →
      (swizzle_compressed_texture_region dst doff src soff ((2 ^ k : Nat) : ℤ)
          ((2 ^ k : Nat) : ℤ) 0 0 ((2 ^ k : Nat) : ℤ) ((2 ^ k : Nat) : ℤ) isdxt5 false).1 a
        = dst a) := by
  have hn : 2 ^ k / 4 = 2 ^ (k - 2) := by
    have : (2 : Nat) ^ k = 2 ^ (k - 2) * 4 := by
      have : k = (k - 2) + 2 := by omega
      conv_lhs => rw [this, pow_add]
      norm_num
    rw [this, Nat.mul_div_cancel _ (by norm_num)]
  rw [hn]
  have hfold := swizzle_full_fold dst src doff soff k hk (by omega) isdxt5
    (2 ^ (k - 2) * 2 ^ (k - 2)) (le_refl _)
  unfold swizzle_compressed_texture_region
  simp only [Bool.false_eq_true, if_false, -Nat.reducePow]
  rw [swizzle_num_blocks_square k hk (by omega)]
  exact hfold

theorem swizzle_full_square_layout_witness :
    2 ≤ 3 ∧ 3 ≤ 15 ∧
    ((swizzle_compressed_texture_region (fun _ => 0) 0 rampSource 0 ((2 ^ 3 : Nat) : ℤ)
        ((2 ^ 3 : Nat) : ℤ) 0 0 ((2 ^ 3 : Nat) : ℤ) ((2 ^ 3 : Nat) : ℤ) false false).2
      = 0 + (2 ^ 3 / 4) * (2 ^ 3 / 4) * (if false then 16 else 8) ∧
    (∀ d < (2 ^ 3 / 4) * (2 ^ 3 / 4), ∀ t < (if false then 16 else 8),
      (swizzle_compressed_texture_region (fun _ => 0) 0 rampSource 0 ((2 ^ 3 : Nat) : ℤ)
          ((2 ^ 3 : Nat) : ℤ) 0 0 ((2 ^ 3 : Nat) : ℤ) ((2 ^ 3 : Nat) : ℤ) false false).1
          (0 + d * (if false then 16 else 8) + t) =
        rampSource (0 + (morton_1 d * (2 ^ 3 / 4) + morton_1 (d >>> 1)) *
          (if false then 16 else 8) + t)) ∧
    (∀ a, a < 0 ∨ 0 + (2 ^ 3 / 4) * (2 ^ 3 / 4) * (if false then 16 else 8) ≤ a →
      (swizzle_compressed_texture_region (fun _ => 0) 0 rampSource 0 ((2 ^ 3 : Nat) : ℤ)
          ((2 ^ 3 : Nat) : ℤ) 0 0 ((2 ^ 3 : Nat) : ℤ) ((2 ^ 3 : Nat) : ℤ) false false).1 a
        = (fun _ => 0) a)) :=
  ⟨by decide, by decide,
    swizzle_full_square_layout (fun _ => 0) rampSource 0 0 3 (by decide) (by decide) false⟩

/-! ### Swizzling a sub-rectangle of a tall texture -/

/-- C20 (the code at a failing input): in a 4 x 16 texture (one block wide, four
high) a full pass writes the block of row 2 at offset `2 * 8`; the pass over the
region of rows 2 and 3 leaves offset `2 * 8` untouched and writes that block (the
region's block 0) at offset `4 * 8`, `dst` having also been advanced for the skipped
blocks (row 0, column 1) and (row 1, column 1), which lie outside the texture. -/
theorem swizzle_region_tall_texture :
    (swizzle_compressed_texture_region (fun _ => 0) 0 blockTagSource 0 4 16 0 0 4 16 false false).1 16
      = blockTagSource (2 * 8) ∧
    (swizzle_compressed_texture_region (fun _ => 0) 0 blockTagSource 0 4 16 0 8 4 8 false false).1 16
      = 0 ∧
    (swizzle_compressed_texture_region (fun _ => 0) 0 blockTagSource 0 4 16 0 8 4 8 false false).1 32
      = blockTagSource 0 ∧
    (swizzle_compressed_texture_region (fun _ => 0) 0 blockTagSource 0 4 16 0 8 4 8 false false).2
      = 10 * 8 ∧
    (swizzle_compressed_texture_region (fun _ => 0) 0 blockTagSource 0 4 16 0 0 4 16 false false).2
      = 4 * 8 := by
  decide

/-! ### `dxt_compress` against `swizzle_compressed_texture_region` -/

theorem u64_zero : u64 0 = 0 := by
  simp [u64]

theorem visits_agree (w h : ℤ) (d : Nat) :
    dxt_compress_visits w h d = swizzle_visits 0 0 w h false d := by
  simp [dxt_compress_visits, swizzle_visits, u64_zero]

theorem dxt_compress_step_skip (P : Platform) (src : Mem) (soff : Nat) (w h aw ah : ℤ)
    (isdxt5 : Bool) (st : Mem × Nat) (d : Nat) (hv : dxt_compress_visits w h d = false) :
    (dxt_compress_step P src soff w h aw ah isdxt5 st d).1 = st.1 := by
  unfold dxt_compress_step
  simp only [dxt_compress_visits, Bool.and_eq_false_imp, Bool.not_eq_true', decide_eq_false_iff_not,
    Bool.not_eq_false', decide_eq_true_eq, not_not] at hv
  simp only []
  by_cases h1 : (d2xy_morton d).1 * 4 ≥ u64 h
  · rw [if_pos h1]
    split <;> rfl
  · rw [if_neg h1, if_pos (hv h1)]
    split <;> rfl

theorem dxt_compress_step_visit (P : Platform) (src : Mem) (soff : Nat) (w h aw ah : ℤ)
    (isdxt5 : Bool) (st : Mem × Nat) (d : Nat) (hv : dxt_compress_visits w h d = true) :
    dxt_compress_step P src soff w h aw ah isdxt5 st d =
      (memcpy st.1 st.2
          (P.stb_compress_dxt_block
            (extract_block src (soff + morton_1 (d >>> 1) * 16 + morton_1 d * u64 w * 16) w
              (fun _ => 0))
            isdxt5 P.fast_texture_compression)
          0 (if isdxt5 then 16 else 8),
        st.2 + (if isdxt5 then 16 else 8)) := by
  unfold dxt_compress_step
  simp only [dxt_compress_visits, Bool.and_eq_true, Bool.not_eq_true', decide_eq_false_iff_not] at hv
  simp only []
  rw [if_neg hv.1, if_neg hv.2]
  rfl

theorem swizzle_step_skip (src : Mem) (soff : Nat) (tw th rx ry rw' rh : ℤ)
    (isdxt5 ispvrt2bpp : Bool) (st : Mem × Nat) (d : Nat)
    (hv : swizzle_visits rx ry rw' rh ispvrt2bpp d = false) :
    (swizzle_step src soff tw th rx ry rw' rh isdxt5 ispvrt2bpp st d).1 = st.1 := by
  unfold swizzle_step
  simp only [swizzle_visits, Bool.and_eq_false_imp, Bool.not_eq_true', decide_eq_false_iff_not,
    Bool.not_eq_false', decide_eq_true_eq] at hv
  simp only []
  by_cases h1 : (d2xy_morton d).1 * 4 ≥ u64 (rh + ry) ∨ (d2xy_morton d).1 * 4 < u64 ry
  · rw [if_pos h1]
    by_cases h2 : (d2xy_morton d).1 * 4 < u64 th
    · rw [if_pos h2]
    · rw [if_neg h2]
  · rw [if_neg h1, if_pos (hv h1)]
    by_cases h2 : (d2xy_morton d).2 * (if ispvrt2bpp = true then 8 else 4) < u64 tw
    · rw [if_pos h2]
    · rw [if_neg h2]

theorem swizzle_step_visit (src : Mem) (soff : Nat) (tw th rx ry rw' rh : ℤ)
    (isdxt5 ispvrt2bpp : Bool) (st : Mem × Nat) (d : Nat)
    (hv : swizzle_visits rx ry rw' rh ispvrt2bpp d = true) :
    swizzle_step src soff tw th rx ry rw' rh isdxt5 ispvrt2bpp st d =
      (memcpy st.1 st.2 src
          (soff +
            (morton_1 (d >>> 1) + 2 ^ 64 - u64 (Int.tdiv rx (if ispvrt2bpp then 8 else 4))) % 2 ^ 64 *
              (if isdxt5 then 16 else 8) +
            (morton_1 d + 2 ^ 64 - u64 (Int.tdiv ry 4)) % 2 ^ 64 *
              u64 (Int.tdiv rw' (if ispvrt2bpp then 8 else 4)) * (if isdxt5 then 16 else 8))
          (if isdxt5 then 16 else 8),
        st.2 + (if isdxt5 then 16 else 8)) := by
  unfold swizzle_step
  simp only [swizzle_visits, Bool.and_eq_true, Bool.not_eq_true', decide_eq_false_iff_not] at hv
  simp only []
  rw [if_neg hv.1, if_neg hv.2]
  cases ispvrt2bpp <;> rfl

theorem steps_same_offset (P : Platform) (src1 src2 : Mem) (soff1 soff2 : Nat) (w h aw ah : ℤ)
    (isdxt5 : Bool) (st1 st2 : Mem × Nat) (d : Nat) (hst : st1.2 = st2.2) :
    (dxt_compress_step P src1 soff1 w h aw ah isdxt5 st1 d).2 =
      (swizzle_step src2 soff2 aw ah 0 0 w h isdxt5 false st2 d).2 := by
  unfold dxt_compress_step swizzle_step
  simp only [add_zero, u64_zero, Nat.not_lt_zero, or_false, Bool.false_eq_true, if_false]
  by_cases h1 : (d2xy_morton d).1 * 4 ≥ u64 h
  · rw [if_pos h1, if_pos h1]
    by_cases h2 : (d2xy_morton d).1 * 4 < u64 ah
    · rw [if_pos h2, if_pos h2]; simp only [hst]
    · rw [if_neg h2, if_neg h2]; exact hst
  · rw [if_neg h1, if_neg h1]
    by_cases h3 : (d2xy_morton d).2 * 4 ≥ u64 w
    · rw [if_pos h3, if_pos h3]
      by_cases h4 : (d2xy_morton d).2 * 4 < u64 aw
      · rw [if_pos h4, if_pos h4]; simp only [hst]
      · rw [if_neg h4, if_neg h4]; exact hst
    · rw [if_neg h3, if_neg h3]
      simp only [hst]

theorem folds_same_offset (P : Platform) (dst1 dst2 src1 src2 : Mem) (doff soff1 soff2 : Nat)
    (w h aw ah : ℤ) (isdxt5 : Bool) (n : Nat) :
    ((List.range n).foldl (dxt_compress_step P src1 soff1 w h aw ah isdxt5) (dst1, doff)).2 =
      ((List.range n).foldl (swizzle_step src2 soff2 aw ah 0 0 w h isdxt5 false) (dst2, doff)).2 := by
  induction n with
  | zero => rfl
  | succ n ih =>
    rw [List.range_succ, List.foldl_append, List.foldl_append]
    simp only [List.foldl_cons, List.foldl_nil]
    exact steps_same_offset P src1 src2 soff1 soff2 w h aw ah isdxt5 _ _ n ih

theorem extract_block_pixels (src : Mem) (soff : Nat) (w : ℤ) (hw0 : 0 ≤ w) (hw1 : w < 2 ^ 31)
    (x y j t : Nat) (hj : j < 4) (ht : t < 16) :
    extract_block src (soff + y * 16 + x * u64 w * 16) w (fun _ => 0) (j * 16 + t) =
      src (soff + ((4 * x + j) * w.toNat + 4 * y) * 4 + t) := by
  obtain ⟨W, rfl⟩ := Int.eq_ofNat_of_zero_le hw0
  have hW : W < 2 ^ 31 := by exact_mod_cast hw1
  have e1 : u64 ((W : ℤ)) = W := u64_natCast W (by omega)
  have e2 : u64 ((W : ℤ) * 4) = W * 4 := by
    have := u64_natCast (W * 4) (by omega)
    push_cast at this
    exact this
  simp only [extract_block, e1, e2, Int.toNat_natCast]
  have hr : List.range 4 = [0, 1, 2, 3] := by decide
  rw [hr]
  simp only [List.foldl_cons, List.foldl_nil, memcpy]
  interval_cases j
  · have c3 : ¬ (3 * 4 * 4 ≤ 0 * 16 + t ∧ 0 * 16 + t < 3 * 4 * 4 + 16) := by omega
    have c2 : ¬ (2 * 4 * 4 ≤ 0 * 16 + t ∧ 0 * 16 + t < 2 * 4 * 4 + 16) := by omega
    have c1 : ¬ (1 * 4 * 4 ≤ 0 * 16 + t ∧ 0 * 16 + t < 1 * 4 * 4 + 16) := by omega
    have c0 : (0 * 4 * 4 ≤ 0 * 16 + t ∧ 0 * 16 + t < 0 * 4 * 4 + 16) := by omega
    rw [if_neg c3, if_neg c2, if_neg c1, if_pos c0]
    congr 1
    have : 0 * 16 + t - 0 * 4 * 4 = t := by omega
    rw [this]; ring
  · have c3 : ¬ (3 * 4 * 4 ≤ 1 * 16 + t ∧ 1 * 16 + t < 3 * 4 * 4 + 16) := by omega
    have c2 : ¬ (2 * 4 * 4 ≤ 1 * 16 + t ∧ 1 * 16 + t < 2 * 4 * 4 + 16) := by omega
    have c1 : (1 * 4 * 4 ≤ 1 * 16 + t ∧ 1 * 16 + t < 1 * 4 * 4 + 16) := by omega
    rw [if_neg c3, if_neg c2, if_pos c1]
    congr 1
    have : 1 * 16 + t - 1 * 4 * 4 = t := by omega
    rw [this]; ring
  · have c3 : ¬ (3 * 4 * 4 ≤ 2 * 16 + t ∧ 2 * 16 + t < 3 * 4 * 4 + 16) := by omega
    have c2 : (2 * 4 * 4 ≤ 2 * 16 + t ∧ 2 * 16 + t < 2 * 4 * 4 + 16) := by omega
    rw [if_neg c3, if_pos c2]
    congr 1
    have : 2 * 16 + t - 2 * 4 * 4 = t := by omega
    rw [this]; ring
  · have c3 : (3 * 4 * 4 ≤ 3 * 16 + t ∧ 3 * 16 + t < 3 * 4 * 4 + 16) := by omega
    rw [if_pos c3]
    congr 1
    have : 3 * 16 + t - 3 * 4 * 4 = t := by omega
    rw [this]; ring

/-- C21: for every `w`, `h`, `aligned_w`, `aligned_h` and block size, `dxt_compress(dst,
src, w, h, aligned_w, aligned_h, isdxt5)` and `swizzle_compressed_texture_region` with
texture size `(aligned_w, aligned_h)`, region `(0, 0, w, h)`, the same `isdxt5` and
`ispvrt2bpp = 0` run over the same Morton indices `0 .. num_blocks - 1`, skip the same
ones, and have `dst` at the same offset before every index, so that each processed
block is written at the same destination offset; a skipped index writes nothing, a
processed one writes one block at `dst`; and for `0 <= w < 2^31` the block processed
for `d` holds, in row `j` at byte `t`, byte `t` of the source row that starts at the
pixel in row `4 * morton_1(d) + j`, column `4 * morton_1(d >> 1)` of the `w`-pixel-wide
RGBA source. -/
theorem dxt_compress_follows_swizzle (P : Platform) (dst1 dst2 src1 src2 : Mem)
    (doff soff1 soff2 : Nat) (w h aw ah : ℤ) (isdxt5 : Bool) :
    (∃ num_blocks : Nat,
      dxt_compress P dst1 doff src1 soff1 w h aw ah isdxt5 =
        (List.range num_blocks).foldl (dxt_compress_step P src1 soff1 w h aw ah isdxt5)
          (dst1, doff) ∧
      swizzle_compressed_texture_region dst2 doff src2 soff2 aw ah 0 0 w h isdxt5 false =
        (List.range num_blocks).foldl (swizzle_step src2 soff2 aw ah 0 0 w h isdxt5 false)
          (dst2, doff)) ∧
    (∀ d, dxt_compress_visits w h d = swizzle_visits 0 0 w h false d) ∧
    (∀ n,
      ((List.range n).foldl (dxt_compress_step P src1 soff1 w h aw ah isdxt5) (dst1, doff)).2 =
        ((List.range n).foldl (swizzle_step src2 soff2 aw ah 0 0 w h isdxt5 false)
          (dst2, doff)).2) ∧
    (∀ (st : Mem × Nat) d, dxt_compress_visits w h d = false →
      (dxt_compress_step P src1 soff1 w h aw ah isdxt5 st d).1 = st.1 ∧
      (swizzle_step src2 soff2 aw ah 0 0 w h isdxt5 false st d).1 = st.1) ∧
    (∀ (st : Mem × Nat) d, dxt_compress_visits w h d = true →
      dxt_compress_step P src1 soff1 w h aw ah isdxt5 st d =
        (memcpy st.1 st.2
            (P.stb_compress_dxt_block
              (extract_block src1 (soff1 + morton_1 (d >>> 1) * 16 + morton_1 d * u64 w * 16) w
                (fun _ => 0))
              isdxt5 P.fast_texture_compression)
            0 (if isdxt5 then 16 else 8),
          st.2 + (if isdxt5 then 16 else 8)) ∧
      ∃ sidx : Nat,
        swizzle_step src2 soff2 aw ah 0 0 w h isdxt5 false st d =
          (memcpy st.1 st.2 src2 sidx (if isdxt5 then 16 else 8),
            st.2 + (if isdxt5 then 16 else 8))) ∧
    (0 ≤ w → w < 2 ^ 31 → ∀ d j t, j < 4 → t < 16 →
      extract_block src1 (soff1 + morton_1 (d >>> 1) * 16 + morton_1 d * u64 w * 16) w
          (fun _ => 0) (j * 16 + t) =
        src1 (soff1 + ((4 * morton_1 d + j) * w.toNat + 4 * morton_1 (d >>> 1)) * 4 + t)) := by
  refine ⟨⟨((Int.tdiv (MAX aw ah * MAX aw ah) 16) % 2 ^ 32).toNat, by rfl, by rfl⟩,
    fun d => visits_agree w h d,
    fun n => folds_same_offset P dst1 dst2 src1 src2 doff soff1 soff2 w h aw ah isdxt5 n,
    ?_, ?_, ?_⟩
  · intro st d hv
    refine ⟨dxt_compress_step_skip P src1 soff1 w h aw ah isdxt5 st d hv, ?_⟩
    apply swizzle_step_skip
    rw [← visits_agree]
    exact hv
  · intro st d hv
    refine ⟨dxt_compress_step_visit P src1 soff1 w h aw ah isdxt5 st d hv, ?_⟩
    have hv' : swizzle_visits 0 0 w h false d = true := by
      rw [← visits_agree]; exact hv
    exact ⟨_, swizzle_step_visit src2 soff2 aw ah 0 0 w h isdxt5 false st d hv'⟩
  · intro hw0 hw1 d j t hj ht
    exact extract_block_pixels src1 soff1 w hw0 hw1 (morton_1 d) (morton_1 (d >>> 1)) j t hj ht

theorem dxt_compress_follows_swizzle_witness :
    (0 : ℤ) ≤ 8 ∧ (8 : ℤ) < 2 ^ 31 ∧ 1 < 4 ∧ 3 < 16 ∧
    extract_block rampSource (0 + morton_1 (2 >>> 1) * 16 + morton_1 2 * u64 8 * 16) 8
        (fun _ => 0) (1 * 16 + 3) =
      rampSource (0 + ((4 * morton_1 2 + 1) * (8 : ℤ).toNat + 4 * morton_1 (2 >>> 1)) * 4 + 3) :=
  ⟨by decide, by decide, by decide, by decide,
    (dxt_compress_follows_swizzle plainPlatform (fun _ => 0) (fun _ => 0) rampSource rampSource
      0 0 0 8 8 8 8 false).2.2.2.2.2 (by decide) (by decide) 2 1 3 (by decide) (by decide)⟩

/-! ### The Morton order as a bijection -/

theorem interleave_lt (n : Nat) : ∀ x y, interleave n x y < 4 ^ n := by
  induction n with
  | zero => intro x y; simp [interleave]
  | succ n ih =>
    intro x y
    have h := ih (x / 2) (y / 2)
    have hx := Nat.mod_lt x (show 0 < 2 by norm_num)
    have hy := Nat.mod_lt y (show 0 < 2 by norm_num)
    simp only [interleave, pow_succ]
    omega

theorem morton_of_interleave (k : Nat) (hk : k ≤ 16) (x y : Nat) (hx : x < 2 ^ k)
    (hy : y < 2 ^ k) :
    interleave k x y < 4 ^ k ∧ morton_1 (interleave k x y) = x ∧
      morton_1 (interleave k x y >>> 1) = y := by
  have hlt := interleave_lt k x y
  have h4 : (4 : Nat) ^ k = 2 ^ (2 * k) := by
    rw [pow_mul]; norm_num
  have h32 : interleave k x y < 2 ^ 32 := by
    rw [h4] at hlt
    exact lt_of_lt_of_le hlt (Nat.pow_le_pow_right (by norm_num) (by omega))
  have h32' : interleave k x y >>> 1 < 2 ^ 32 := by
    rw [Nat.shiftRight_eq_div_pow]
    exact lt_of_le_of_lt (Nat.div_le_self _ _) h32
  refine ⟨hlt, ?_, ?_⟩
  · apply Nat.eq_of_testBit_eq
    intro i
    rw [morton_1_testBit _ h32]
    by_cases hi : i < k
    · exact (interleave_testBit k x y i hi).1
    · have h1 : (interleave k x y).testBit (2 * i) = false := by
        apply Nat.testBit_lt_two_pow
        rw [h4] at hlt
        exact lt_of_lt_of_le hlt (Nat.pow_le_pow_right (by norm_num) (by omega))
      have h2 : x.testBit i = false := by
        apply Nat.testBit_lt_two_pow
        exact lt_of_lt_of_le hx (Nat.pow_le_pow_right (by norm_num) (by omega))
      rw [h1, h2]
  · apply Nat.eq_of_testBit_eq
    intro i
    rw [morton_1_testBit _ h32', Nat.testBit_shiftRight]
    have e : 1 + 2 * i = 2 * i + 1 := by omega
    rw [e]
    by_cases hi : i < k
    · exact (interleave_testBit k x y i hi).2
    · have h1 : (interleave k x y).testBit (2 * i + 1) = false := by
        apply Nat.testBit_lt_two_pow
        rw [h4] at hlt
        exact lt_of_lt_of_le hlt (Nat.pow_le_pow_right (by norm_num) (by omega))
      have h2 : y.testBit i = false := by
        apply Nat.testBit_lt_two_pow
        exact lt_of_lt_of_le hy (Nat.pow_le_pow_right (by norm_num) (by omega))
      rw [h1, h2]

theorem four_pow_le (k : Nat) (hk : k ≤ 16) : 4 ^ k ≤ 2 ^ 32 := by
  have h4 : (4 : Nat) ^ k = 2 ^ (2 * k) := by
    rw [pow_mul]; norm_num
  rw [h4]
  exact Nat.pow_le_pow_right (by norm_num) (by omega)

/-- C22: for every `k` with `0 <= k <= 16` the map `d -> (morton_1(d), morton_1(d >> 1))`
(`d2xy_morton`) is a bijection from `[0, 4^k)` onto `[0, 2^k) x [0, 2^k)`: it sends the
first `4^k` indices into the `2^k` by `2^k` grid, no two of them to the same
coordinate, and reaches every coordinate of the grid. -/
theorem d2xy_morton_bijection (k : Nat) (hk : k ≤ 16) :
    Set.BijOn d2xy_morton (Set.Iio (4 ^ k)) (Set.Iio (2 ^ k) ×ˢ Set.Iio (2 ^ k)) := by
  refine ⟨?_, ?_, ?_⟩
  · intro d hd
    have h := morton_1_lt k d hk hd
    exact ⟨h.1, h.2⟩
  · intro d hd d' hd' heq
    have h1 : d < 2 ^ 32 := lt_of_lt_of_le hd (four_pow_le k hk)
    have h2 : d' < 2 ^ 32 := lt_of_lt_of_le hd' (four_pow_le k hk)
    have e1 := interleave_morton 16 d h1
    have e2 := interleave_morton 16 d' h2
    have hx : morton_1 d = morton_1 d' := congrArg Prod.fst heq
    have hy : morton_1 (d >>> 1) = morton_1 (d' >>> 1) := congrArg Prod.snd heq
    rw [hx, hy, e2] at e1
    have m1 : d % 4 ^ 16 = d := Nat.mod_eq_of_lt (by norm_num at h1 ⊢; exact h1)
    have m2 : d' % 4 ^ 16 = d' := Nat.mod_eq_of_lt (by norm_num at h2 ⊢; exact h2)
    rw [m1, m2] at e1
    exact e1.symm
  · rintro ⟨x, y⟩ ⟨hx, hy⟩
    have h := morton_of_interleave k hk x y hx hy
    refine ⟨interleave k x y, h.1, ?_⟩
    simp only [d2xy_morton, h.2.1, h.2.2]

theorem d2xy_morton_bijection_witness :
    2 ≤ 16 ∧
    Set.BijOn d2xy_morton (Set.Iio (4 ^ 2)) (Set.Iio (2 ^ 2) ×ˢ Set.Iio (2 ^ 2)) :=
  ⟨by decide, d2xy_morton_bijection 2 (by decide)⟩

/-! ### Writes of `gpu_alloc_compressed_texture` and `gpu_alloc_mipmaps` -/

/-- C23 (the code at a failing input): level 1 (8 x 8) of the PVRT 4bpp format is
uploaded from a non-null source, without callback, into a valid 16 x 16 texture that
holds level 0 only.  The chain buffer allocated then has `tex_size = 160` bytes and
the level starts at `offset = 128`; the call reports no error, yet the flat copy has
length `tex_size`, not the size of the level: bytes 160 and 287 of the memory behind
the 160-byte buffer hold source bytes 32 and 159, where the allocator had handed out
zeros. -/
theorem compressed_pvrt_copy_past_buffer :
    gpu_get_mipchain_size 1 (nearest_po2 8) (nearest_po2 8)
      SCE_GXM_TEXTURE_FORMAT_PVRT4BPP_ABGR = 160 ∧
    gpu_get_mip_offset 1 (nearest_po2 8) (nearest_po2 8)
      SCE_GXM_TEXTURE_FORMAT_PVRT4BPP_ABGR = 128 ∧
    (gpu_alloc_compressed_texture plainPlatform 1 8 8 SCE_GXM_TEXTURE_FORMAT_PVRT4BPP_ABGR 32
      (some rampSource) pvrtTexture 4 none).error = none ∧
    ((gpu_alloc_compressed_texture plainPlatform 1 8 8 SCE_GXM_TEXTURE_FORMAT_PVRT4BPP_ABGR 32
      (some rampSource) pvrtTexture 4 none).tex.data.map
        (fun b => (b.size, b.bytes 160, b.bytes 287, b.bytes 288))) =
      some (160, rampSource 32, rampSource 159, 0) ∧
    rampSource 32 ≠ 0 ∧ rampSource 159 ≠ 0 := by
  decide

/-- C24 (the code at a failing input): for a 2048 x 2048 texture and the negative
"full chain" level the sizing loop of `gpu_alloc_mipmaps` runs 11 times and writes
`jumps[0]` to `jumps[10]`; for 4096 x 4096 it runs 12 times, writes `jumps[0]` to
`jumps[11]`, and the downscale loop then reads `jumps[0]` to `jumps[10]`.  Index 10
and index 11 are outside the 10-entry table. -/
theorem mipmaps_jumps_index_past_table :
    mipmaps_po2_loop 34 1 2048 = some 2048 ∧
    (gpu_alloc_mipmaps_sizing (-1) 2048 2048 4).written = [0, 1, 2, 3, 4, 5, 6, 7, 8, 9, 10] ∧
    mipmaps_po2_loop 34 1 4096 = some 4096 ∧
    (gpu_alloc_mipmaps_sizing (-1) 4096 4096 4).written =
      [0, 1, 2, 3, 4, 5, 6, 7, 8, 9, 10, 11] ∧
    (gpu_alloc_mipmaps_sizing (-1) 4096 4096 4).level = 12 ∧
    (mipmaps_downscale plainPlatform (gpu_alloc_mipmaps_sizing (-1) 4096 4096 4).jumps 4
      (gpu_alloc_mipmaps_sizing (-1) 4096 4096 4).level (fun _ => 0) 4096 4096).read =
      [0, 1, 2, 3, 4, 5, 6, 7, 8, 9, 10] := by
  decide

/-- C25 (the code at a failing input): for a 256 x 1 RGBA texture and the negative
"full chain" level the sizing loop of `gpu_alloc_mipmaps` does not run (`h = 1`), so
the new chain buffer has size 0 while `ALIGN(256, 8) * 1 * 4 = 1024` bytes are copied
back into it: byte 1023 of the memory behind the 0-byte buffer holds byte 1023 of the
old level 0. -/
theorem mipmaps_chain_smaller_than_base :
    mipmaps_po2_loop 34 1 256 = some 256 ∧ mipmaps_po2_loop 34 1 1 = some 1 ∧
    (gpu_alloc_mipmaps_sizing (-1) 256 1 4).size = 0 ∧
    (gpu_alloc_mipmaps_sizing (-1) 256 1 4).written = [] ∧
    mipmaps_base_bytes 256 1 4 = 1024 ∧
    ((gpu_alloc_mipmaps plainPlatform (-1) (linearTexture 256 1)).map
      (fun t => t.data.map (fun b => (b.size, b.bytes 1023)))) =
      some (some (0, rampSource 1023)) ∧
    rampSource 1023 ≠ 0 := by
  decide

end VitaGL
